import Mathlib

/-!
# Synthetic pointers over a relocatable, segmented storage model

A shallow embedding of the segment registry (`storage_base.h`, `storage_base.cpp`), of the
addressing models (`wrapper_addressing.h`, `offset_addressing.h`, `based_2d_msk_addressing.h`,
`based_2d_xl_addressing.h`), of the handle type (`synthetic_pointer.h`) and of the bump allocator
(`monotonic_allocation_strategy.h`).

Conventions of the embedding:

* a native pointer, a `std::size_t` and a `uint64_t` are natural numbers below `2 ^ 64`; the null
  pointer is `0`; arithmetic on them is written with an explicit `% 2 ^ 64`;
* a `std::ptrdiff_t` is an integer in `[-2 ^ 63, 2 ^ 63)`; conversions between the signed and the
  unsigned reading of a word are `to_size_t` and `to_ptrdiff_t`;
* the process memory is a function from addresses to bytes;
* the static members of `storage_model_base` are the fields of a state record that every
  operation receives and returns;
* an address returned by `new char[size]` is an input of the operation that calls `new`;
* a function template of the standard library that receives handles as its iterators, such as
  `std::sort`, is an arbitrary terminating algorithm over the operations of its iterator type
  (`iterator_algorithm`), run on handles by `run_handles` and on native pointers by
  `run_native`.
-/

namespace FancyPointers

/-! ## Machine words -/

/-- Conversion of a signed value to `std::size_t` (two's complement, 64 bits). -/
def to_size_t (i : Int) : Nat := (i % 2 ^ 64).toNat

/-- Conversion of a 64-bit word to `std::ptrdiff_t` (two's complement, 64 bits). -/
def to_ptrdiff_t (u : Nat) : Int :=
  if u % 2 ^ 64 < 2 ^ 63 then ((u % 2 ^ 64 : Nat) : Int) else ((u % 2 ^ 64 : Nat) : Int) - 2 ^ 64

/-- Result of a signed 64-bit operation whose exact value is `i`. -/
def wrap_ptrdiff (i : Int) : Int := to_ptrdiff_t (to_size_t i)

/-- Pointer plus unsigned byte count: `char* + size_t`. -/
def ptr_add (p n : Nat) : Nat := (p + n) % 2 ^ 64

/-- Pointer plus signed byte count: `char* + ptrdiff_t`. -/
def ptr_add_diff (p : Nat) (d : Int) : Nat := to_size_t ((p : Int) + d)

/-- Pointer minus pointer: `char const* - char const*`, a `std::ptrdiff_t`. -/
def ptr_diff (p q : Nat) : Int := wrap_ptrdiff ((p : Int) - (q : Int))

/-! ## Process memory -/

/-- The library routine `memset(dst, val, n)`. -/
def memset (mem : Nat → Nat) (dst val n : Nat) : Nat → Nat :=
  fun a => if dst ≤ a ∧ a < dst + n then val else mem a

/-- The library routine `memcpy(dst, src, n)`. -/
def memcpy (mem : Nat → Nat) (dst src n : Nat) : Nat → Nat :=
  fun a => if dst ≤ a ∧ a < dst + n then mem (src + (a - dst)) else mem a

/-- Storing the object representation `bytes` at address `a` (an assignment `*p = v`). -/
def store_bytes (mem : Nat → Nat) (a : Nat) (bytes : List Nat) : Nat → Nat :=
  fun x => if a ≤ x ∧ x < a + bytes.length then bytes.getD (x - a) 0 else mem x

/-- Loading the `n` bytes of the object at address `a` (a read of `*p`). -/
def load_bytes (mem : Nat → Nat) (a n : Nat) : List Nat :=
  (List.range n).map (fun k => mem (a + k))

/-! ## The segment registry: `storage_model_base` -/

/-- The enumerator `storage_model_base::max_segments`. -/
def max_segments : Nat := 3

/-- The enumerator `storage_model_base::max_size`, `1u << 27`. -/
def max_size : Nat := 2 ^ 27

/-- The static members of `storage_model_base`, together with the process memory. The three
tables are declared with `max_segments + 2` slots; an index of `5` or more is a read past the
end of the C++ array. -/
structure storage_model_base where
  /-- Primary buffer of each segment. -/
  sm_segment_ptrs : Nat → Nat
  /-- Size in bytes of each segment. -/
  sm_segment_size : Nat → Nat
  /-- Shadow buffer of each segment. -/
  sm_shadow_ptrs : Nat → Nat
  /-- Set once `init_segments` has run. -/
  sm_ready : Bool
  /-- Process memory, one byte per address. -/
  memory : Nat → Nat

namespace storage_model_base

/-- The registry as the program starts: the static tables are zero-initialised, `sm_ready` is
`false`. -/
def initial (mem : Nat → Nat) : storage_model_base :=
  { sm_segment_ptrs := fun _ => 0
    sm_segment_size := fun _ => 0
    sm_shadow_ptrs := fun _ => 0
    sm_ready := false
    memory := mem }

/-- `storage_model_base::segment_address`. -/
def segment_address (st : storage_model_base) (segment : Nat) : Nat := st.sm_segment_ptrs segment

/-- `storage_model_base::segment_size`. -/
def segment_size (st : storage_model_base) (segment : Nat) : Nat := st.sm_segment_size segment

/-- `storage_model_base::first_segment_index`. -/
def first_segment_index : Nat := 2

/-- `storage_model_base::last_segment_index`. -/
def last_segment_index : Nat := max_segments + 1

/-- `storage_model_base::max_segment_count`. -/
def max_segment_count : Nat := max_segments

/-- `storage_model_base::max_segment_size`. -/
def max_segment_size : Nat := max_size

/-- The values taken by `i` in
`for (i = first_segment_index(); i <= last_segment_index(); ++i)`. -/
def segment_indices : List Nat :=
  (List.range (last_segment_index + 1 - first_segment_index)).map (fun k => first_segment_index + k)

/-- `storage_model_base::allocate_segment`; `new_shadow` and `new_primary` are the addresses
returned by the two `new char[size]` expressions, in the order of the source. -/
def allocate_segment (st : storage_model_base) (segment size new_shadow new_primary : Nat) :
    storage_model_base :=
  if segment ≥ first_segment_index ∧ segment ≤ last_segment_index ∧ size ≤ max_size ∧
      st.sm_segment_ptrs segment = 0 then
    { sm_shadow_ptrs := Function.update st.sm_shadow_ptrs segment new_shadow
      sm_segment_ptrs := Function.update st.sm_segment_ptrs segment new_primary
      sm_segment_size := Function.update st.sm_segment_size segment size
      sm_ready := st.sm_ready
      memory := memset (memset st.memory new_shadow 0 size) new_primary 0 size }
  else st

/-- `storage_model_base::deallocate_segment`. -/
def deallocate_segment (st : storage_model_base) (segment : Nat) : storage_model_base :=
  if st.sm_segment_ptrs segment ≠ 0 then
    { st with
      sm_segment_ptrs := Function.update st.sm_segment_ptrs segment 0
      sm_segment_size := Function.update st.sm_segment_size segment 0
      sm_shadow_ptrs := Function.update st.sm_shadow_ptrs segment 0 }
  else st

/-- `storage_model_base::clear_segments`. -/
def clear_segments (st : storage_model_base) : storage_model_base :=
  segment_indices.foldl (fun s i => deallocate_segment s i) { st with sm_ready := false }

/-- The loop of `init_segments`; `fresh i` is the pair of addresses (shadow, primary) that `new`
returns while segment `i` is allocated. -/
def allocate_all (fresh : Nat → Nat × Nat) : storage_model_base → List Nat → storage_model_base
  | st, [] => st
  | st, i :: rest =>
    allocate_all fresh (allocate_segment st i max_size (fresh i).1 (fresh i).2) rest

/-- `storage_model_base::init_segments`. -/
def init_segments (st : storage_model_base) (fresh : Nat → Nat × Nat) : storage_model_base :=
  if !st.sm_ready then
    { allocate_all fresh st segment_indices with sm_ready := true }
  else st

/-- One iteration of the loop of `reset_segments`. -/
def reset_segment (st : storage_model_base) (i : Nat) : storage_model_base :=
  if st.sm_segment_ptrs i ≠ 0 then
    { st with
      memory := memset (memset st.memory (st.sm_segment_ptrs i) 0 (st.sm_segment_size i))
        (st.sm_shadow_ptrs i) 0 (st.sm_segment_size i) }
  else st

/-- `storage_model_base::reset_segments`. -/
def reset_segments (st : storage_model_base) : storage_model_base :=
  segment_indices.foldl reset_segment st

/-- One iteration of the loop of `swap_segments`: the `memcpy` into the shadow buffer, then the
`std::swap` of the two table entries. -/
def swap_segment (st : storage_model_base) (i : Nat) : storage_model_base :=
  { st with
    memory := memcpy st.memory (st.sm_shadow_ptrs i) (st.sm_segment_ptrs i) (st.sm_segment_size i)
    sm_shadow_ptrs := Function.update st.sm_shadow_ptrs i (st.sm_segment_ptrs i)
    sm_segment_ptrs := Function.update st.sm_segment_ptrs i (st.sm_shadow_ptrs i) }

/-- `storage_model_base::swap_segments`. -/
def swap_segments (st : storage_model_base) : storage_model_base :=
  segment_indices.foldl swap_segment st

end storage_model_base

open storage_model_base

/-! ## Registry states that the program can reach -/

/-- The byte ranges `[a, a + n)` and `[b, b + m)` have no byte in common. -/
def ranges_disjoint (a n b m : Nat) : Prop := n = 0 ∨ m = 0 ∨ a + n ≤ b ∨ b + m ≤ a

/-- What `new char[n]` guarantees of the block `[a, a + n)` it returns in state `st`: the address
is not null, the block lies in the address space, and it shares no byte with a buffer that the
registry still owns. -/
def new_block (st : storage_model_base) (a n : Nat) : Prop :=
  a ≠ 0 ∧ a + n < 2 ^ 64 ∧
    ∀ j, ranges_disjoint a n (st.sm_segment_ptrs j) (st.sm_segment_size j) ∧
      ranges_disjoint a n (st.sm_shadow_ptrs j) (st.sm_segment_size j)

/-- The two blocks returned by `new` inside `allocate_segment(segment, n)`, when the guard of
`allocate_segment` holds and `new` is called. -/
def new_pair (st : storage_model_base) (segment n new_shadow new_primary : Nat) : Prop :=
  (segment ≥ first_segment_index ∧ segment ≤ last_segment_index ∧ n ≤ max_size ∧
      st.sm_segment_ptrs segment = 0) →
    new_block st new_shadow n ∧ new_block st new_primary n ∧
      ranges_disjoint new_shadow n new_primary n ∧ new_shadow ≠ new_primary

/-- The blocks returned by `new` during the loop of `init_segments`. -/
def new_pairs (fresh : Nat → Nat × Nat) : storage_model_base → List Nat → Prop
  | _, [] => True
  | st, i :: rest =>
    new_pair st i max_size (fresh i).1 (fresh i).2 ∧
      new_pairs fresh (allocate_segment st i max_size (fresh i).1 (fresh i).2) rest

/-- The registry states reachable from the initial state by the operations of
`storage_model_base` and by stores of the client into memory. -/
inductive reachable : storage_model_base → Prop
  | initial (mem : Nat → Nat) : reachable (storage_model_base.initial mem)
  | allocate_segment (st : storage_model_base) (segment size new_shadow new_primary : Nat) :
      reachable st → new_pair st segment size new_shadow new_primary →
      reachable (st.allocate_segment segment size new_shadow new_primary)
  | deallocate_segment (st : storage_model_base) (segment : Nat) :
      reachable st → reachable (st.deallocate_segment segment)
  | init_segments (st : storage_model_base) (fresh : Nat → Nat × Nat) :
      reachable st → new_pairs fresh st segment_indices → reachable (st.init_segments fresh)
  | reset_segments (st : storage_model_base) : reachable st → reachable st.reset_segments
  | swap_segments (st : storage_model_base) : reachable st → reachable st.swap_segments
  | clear_segments (st : storage_model_base) : reachable st → reachable st.clear_segments
  | store (st : storage_model_base) (mem : Nat → Nat) :
      reachable st → reachable { st with memory := mem }

/-- The registry states reachable from the initial state without a call of `deallocate_segment`
from outside of the registry: by `allocate_segment`, `init_segments`, `reset_segments`,
`swap_segments` and `clear_segments`, and by stores of the client into memory. -/
inductive reachable_without_deallocate : storage_model_base → Prop
  | initial (mem : Nat → Nat) : reachable_without_deallocate (storage_model_base.initial mem)
  | allocate_segment (st : storage_model_base) (segment size new_shadow new_primary : Nat) :
      reachable_without_deallocate st → new_pair st segment size new_shadow new_primary →
      reachable_without_deallocate (st.allocate_segment segment size new_shadow new_primary)
  | init_segments (st : storage_model_base) (fresh : Nat → Nat × Nat) :
      reachable_without_deallocate st → new_pairs fresh st segment_indices →
      reachable_without_deallocate (st.init_segments fresh)
  | reset_segments (st : storage_model_base) :
      reachable_without_deallocate st → reachable_without_deallocate st.reset_segments
  | swap_segments (st : storage_model_base) :
      reachable_without_deallocate st → reachable_without_deallocate st.swap_segments
  | clear_segments (st : storage_model_base) :
      reachable_without_deallocate st → reachable_without_deallocate st.clear_segments
  | store (st : storage_model_base) (mem : Nat → Nat) :
      reachable_without_deallocate st → reachable_without_deallocate { st with memory := mem }

/-- What every reachable registry state satisfies. -/
structure registry_invariant (st : storage_model_base) : Prop where
  /-- Slots outside `[first_segment_index, last_segment_index]` are never written. -/
  outside : ∀ i, (i < first_segment_index ∨ last_segment_index < i) →
    st.sm_segment_ptrs i = 0 ∧ st.sm_shadow_ptrs i = 0 ∧ st.sm_segment_size i = 0
  size_le : ∀ i, st.sm_segment_size i ≤ max_size
  null_iff : ∀ i, st.sm_segment_ptrs i = 0 ↔ st.sm_shadow_ptrs i = 0
  null_size : ∀ i, st.sm_segment_ptrs i = 0 → st.sm_segment_size i = 0
  in_space : ∀ i, st.sm_segment_ptrs i + st.sm_segment_size i < 2 ^ 64 ∧
    st.sm_shadow_ptrs i + st.sm_segment_size i < 2 ^ 64
  primary_shadow : ∀ i j, ranges_disjoint (st.sm_segment_ptrs i) (st.sm_segment_size i)
    (st.sm_shadow_ptrs j) (st.sm_segment_size j)
  primary_primary : ∀ i j, i ≠ j → ranges_disjoint (st.sm_segment_ptrs i) (st.sm_segment_size i)
    (st.sm_segment_ptrs j) (st.sm_segment_size j)
  shadow_shadow : ∀ i j, i ≠ j → ranges_disjoint (st.sm_shadow_ptrs i) (st.sm_segment_size i)
    (st.sm_shadow_ptrs j) (st.sm_segment_size j)

/-! ## `based_2d_msk_addressing_model`: one 64-bit word, 48 bits of offset, 16 of segment -/

/-- The data member of `based_2d_msk_addressing_model`: the union of `m_addr` with the four
16-bit words of `m_bits`, held as the value of `m_addr`. -/
structure based_2d_msk_addressing_model where
  m_addr : Nat
  deriving DecidableEq

namespace based_2d_msk_addressing_model

/-- The enumerator `offset_mask`, `0x0000FFFFFFFFFFFF`. -/
def offset_mask : Nat := 0x0000FFFFFFFFFFFF

/-- A read of `m_bits.m_segment`: the fourth 16-bit word of `m_addr`, its high word on the
little-endian targets of the repository. -/
def m_segment (x : based_2d_msk_addressing_model) : Nat := x.m_addr / 2 ^ 48 % 2 ^ 16

/-- A write `m_bits.m_segment = static_cast<uint16_t>(seg)`: the three low words are kept. -/
def set_m_segment (x : based_2d_msk_addressing_model) (seg : Nat) :
    based_2d_msk_addressing_model :=
  ⟨seg % 2 ^ 16 * 2 ^ 48 + x.m_addr % 2 ^ 48⟩

/-- The defaulted default constructor: no initialisation, the word keeps what storage held. -/
def default_ctor (prior : based_2d_msk_addressing_model) : based_2d_msk_addressing_model := prior

/-- `based_2d_msk_addressing_model(std::nullptr_t)`. -/
def null_ctor : based_2d_msk_addressing_model := ⟨0⟩

/-- `based_2d_msk_addressing_model(size_type seg, size_type off)`. -/
def ctor (seg off : Nat) : based_2d_msk_addressing_model :=
  set_m_segment ⟨off % 2 ^ 64⟩ seg

/-- `operator =(std::nullptr_t)`. -/
def assign_null (_x : based_2d_msk_addressing_model) : based_2d_msk_addressing_model := ⟨0⟩

/-- `based_2d_msk_addressing_model::address`. -/
def address (st : storage_model_base) (x : based_2d_msk_addressing_model) : Nat :=
  ptr_add (st.segment_address x.m_segment) (x.m_addr &&& offset_mask)

/-- `based_2d_msk_addressing_model::offset`. -/
def offset (x : based_2d_msk_addressing_model) : Nat := x.m_addr &&& offset_mask

/-- `based_2d_msk_addressing_model::segment`. -/
def segment (x : based_2d_msk_addressing_model) : Nat := x.m_segment

/-- `equals(std::nullptr_t)`. -/
def equals_null (x : based_2d_msk_addressing_model) : Bool := x.m_addr == 0

/-- `equals(void const* p)`. -/
def equals_ptr (st : storage_model_base) (x : based_2d_msk_addressing_model) (p : Nat) : Bool :=
  address st x == p

/-- `equals(based_2d_msk_addressing_model const& other)`. -/
def equals (st : storage_model_base) (x other : based_2d_msk_addressing_model) : Bool :=
  address st x == address st other

/-- `greater_than(std::nullptr_t)`. -/
def greater_than_null (st : storage_model_base) (x : based_2d_msk_addressing_model) : Bool :=
  address st x != 0

/-- `greater_than(void const* p)`. -/
def greater_than_ptr (st : storage_model_base) (x : based_2d_msk_addressing_model) (p : Nat) :
    Bool :=
  decide (address st x > p)

/-- `greater_than(based_2d_msk_addressing_model const& other)`. -/
def greater_than (st : storage_model_base) (x other : based_2d_msk_addressing_model) : Bool :=
  decide (address st x > address st other)

/-- `less_than(std::nullptr_t)`. -/
def less_than_null (_x : based_2d_msk_addressing_model) : Bool := false

/-- `less_than(void const* p)`. -/
def less_than_ptr (st : storage_model_base) (x : based_2d_msk_addressing_model) (p : Nat) :
    Bool :=
  decide (address st x < p)

/-- `less_than(based_2d_msk_addressing_model const& other)`. -/
def less_than (st : storage_model_base) (x other : based_2d_msk_addressing_model) : Bool :=
  decide (address st x < address st other)

/-- The loop of `assign_from` over the segment indices still to visit; `none` when the loop
ends without the early `return`. -/
def assign_from_loop (st : storage_model_base) (x : based_2d_msk_addressing_model) (pdata : Nat) :
    List Nat → Option based_2d_msk_addressing_model
  | [] => none
  | i :: rest =>
    let pbottom := st.segment_address i
    if pbottom ≠ 0 then
      let ptop := ptr_add pbottom (st.segment_size i)
      if pbottom ≤ pdata ∧ pdata < ptop then
        some (set_m_segment ⟨to_size_t (ptr_diff pdata pbottom)⟩ i)
      else assign_from_loop st x pdata rest
    else assign_from_loop st x pdata rest

/-- `based_2d_msk_addressing_model::assign_from`. -/
def assign_from (st : storage_model_base) (x : based_2d_msk_addressing_model) (p : Nat) :
    based_2d_msk_addressing_model :=
  match assign_from_loop st x p segment_indices with
  | some y => y
  | none => ⟨to_size_t (ptr_diff p 0)⟩

/-- `based_2d_msk_addressing_model::decrement`. -/
def decrement (x : based_2d_msk_addressing_model) (dec : Int) : based_2d_msk_addressing_model :=
  ⟨to_size_t ((x.m_addr : Int) - dec)⟩

/-- `based_2d_msk_addressing_model::increment`. -/
def increment (x : based_2d_msk_addressing_model) (inc : Int) : based_2d_msk_addressing_model :=
  ⟨to_size_t ((x.m_addr : Int) + inc)⟩

end based_2d_msk_addressing_model

/-! ## `based_2d_xl_addressing_model`: two 64-bit words -/

/-- The data members of `based_2d_xl_addressing_model`. -/
structure based_2d_xl_addressing_model where
  m_offset : Nat
  m_segment : Nat
  deriving DecidableEq

namespace based_2d_xl_addressing_model

/-- The defaulted default constructor: no initialisation, the words keep what storage held. -/
def default_ctor (prior : based_2d_xl_addressing_model) : based_2d_xl_addressing_model := prior

/-- `based_2d_xl_addressing_model(std::nullptr_t)`. -/
def null_ctor : based_2d_xl_addressing_model := ⟨0, 0⟩

/-- `based_2d_xl_addressing_model(size_type seg, size_type off)`. -/
def ctor (seg off : Nat) : based_2d_xl_addressing_model := ⟨off % 2 ^ 64, seg % 2 ^ 64⟩

/-- `operator =(std::nullptr_t)`. -/
def assign_null (_x : based_2d_xl_addressing_model) : based_2d_xl_addressing_model := ⟨0, 0⟩

/-- `based_2d_xl_addressing_model::address`. -/
def address (st : storage_model_base) (x : based_2d_xl_addressing_model) : Nat :=
  ptr_add (st.segment_address x.m_segment) x.m_offset

/-- `based_2d_xl_addressing_model::offset`. -/
def offset (x : based_2d_xl_addressing_model) : Nat := x.m_offset

/-- `based_2d_xl_addressing_model::segment`. -/
def segment (x : based_2d_xl_addressing_model) : Nat := x.m_segment

/-- `equals(std::nullptr_t)`. -/
def equals_null (st : storage_model_base) (x : based_2d_xl_addressing_model) : Bool :=
  address st x == 0

/-- `equals(void const* p)`. -/
def equals_ptr (st : storage_model_base) (x : based_2d_xl_addressing_model) (p : Nat) : Bool :=
  address st x == p

/-- `equals(based_2d_xl_addressing_model const& other)`. -/
def equals (st : storage_model_base) (x other : based_2d_xl_addressing_model) : Bool :=
  address st x == address st other

/-- `greater_than(std::nullptr_t)`. -/
def greater_than_null (st : storage_model_base) (x : based_2d_xl_addressing_model) : Bool :=
  address st x != 0

/-- `greater_than(void const* p)`. -/
def greater_than_ptr (st : storage_model_base) (x : based_2d_xl_addressing_model) (p : Nat) :
    Bool :=
  decide (address st x > p)

/-- `greater_than(based_2d_xl_addressing_model const& other)`. -/
def greater_than (st : storage_model_base) (x other : based_2d_xl_addressing_model) : Bool :=
  decide (address st x > address st other)

/-- `less_than(std::nullptr_t)`. -/
def less_than_null (_x : based_2d_xl_addressing_model) : Bool := false

/-- `less_than(void const* p)`. -/
def less_than_ptr (st : storage_model_base) (x : based_2d_xl_addressing_model) (p : Nat) : Bool :=
  decide (address st x < p)

/-- `less_than(based_2d_xl_addressing_model const& other)`. -/
def less_than (st : storage_model_base) (x other : based_2d_xl_addressing_model) : Bool :=
  decide (address st x < address st other)

/-- The loop of `assign_from` over the segment indices still to visit; `none` when the loop
ends without the early `return`. -/
def assign_from_loop (st : storage_model_base) (x : based_2d_xl_addressing_model) (pdata : Nat) :
    List Nat → Option based_2d_xl_addressing_model
  | [] => none
  | segment_index :: rest =>
    let pbottom := st.segment_address segment_index
    if pbottom ≠ 0 then
      let ptop := ptr_add pbottom (st.segment_size segment_index)
      if pbottom ≤ pdata ∧ pdata < ptop then
        some ⟨to_size_t (ptr_diff pdata pbottom), segment_index⟩
      else assign_from_loop st x pdata rest
    else assign_from_loop st x pdata rest

/-- `based_2d_xl_addressing_model::assign_from`. -/
def assign_from (st : storage_model_base) (x : based_2d_xl_addressing_model) (p : Nat) :
    based_2d_xl_addressing_model :=
  match assign_from_loop st x p segment_indices with
  | some y => y
  | none => ⟨to_size_t (ptr_diff p 0), 0⟩

/-- `based_2d_xl_addressing_model::decrement`. -/
def decrement (x : based_2d_xl_addressing_model) (dec : Int) : based_2d_xl_addressing_model :=
  { x with m_offset := to_size_t ((x.m_offset : Int) - dec) }

/-- `based_2d_xl_addressing_model::increment`. -/
def increment (x : based_2d_xl_addressing_model) (inc : Int) : based_2d_xl_addressing_model :=
  { x with m_offset := to_size_t ((x.m_offset : Int) + inc) }

end based_2d_xl_addressing_model

/-! ## `wrapper_addressing_model`: a native pointer -/

/-- The data member of `wrapper_addressing_model`: the union of `m_addr` and `m_caddr`. -/
structure wrapper_addressing_model where
  m_addr : Nat
  deriving DecidableEq

namespace wrapper_addressing_model

/-- The defaulted default constructor: no initialisation, the pointer keeps what storage held. -/
def default_ctor (prior : wrapper_addressing_model) : wrapper_addressing_model := prior

/-- `wrapper_addressing_model(std::nullptr_t)`. -/
def null_ctor : wrapper_addressing_model := ⟨0⟩

/-- `wrapper_addressing_model(void*)`. -/
def ctor (p : Nat) : wrapper_addressing_model := ⟨p⟩

/-- `operator =(std::nullptr_t)`. -/
def assign_null (_x : wrapper_addressing_model) : wrapper_addressing_model := ⟨0⟩

/-- `wrapper_addressing_model::address`. -/
def address (x : wrapper_addressing_model) : Nat := x.m_addr

/-- `equals(std::nullptr_t)`. -/
def equals_null (x : wrapper_addressing_model) : Bool := x.m_addr == 0

/-- `equals(void const* p)`. -/
def equals_ptr (x : wrapper_addressing_model) (p : Nat) : Bool := x.m_addr == p

/-- `equals(wrapper_addressing_model const& other)`. -/
def equals (x other : wrapper_addressing_model) : Bool := x.m_addr == other.m_addr

/-- `greater_than(std::nullptr_t)`. -/
def greater_than_null (x : wrapper_addressing_model) : Bool := x.m_addr != 0

/-- `greater_than(void const* p)`. -/
def greater_than_ptr (x : wrapper_addressing_model) (p : Nat) : Bool := decide (x.m_addr > p)

/-- `greater_than(wrapper_addressing_model const& other)`. -/
def greater_than (x other : wrapper_addressing_model) : Bool := decide (x.m_addr > other.m_addr)

/-- `less_than(std::nullptr_t)`. -/
def less_than_null (_x : wrapper_addressing_model) : Bool := false

/-- `less_than(void const* p)`. -/
def less_than_ptr (x : wrapper_addressing_model) (p : Nat) : Bool := decide (x.m_addr < p)

/-- `less_than(wrapper_addressing_model const& other)`. -/
def less_than (x other : wrapper_addressing_model) : Bool := decide (x.m_addr < other.m_addr)

/-- `wrapper_addressing_model::assign_from`, both overloads. -/
def assign_from (_x : wrapper_addressing_model) (p : Nat) : wrapper_addressing_model := ⟨p⟩

/-- `wrapper_addressing_model::decrement`. -/
def decrement (x : wrapper_addressing_model) (dec : Int) : wrapper_addressing_model :=
  ⟨ptr_add_diff x.m_addr (-dec)⟩

/-- `wrapper_addressing_model::increment`. -/
def increment (x : wrapper_addressing_model) (inc : Int) : wrapper_addressing_model :=
  ⟨ptr_add_diff x.m_addr inc⟩

end wrapper_addressing_model

/-! ## `offset_addressing_model`: a signed distance from the handle to its target -/

/-- An `offset_addressing_model` object: `self` is the address at which the object is stored
(the value of `this`), `m_offset` its data member. -/
structure offset_addressing_model where
  self : Nat
  m_offset : Int
  deriving DecidableEq

namespace offset_addressing_model

/-- The enumerator `null_offset`. -/
def null_offset : Int := 1

/-- The address at the distance `null_offset` from an object stored at `this`: the one address
that the object cannot designate, its encoding being the one of null. -/
def reserved (this : Nat) : Nat := to_size_t ((this : Int) + null_offset)

/-- `offset_addressing_model::offset_between`. -/
def offset_between (pfrom pto : Nat) : Int := wrap_ptrdiff ((pto : Int) - (pfrom : Int))

/-- `offset_to(offset_addressing_model const& other)`, called on the object stored at `this`. -/
def offset_to (this : Nat) (other : offset_addressing_model) : Int :=
  if other.m_offset = null_offset then null_offset
  else wrap_ptrdiff (offset_between this other.self + other.m_offset)

/-- `offset_to(void const* other)`, called on the object stored at `this`. -/
def offset_to_ptr (this : Nat) (other : Nat) : Int :=
  if other = 0 then null_offset else offset_between this other

/-- `offset_addressing_model()`, constructing the object stored at `this`. -/
def default_ctor (this : Nat) : offset_addressing_model := ⟨this, null_offset⟩

/-- `offset_addressing_model(offset_addressing_model const&)` and the move constructor,
constructing the object stored at `this`. -/
def copy_ctor (this : Nat) (rhs : offset_addressing_model) : offset_addressing_model :=
  ⟨this, offset_to this rhs⟩

/-- `offset_addressing_model(std::nullptr_t)`. -/
def null_ctor (this : Nat) : offset_addressing_model := ⟨this, null_offset⟩

/-- `offset_addressing_model(void const* p)`. -/
def ctor (this : Nat) (p : Nat) : offset_addressing_model := ⟨this, offset_to_ptr this p⟩

/-- `operator =(offset_addressing_model const&)` and the move assignment. -/
def assign (x rhs : offset_addressing_model) : offset_addressing_model :=
  { x with m_offset := offset_to x.self rhs }

/-- `operator =(std::nullptr_t)`. -/
def assign_null (x : offset_addressing_model) : offset_addressing_model :=
  { x with m_offset := null_offset }

/-- `operator =(void const* p)`. -/
def assign_ptr (x : offset_addressing_model) (p : Nat) : offset_addressing_model :=
  { x with m_offset := offset_to_ptr x.self p }

/-- `offset_addressing_model::address`. -/
def address (x : offset_addressing_model) : Nat :=
  if x.m_offset = null_offset then 0 else (x.self + to_size_t x.m_offset) % 2 ^ 64

/-- `equals(std::nullptr_t)`. -/
def equals_null (x : offset_addressing_model) : Bool := x.m_offset == null_offset

/-- `equals(void const* p)`. -/
def equals_ptr (x : offset_addressing_model) (p : Nat) : Bool := address x == p

/-- `equals(offset_addressing_model const& other)`. -/
def equals (x other : offset_addressing_model) : Bool := address x == address other

/-- `greater_than(std::nullptr_t)`. -/
def greater_than_null (x : offset_addressing_model) : Bool := address x != 0

/-- `greater_than(void const* p)`. -/
def greater_than_ptr (x : offset_addressing_model) (p : Nat) : Bool := decide (address x > p)

/-- `greater_than(offset_addressing_model const& other)`. -/
def greater_than (x other : offset_addressing_model) : Bool :=
  decide (address x > address other)

/-- `less_than(std::nullptr_t)`. -/
def less_than_null (_x : offset_addressing_model) : Bool := false

/-- `less_than(void const* p)`. -/
def less_than_ptr (x : offset_addressing_model) (p : Nat) : Bool := decide (address x < p)

/-- `less_than(offset_addressing_model const& other)`. -/
def less_than (x other : offset_addressing_model) : Bool := decide (address x < address other)

/-- `offset_addressing_model::assign_from`. -/
def assign_from (x : offset_addressing_model) (p : Nat) : offset_addressing_model :=
  { x with m_offset := offset_to_ptr x.self p }

/-- `offset_addressing_model::decrement`. -/
def decrement (x : offset_addressing_model) (dec : Int) : offset_addressing_model :=
  { x with m_offset := wrap_ptrdiff (x.m_offset - dec) }

/-- `offset_addressing_model::increment`. -/
def increment (x : offset_addressing_model) (inc : Int) : offset_addressing_model :=
  { x with m_offset := wrap_ptrdiff (x.m_offset + inc) }

/-- The `offset_addressing_model` object whose storage is the `sizeof(std::ptrdiff_t) == 8`
bytes at address `a` of the memory `mem`: its only data member `m_offset` is the value that
these bytes represent, `decode` being the object representation of `std::ptrdiff_t`. -/
def load (decode : List Nat → Int) (mem : Nat → Nat) (a : Nat) : offset_addressing_model :=
  ⟨a, decode (load_bytes mem a 8)⟩

end offset_addressing_model

/-! ## The operation set that `syn_ptr` and the allocation strategy expect of a model -/

/-- The members of an addressing model `AM` used by `syn_ptr<T, AM>`, and the static member
`segment_pointer` of the storage model bound to it. Where the behaviour of a model depends on
where an object is stored, the operation receives that address as `this`. -/
class addressing_model (AM : Type) where
  /-- `AM()`, for the object stored at `this`; `prior` is what that storage held. -/
  default_ctor : (this : Nat) → (prior : AM) → AM
  /-- `AM(std::nullptr_t)`, for the object stored at `this`. -/
  null_ctor : (this : Nat) → AM
  /-- `AM(AM const&)` and `AM(AM&&)`, for the object stored at `this`. -/
  copy_ctor : (this : Nat) → AM → AM
  /-- `operator =(std::nullptr_t)`. -/
  assign_null : AM → AM
  address : storage_model_base → AM → Nat
  equals_null : storage_model_base → AM → Bool
  equals_ptr : storage_model_base → AM → Nat → Bool
  equals : storage_model_base → AM → AM → Bool
  greater_than_null : storage_model_base → AM → Bool
  greater_than_ptr : storage_model_base → AM → Nat → Bool
  greater_than : storage_model_base → AM → AM → Bool
  less_than_null : storage_model_base → AM → Bool
  less_than_ptr : storage_model_base → AM → Nat → Bool
  less_than : storage_model_base → AM → AM → Bool
  assign_from : storage_model_base → AM → Nat → AM
  decrement : AM → Int → AM
  increment : AM → Int → AM
  /-- `SM::segment_pointer(segment, offset)`, the result being stored at `this`. -/
  segment_pointer : storage_model_base → (this : Nat) → (segment offset : Nat) → AM

/-- `based_2d_msk_storage_model` with its `addressing_model`. -/
instance : addressing_model based_2d_msk_addressing_model where
  default_ctor _ prior := based_2d_msk_addressing_model.default_ctor prior
  null_ctor _ := based_2d_msk_addressing_model.null_ctor
  copy_ctor _ x := x
  assign_null := based_2d_msk_addressing_model.assign_null
  address := based_2d_msk_addressing_model.address
  equals_null _ := based_2d_msk_addressing_model.equals_null
  equals_ptr := based_2d_msk_addressing_model.equals_ptr
  equals := based_2d_msk_addressing_model.equals
  greater_than_null := based_2d_msk_addressing_model.greater_than_null
  greater_than_ptr := based_2d_msk_addressing_model.greater_than_ptr
  greater_than := based_2d_msk_addressing_model.greater_than
  less_than_null _ := based_2d_msk_addressing_model.less_than_null
  less_than_ptr := based_2d_msk_addressing_model.less_than_ptr
  less_than := based_2d_msk_addressing_model.less_than
  assign_from := based_2d_msk_addressing_model.assign_from
  decrement := based_2d_msk_addressing_model.decrement
  increment := based_2d_msk_addressing_model.increment
  segment_pointer _ _ segment offset := based_2d_msk_addressing_model.ctor segment offset

/-- `based_2d_xl_storage_model` with its `addressing_model`. -/
instance : addressing_model based_2d_xl_addressing_model where
  default_ctor _ prior := based_2d_xl_addressing_model.default_ctor prior
  null_ctor _ := based_2d_xl_addressing_model.null_ctor
  copy_ctor _ x := x
  assign_null := based_2d_xl_addressing_model.assign_null
  address := based_2d_xl_addressing_model.address
  equals_null := based_2d_xl_addressing_model.equals_null
  equals_ptr := based_2d_xl_addressing_model.equals_ptr
  equals := based_2d_xl_addressing_model.equals
  greater_than_null := based_2d_xl_addressing_model.greater_than_null
  greater_than_ptr := based_2d_xl_addressing_model.greater_than_ptr
  greater_than := based_2d_xl_addressing_model.greater_than
  less_than_null _ := based_2d_xl_addressing_model.less_than_null
  less_than_ptr := based_2d_xl_addressing_model.less_than_ptr
  less_than := based_2d_xl_addressing_model.less_than
  assign_from := based_2d_xl_addressing_model.assign_from
  decrement := based_2d_xl_addressing_model.decrement
  increment := based_2d_xl_addressing_model.increment
  segment_pointer _ _ segment offset := based_2d_xl_addressing_model.ctor segment offset

/-- `wrapper_storage_model` with its `addressing_model`. -/
instance : addressing_model wrapper_addressing_model where
  default_ctor _ prior := wrapper_addressing_model.default_ctor prior
  null_ctor _ := wrapper_addressing_model.null_ctor
  copy_ctor _ x := x
  assign_null := wrapper_addressing_model.assign_null
  address _ := wrapper_addressing_model.address
  equals_null _ := wrapper_addressing_model.equals_null
  equals_ptr _ := wrapper_addressing_model.equals_ptr
  equals _ := wrapper_addressing_model.equals
  greater_than_null _ := wrapper_addressing_model.greater_than_null
  greater_than_ptr _ := wrapper_addressing_model.greater_than_ptr
  greater_than _ := wrapper_addressing_model.greater_than
  less_than_null _ := wrapper_addressing_model.less_than_null
  less_than_ptr _ := wrapper_addressing_model.less_than_ptr
  less_than _ := wrapper_addressing_model.less_than
  assign_from _ := wrapper_addressing_model.assign_from
  decrement := wrapper_addressing_model.decrement
  increment := wrapper_addressing_model.increment
  segment_pointer st _ segment offset :=
    wrapper_addressing_model.ctor (ptr_add (st.segment_address segment) offset)

/-- `offset_storage_model` with its `addressing_model`. -/
instance : addressing_model offset_addressing_model where
  default_ctor this _ := offset_addressing_model.default_ctor this
  null_ctor this := offset_addressing_model.null_ctor this
  copy_ctor this x := offset_addressing_model.copy_ctor this x
  assign_null := offset_addressing_model.assign_null
  address _ := offset_addressing_model.address
  equals_null _ := offset_addressing_model.equals_null
  equals_ptr _ := offset_addressing_model.equals_ptr
  equals _ := offset_addressing_model.equals
  greater_than_null _ := offset_addressing_model.greater_than_null
  greater_than_ptr _ := offset_addressing_model.greater_than_ptr
  greater_than _ := offset_addressing_model.greater_than
  less_than_null _ := offset_addressing_model.less_than_null
  less_than_ptr _ := offset_addressing_model.less_than_ptr
  less_than _ := offset_addressing_model.less_than
  assign_from _ := offset_addressing_model.assign_from
  decrement := offset_addressing_model.decrement
  increment := offset_addressing_model.increment
  segment_pointer st this segment offset :=
    offset_addressing_model.ctor this (ptr_add (st.segment_address segment) offset)

/-! ## `syn_ptr<T, AM>` -/

/-- The data member of `syn_ptr<T, AM>`. The element type `T` enters the operations below only
through `sizeof(T)`, the parameter `E`. -/
structure syn_ptr (AM : Type) where
  m_addrmodel : AM
  deriving DecidableEq

namespace syn_ptr

variable {AM : Type} [addressing_model AM]

/-- The defaulted `syn_ptr()`, for the handle stored at `this`, whose storage held `prior`: the
member is default-constructed. -/
def of_default (this : Nat) (prior : AM) : syn_ptr AM :=
  ⟨addressing_model.default_ctor this prior⟩

/-- `syn_ptr(AM am)`, for the handle stored at `this`. -/
def of_model (this : Nat) (am : AM) : syn_ptr AM := ⟨addressing_model.copy_ctor this am⟩

/-- `syn_ptr(std::nullptr_t)`, for the handle stored at `this`. -/
def of_null (this : Nat) : syn_ptr AM := ⟨addressing_model.null_ctor this⟩

/-- `syn_ptr(U* p)`, for the handle stored at `this`, whose storage held `prior`. -/
def of_native (st : storage_model_base) (this : Nat) (prior : AM) (p : Nat) : syn_ptr AM :=
  ⟨addressing_model.assign_from st (addressing_model.default_ctor this prior) p⟩

/-- The defaulted copy and move constructors, and `syn_ptr(syn_ptr<U, AM> const&)`, for the
handle stored at `this`. -/
def copy (this : Nat) (src : syn_ptr AM) : syn_ptr AM :=
  ⟨addressing_model.copy_ctor this src.m_addrmodel⟩

/-- `operator =(std::nullptr_t)`. -/
def assign_null (p : syn_ptr AM) : syn_ptr AM := ⟨addressing_model.assign_null p.m_addrmodel⟩

/-- `operator U*()`, the conversion to a native pointer. -/
def to_native (st : storage_model_base) (p : syn_ptr AM) : Nat :=
  addressing_model.address st p.m_addrmodel

/-- The byte count `n * sizeof(T)` as the `difference_type` argument of `increment` and
`decrement`: the product is formed in `std::size_t`. -/
def scaled (E : Nat) (n : Int) : Int := to_ptrdiff_t (to_size_t n * E)

/-- `operator -(syn_ptr const& rhs)`: `(p1 - p2) / sizeof(T)`, the quotient being formed in
`std::size_t` and returned as a `difference_type`. -/
def sub_ptr (E : Nat) (st : storage_model_base) (p rhs : syn_ptr AM) : Int :=
  let p1 := addressing_model.address st p.m_addrmodel
  let p2 := addressing_model.address st rhs.m_addrmodel
  to_ptrdiff_t (to_size_t (ptr_diff p1 p2) / E)

/-- `operator -(difference_type n)`: the local `tmp` is stored at `tmp`, the returned handle at
`ret` (with `ret = tmp` when the copy on return is elided). -/
def sub (E : Nat) (p : syn_ptr AM) (n : Int) (tmp ret : Nat) : syn_ptr AM :=
  copy ret ⟨addressing_model.decrement (copy tmp p).m_addrmodel (scaled E n)⟩

/-- `operator +(difference_type n)`: the local `tmp` is stored at `tmp`, the returned handle at
`ret` (with `ret = tmp` when the copy on return is elided). -/
def add (E : Nat) (p : syn_ptr AM) (n : Int) (tmp ret : Nat) : syn_ptr AM :=
  copy ret ⟨addressing_model.increment (copy tmp p).m_addrmodel (scaled E n)⟩

/-- `syn_ptr::equals(std::nullptr_t)`. -/
def equals_null (st : storage_model_base) (p : syn_ptr AM) : Bool :=
  addressing_model.equals_null st p.m_addrmodel

/-- `syn_ptr::equals(U const* p)`. -/
def equals_ptr (st : storage_model_base) (p : syn_ptr AM) (q : Nat) : Bool :=
  addressing_model.equals_ptr st p.m_addrmodel q

/-- `syn_ptr::equals(syn_ptr<U, AM> const& p)`: `m_addrmodel.equals(p.m_addrmodel)`. -/
def equals (st : storage_model_base) (p q : syn_ptr AM) : Bool :=
  addressing_model.equals st p.m_addrmodel q.m_addrmodel

/-- `syn_ptr::greater_than(syn_ptr<U, AM> const& p)`: `m_addrmodel.greater_than(p)`. The
argument is a handle, not an addressing model, so the call selects the `void const*` overload
through the conversion `operator U*()` of `p`. -/
def greater_than (st : storage_model_base) (p q : syn_ptr AM) : Bool :=
  addressing_model.greater_than_ptr st p.m_addrmodel (to_native st q)

/-- `syn_ptr::less_than(syn_ptr<U, AM> const& p)`: `m_addrmodel.less_than(p)`. The argument is a
handle, not an addressing model, so the call selects the `void const*` overload through the
conversion `operator U*()` of `p`. -/
def less_than (st : storage_model_base) (p q : syn_ptr AM) : Bool :=
  addressing_model.less_than_ptr st p.m_addrmodel (to_native st q)

/-- `operator ==(syn_ptr<T, AM> p1, syn_ptr<U, AM> p2)`; the two parameters are passed by value
and are stored at `l1` and `l2`. -/
def op_eq (st : storage_model_base) (l1 l2 : Nat) (p1 p2 : syn_ptr AM) : Bool :=
  equals st (copy l1 p1) (copy l2 p2)

/-- `operator <(syn_ptr<T, AM> p1, syn_ptr<U, AM> p2)`; the two parameters are passed by value
and are stored at `l1` and `l2`. -/
def op_lt (st : storage_model_base) (l1 l2 : Nat) (p1 p2 : syn_ptr AM) : Bool :=
  less_than st (copy l1 p1) (copy l2 p2)

/-- `operator !=(syn_ptr<T, AM> p1, syn_ptr<U, AM> p2)`; the two parameters are passed by value
and are stored at `l1` and `l2`. -/
def op_ne (st : storage_model_base) (l1 l2 : Nat) (p1 p2 : syn_ptr AM) : Bool :=
  !(equals st (copy l1 p1) (copy l2 p2))

/-- `operator ==(syn_ptr<T, AM> p1, U p2)` for a native pointer `p2`, and
`operator ==(T p1, syn_ptr<U, AM> p2)` with the operands exchanged; the handle is passed by
value and is stored at `l1`. -/
def op_eq_ptr (st : storage_model_base) (l1 : Nat) (p1 : syn_ptr AM) (p2 : Nat) : Bool :=
  equals_ptr st (copy l1 p1) p2

/-- `operator !=(syn_ptr<T, AM> p1, U p2)` for a native pointer `p2`, and
`operator !=(T p1, syn_ptr<U, AM> p2)` with the operands exchanged. -/
def op_ne_ptr (st : storage_model_base) (l1 : Nat) (p1 : syn_ptr AM) (p2 : Nat) : Bool :=
  !(equals_ptr st (copy l1 p1) p2)

/-- `operator ==(syn_ptr<T, AM> p1, int p2)`, which is declared when `__clang__` is defined, and
`operator ==(int p1, syn_ptr<U, AM> p2)` with the operands exchanged. -/
def op_eq_int (st : storage_model_base) (l1 : Nat) (p1 : syn_ptr AM) (p2 : Int) : Bool :=
  equals_null st (copy l1 p1) && (p2 == 0)

/-- `operator !=(syn_ptr<T, AM> p1, int p2)`, and `operator !=(int p1, syn_ptr<U, AM> p2)` with
the operands exchanged. -/
def op_ne_int (st : storage_model_base) (l1 : Nat) (p1 : syn_ptr AM) (p2 : Int) : Bool :=
  (!(equals_null st (copy l1 p1))) && (p2 == 0)

/-- `operator ->()`, and the operand of the dereference in `operator *()`:
`static_cast<U*>(m_addrmodel.address())`. -/
def arrow (st : storage_model_base) (p : syn_ptr AM) : Nat :=
  addressing_model.address st p.m_addrmodel

/-- The address of the element that `operator [](size_type n)` designates,
`static_cast<U*>(m_addrmodel.address())[n]`: native pointer arithmetic, with
`E = sizeof(U)`. -/
def index (E : Nat) (st : storage_model_base) (p : syn_ptr AM) (n : Nat) : Nat :=
  ptr_add (addressing_model.address st p.m_addrmodel) (n * E)

/-- `explicit operator syn_ptr<U, AM>()`, that is `return syn_ptr<U, AM>(m_addrmodel)`: the
by-value parameter `am` of `syn_ptr(AM am)` is stored at `prm`, the returned handle at `ret`. -/
def cast (p : syn_ptr AM) (prm ret : Nat) : syn_ptr AM :=
  of_model ret (addressing_model.copy_ctor prm p.m_addrmodel)

/-- The erasure and recovery of `do_pointer_copy_test`: the handle `h` of type
`syn_ptr<T, AM>` is converted implicitly to the `syn_ptr<void, AM>` stored at `v`, by
`syn_ptr(syn_ptr<U, AM> const&)`, and `static_cast<syn_ptr<T, AM>>` of that handle initialises
the handle stored at `dst` from the result of `explicit operator syn_ptr<U, AM>()`. -/
def erase_recover (h : syn_ptr AM) (v prm ret dst : Nat) : syn_ptr AM :=
  copy dst (cast (copy v h) prm ret)

/-- `operator <=(syn_ptr<T, AM> p1, syn_ptr<U, AM> p2)`: `!p1.greater_than(p2)`; the two
parameters are passed by value and are stored at `l1` and `l2`. -/
def op_le (st : storage_model_base) (l1 l2 : Nat) (p1 p2 : syn_ptr AM) : Bool :=
  !(greater_than st (copy l1 p1) (copy l2 p2))

/-- `operator >(syn_ptr<T, AM> p1, syn_ptr<U, AM> p2)`: `p1.greater_than(p2)`. -/
def op_gt (st : storage_model_base) (l1 l2 : Nat) (p1 p2 : syn_ptr AM) : Bool :=
  greater_than st (copy l1 p1) (copy l2 p2)

/-- `operator >=(syn_ptr<T, AM> p1, syn_ptr<U, AM> p2)`: `!p1.less_than(p2)`. -/
def op_ge (st : storage_model_base) (l1 l2 : Nat) (p1 p2 : syn_ptr AM) : Bool :=
  !(less_than st (copy l1 p1) (copy l2 p2))

/-- `operator ++()`: `m_addrmodel.increment(sizeof(T))`, the handle being modified in place;
the argument `sizeof(T)` is converted to `difference_type`. -/
def pre_inc (E : Nat) (p : syn_ptr AM) : syn_ptr AM :=
  ⟨addressing_model.increment p.m_addrmodel (to_ptrdiff_t E)⟩

/-- `operator --()`: `m_addrmodel.decrement(sizeof(T))`, the handle being modified in place. -/
def pre_dec (E : Nat) (p : syn_ptr AM) : syn_ptr AM :=
  ⟨addressing_model.decrement p.m_addrmodel (to_ptrdiff_t E)⟩

/-- `operator ++(int)`: the handle returned, a copy `tmp` of the old value that is copied to
`ret` on return, and the new value of the handle itself. -/
def post_inc (E : Nat) (p : syn_ptr AM) (tmp ret : Nat) : syn_ptr AM × syn_ptr AM :=
  (copy ret (copy tmp p), pre_inc E p)

/-- `operator --(int)`: the handle returned and the new value of the handle itself. -/
def post_dec (E : Nat) (p : syn_ptr AM) (tmp ret : Nat) : syn_ptr AM × syn_ptr AM :=
  (copy ret (copy tmp p), pre_dec E p)

/-- `operator +=(difference_type n)`: `m_addrmodel.increment(n * sizeof(T))`, in place. -/
def add_assign (E : Nat) (p : syn_ptr AM) (n : Int) : syn_ptr AM :=
  ⟨addressing_model.increment p.m_addrmodel (scaled E n)⟩

/-- `operator -=(difference_type n)`: `m_addrmodel.decrement(n * sizeof(T))`, in place. -/
def sub_assign (E : Nat) (p : syn_ptr AM) (n : Int) : syn_ptr AM :=
  ⟨addressing_model.decrement p.m_addrmodel (scaled E n)⟩

end syn_ptr

/-! ## `monotonic_allocation_strategy<SM>` -/

/-- The static members of `monotonic_allocation_strategy<SM>`. -/
structure monotonic_allocation_strategy where
  sm_curr_segment : Nat
  sm_curr_offset : Nat
  sm_initialized : Bool
  deriving DecidableEq

namespace monotonic_allocation_strategy

/-- The strategy as the program starts. -/
def initial : monotonic_allocation_strategy := ⟨0, 0, false⟩

/-- `monotonic_allocation_strategy::max_size`. -/
def max_size : Nat := max_segment_size

/-- `monotonic_allocation_strategy::round_up`, on `difference_type` operands. -/
def round_up (x r : Int) : Int :=
  if Int.tmod x r ≠ 0 then wrap_ptrdiff (x + r - Int.tmod x r) else x

/-- The body of `allocate` up to the `return`: the registry and the cursor after the call, and
the arguments `(sm_curr_segment, chunk_offset)` handed to `segment_pointer`. -/
def allocate_chunk (st : storage_model_base) (fresh : Nat → Nat × Nat)
    (s : monotonic_allocation_strategy) (n : Nat) :
    storage_model_base × monotonic_allocation_strategy × Nat × Nat :=
  let st1 := if !s.sm_initialized then st.init_segments fresh else st
  let s1 : monotonic_allocation_strategy :=
    if !s.sm_initialized then ⟨first_segment_index, 64, true⟩ else s
  let chunk_size := to_size_t (round_up (to_ptrdiff_t n) 16)
  let chunk_offset := s1.sm_curr_offset
  if (chunk_offset + chunk_size) % 2 ^ 64 > max_segment_size then
    let segment := (s1.sm_curr_segment + 1) % 2 ^ 64
    (st1, ⟨segment, (64 + chunk_size) % 2 ^ 64, s1.sm_initialized⟩, segment, 64)
  else
    (st1, ⟨s1.sm_curr_segment, (s1.sm_curr_offset + chunk_size) % 2 ^ 64, s1.sm_initialized⟩,
      s1.sm_curr_segment, chunk_offset)

/-- A sequence of `allocate` calls with the request sizes `ns`, in order: the registry and the
cursor after the last call, and the `(segment, offset)` pairs that the calls hand to
`segment_pointer`. -/
def allocate_chunks (fresh : Nat → Nat × Nat) :
    storage_model_base → monotonic_allocation_strategy → List Nat →
      storage_model_base × monotonic_allocation_strategy × List (Nat × Nat)
  | st, s, [] => (st, s, [])
  | st, s, n :: rest =>
    let r := allocate_chunk st fresh s n
    let q := allocate_chunks fresh r.1 r.2.1 rest
    (q.1, q.2.1, r.2.2 :: q.2.2)

/-- `monotonic_allocation_strategy::allocate`: the temporary returned by `segment_pointer` is
stored at `tmp`, the `void_pointer` returned to the caller at `ret`. -/
def allocate {AM : Type} [addressing_model AM] (st : storage_model_base)
    (fresh : Nat → Nat × Nat) (s : monotonic_allocation_strategy) (n : Nat) (tmp ret : Nat) :
    storage_model_base × monotonic_allocation_strategy × syn_ptr AM :=
  let r := allocate_chunk st fresh s n
  (r.1, r.2.1, syn_ptr.of_model ret (addressing_model.segment_pointer r.1 tmp r.2.2.1 r.2.2.2))

/-- `monotonic_allocation_strategy::deallocate`. -/
def deallocate {AM : Type} (s : monotonic_allocation_strategy) (_p : syn_ptr AM) :
    monotonic_allocation_strategy := s

/-- `monotonic_allocation_strategy::reset_segments`. -/
def reset_segments (st : storage_model_base) (s : monotonic_allocation_strategy) :
    storage_model_base × monotonic_allocation_strategy :=
  (st.reset_segments, { s with sm_curr_segment := first_segment_index, sm_curr_offset := 64 })

/-- `monotonic_allocation_strategy::swap_segments`. -/
def swap_segments (st : storage_model_base) : storage_model_base := st.swap_segments

/-- The cursor from which the next `allocate` proceeds: the one of `s`, or
`(first_segment_index, 64)`, which `allocate` sets first when the strategy is not initialized
yet. -/
def next_cursor (s : monotonic_allocation_strategy) : Nat × Nat :=
  if s.sm_initialized then (s.sm_curr_segment, s.sm_curr_offset) else (first_segment_index, 64)

/-- A call of the public interface of the strategy that involves the cursor. -/
inductive strategy_call (AM : Type)
  | allocate (n : Nat)
  | deallocate (p : syn_ptr AM)
  | reset_segments

/-- A sequence of calls of `allocate`, `deallocate` and `reset_segments`, in order: the registry
and the cursor after the last call and, for every `allocate(n)` of the sequence, the triple
`(segment, offset, n)` of the pair handed to `segment_pointer` and the size requested. -/
def run_calls {AM : Type} (fresh : Nat → Nat × Nat) :
    storage_model_base → monotonic_allocation_strategy → List (strategy_call AM) →
      storage_model_base × monotonic_allocation_strategy × List (Nat × Nat × Nat)
  | st, s, [] => (st, s, [])
  | st, s, strategy_call.allocate n :: rest =>
    let r := allocate_chunk st fresh s n
    let q := run_calls fresh r.1 r.2.1 rest
    (q.1, q.2.1, (r.2.2.1, r.2.2.2, n) :: q.2.2)
  | st, s, strategy_call.deallocate p :: rest => run_calls fresh st (deallocate s p) rest
  | st, s, strategy_call.reset_segments :: rest =>
    run_calls fresh (reset_segments st s).1 (reset_segments st s).2 rest

end monotonic_allocation_strategy

/-! ## `rhx_allocator<T, HT>` and the object allocation function -/

namespace rhx_allocator

/-- `rhx_allocator<T, HT>::allocate(n)`, with `E = sizeof(T)`:
`static_cast<pointer>(m_heap.allocate(n * sizeof(T)))`. The product is formed in `size_type`;
`tmp` and `ret` are the locations used by `m_heap.allocate`, `prm` and `cst` those of the
parameter and the result of the conversion operator, `dst` that of the returned handle. -/
def allocate {AM : Type} [addressing_model AM] (E : Nat) (st : storage_model_base)
    (fresh : Nat → Nat × Nat) (s : monotonic_allocation_strategy) (n : Nat)
    (tmp ret prm cst dst : Nat) :
    storage_model_base × monotonic_allocation_strategy × syn_ptr AM :=
  let r := monotonic_allocation_strategy.allocate st fresh s ((n * E) % 2 ^ 64) tmp ret
  (r.1, r.2.1, syn_ptr.copy dst (syn_ptr.cast r.2.2 prm cst))

/-- `rhx_allocator<T, HT>::max_size`, with `E = sizeof(T)`: `m_heap.max_size() / sizeof(T)`. -/
def max_size (E : Nat) : Nat := monotonic_allocation_strategy.max_size / E

/-- `rhx_allocator<T, HT>::deallocate(p, n)`: `m_heap.deallocate(p)`. -/
def deallocate {AM : Type} (s : monotonic_allocation_strategy) (p : syn_ptr AM) :
    monotonic_allocation_strategy :=
  monotonic_allocation_strategy.deallocate s p

end rhx_allocator

/-- The function template `allocate<T, HT>(args...)` of `rhx_allocator.h`, with
`E = sizeof(T)`. `construct mem p` is what the constructor of `T` does when it builds the object
at the native address `p` in the memory `mem`: the memory it leaves, and `true` when it
returns, `false` when it throws. The result is the registry and the cursor after the call,
and the handle returned, `none` when the exception leaves the function: the handler calls
`deallocate(pobj, 1)` and rethrows. -/
def allocate {AM : Type} [addressing_model AM] (E : Nat)
    (construct : (Nat → Nat) → Nat → (Nat → Nat) × Bool) (st : storage_model_base)
    (fresh : Nat → Nat × Nat) (s : monotonic_allocation_strategy) (tmp ret prm cst dst : Nat) :
    storage_model_base × monotonic_allocation_strategy × Option (syn_ptr AM) :=
  let r := @rhx_allocator.allocate AM _ E st fresh s 1 tmp ret prm cst dst
  let c := construct r.1.memory (syn_ptr.to_native r.1 r.2.2)
  if c.2 then ({ r.1 with memory := c.1 }, r.2.1, some r.2.2)
  else ({ r.1 with memory := c.1 }, rhx_allocator.deallocate r.2.1 r.2.2, none)

/-! ## The ordering contract of handles -/

/-- What the ordering contract asks of `operator <` and `operator ==` on the handles of a list
`hs`: `<` is the order of the addresses and `==` their equality, `<` is irreflexive and
transitive, two handles are unordered exactly when they are equal, and a comparison sort run
with `operator <` on the handles arranges them as the same sort run on their native pointers
does. The parameters of the two operators are stored at `l1` and `l2`. -/
def order_consistent {AM : Type} [addressing_model AM] (st : storage_model_base) (l1 l2 : Nat)
    (hs : List (syn_ptr AM)) : Prop :=
  (∀ a ∈ hs, ∀ b ∈ hs,
    (syn_ptr.op_lt st l1 l2 a b = true ↔ syn_ptr.to_native st a < syn_ptr.to_native st b) ∧
    (syn_ptr.op_eq st l1 l2 a b = true ↔ syn_ptr.to_native st a = syn_ptr.to_native st b)) ∧
  (∀ a ∈ hs, syn_ptr.op_lt st l1 l2 a a = false) ∧
  (∀ a ∈ hs, ∀ b ∈ hs, ∀ c ∈ hs, syn_ptr.op_lt st l1 l2 a b = true →
    syn_ptr.op_lt st l1 l2 b c = true → syn_ptr.op_lt st l1 l2 a c = true) ∧
  (∀ a ∈ hs, ∀ b ∈ hs,
    (syn_ptr.op_lt st l1 l2 a b = false ∧ syn_ptr.op_lt st l1 l2 b a = false) ↔
      syn_ptr.op_eq st l1 l2 a b = true) ∧
  (hs.mergeSort (syn_ptr.op_lt st l1 l2)).map (syn_ptr.to_native st)
    = (hs.map (syn_ptr.to_native st)).mergeSort (fun p q => decide (p < q))

/-! ## Algorithms over random access iterators -/

/-- The six comparison operators of a random access iterator. -/
inductive comparison
  | eq
  | ne
  | lt
  | le
  | gt
  | ge
  deriving DecidableEq

/-- A terminating run of a function template of `<algorithm>`, such as the `std::sort` of
`do_pointer_sort_test`, seen from its iterator type: the operations that it applies to its
iterators, in order. The iterator variables of the algorithm are numbered; what the algorithm
does next may depend on the distances, the comparison results and the element values that it
has obtained so far. The same algorithm runs on handles and on native pointers. -/
inductive iterator_algorithm
  /-- The algorithm returns. -/
  | done
  /-- `it[dst] = it[src]`, or the initialisation of `it[dst]` from `it[src]`. -/
  | construct (dst src : Nat) (k : iterator_algorithm)
  /-- `it[dst] = it[src] + n`. -/
  | plus (dst src : Nat) (n : Int) (k : iterator_algorithm)
  /-- `it[dst] = it[src] - n`. -/
  | minus (dst src : Nat) (n : Int) (k : iterator_algorithm)
  /-- `++it[r]`. -/
  | pre_inc (r : Nat) (k : iterator_algorithm)
  /-- `--it[r]`. -/
  | pre_dec (r : Nat) (k : iterator_algorithm)
  /-- `it[dst] = it[r]++`. -/
  | post_inc (dst r : Nat) (k : iterator_algorithm)
  /-- `it[dst] = it[r]--`. -/
  | post_dec (dst r : Nat) (k : iterator_algorithm)
  /-- `it[r] += n`. -/
  | plus_assign (r : Nat) (n : Int) (k : iterator_algorithm)
  /-- `it[r] -= n`. -/
  | minus_assign (r : Nat) (n : Int) (k : iterator_algorithm)
  /-- `it[a] - it[b]`. -/
  | distance (a b : Nat) (k : Int → iterator_algorithm)
  /-- `it[a] op it[b]` for a comparison operator `op`. -/
  | compare (op : comparison) (a b : Nat) (k : Bool → iterator_algorithm)
  /-- A read of the element `*it[a]`, as its object representation. -/
  | read (a : Nat) (k : List Nat → iterator_algorithm)
  /-- A read of the element `it[a][n]`. -/
  | read_at (a n : Nat) (k : List Nat → iterator_algorithm)
  /-- `*it[a] = v`, for an element value `v` given by its object representation. -/
  | write (a : Nat) (v : List Nat) (k : iterator_algorithm)
  /-- `it[a][n] = v`. -/
  | write_at (a n : Nat) (v : List Nat) (k : iterator_algorithm)

/-- A comparison `p1 op p2` of two handles, by the operator templates of
`synthetic_pointer.h`. -/
def compare_handles {AM : Type} [addressing_model AM] (st : storage_model_base) (l1 l2 : Nat) :
    comparison → syn_ptr AM → syn_ptr AM → Bool
  | comparison.eq, p1, p2 => syn_ptr.op_eq st l1 l2 p1 p2
  | comparison.ne, p1, p2 => syn_ptr.op_ne st l1 l2 p1 p2
  | comparison.lt, p1, p2 => syn_ptr.op_lt st l1 l2 p1 p2
  | comparison.le, p1, p2 => syn_ptr.op_le st l1 l2 p1 p2
  | comparison.gt, p1, p2 => syn_ptr.op_gt st l1 l2 p1 p2
  | comparison.ge, p1, p2 => syn_ptr.op_ge st l1 l2 p1 p2

/-- A comparison `p1 op p2` of two native pointers into one array. -/
def compare_native : comparison → Nat → Nat → Bool
  | comparison.eq, p1, p2 => decide (p1 = p2)
  | comparison.ne, p1, p2 => !decide (p1 = p2)
  | comparison.lt, p1, p2 => decide (p1 < p2)
  | comparison.le, p1, p2 => decide (p1 ≤ p2)
  | comparison.gt, p1, p2 => decide (p1 > p2)
  | comparison.ge, p1, p2 => decide (p1 ≥ p2)

/-- The algorithm run on handles `syn_ptr<T, AM>` with `E = sizeof(T)`: the memory that it
leaves. `regs` holds the iterator variables, variable `r` being stored at the address `loc r`;
the temporaries of the arithmetic operators are stored at `tmp` and `ret`, the by-value
parameters of the comparison operators at `l1` and `l2`. Addresses are resolved in the registry
`st`, with the memory of the moment. -/
def run_handles {AM : Type} [addressing_model AM] (E : Nat) (st : storage_model_base)
    (loc : Nat → Nat) (tmp ret l1 l2 : Nat) :
    iterator_algorithm → (Nat → syn_ptr AM) → (Nat → Nat) → (Nat → Nat)
  | iterator_algorithm.done, _, mem => mem
  | iterator_algorithm.construct dst src k, regs, mem =>
    run_handles E st loc tmp ret l1 l2 k
      (Function.update regs dst (syn_ptr.copy (loc dst) (regs src))) mem
  | iterator_algorithm.plus dst src n k, regs, mem =>
    run_handles E st loc tmp ret l1 l2 k
      (Function.update regs dst (syn_ptr.copy (loc dst) (syn_ptr.add E (regs src) n tmp ret)))
      mem
  | iterator_algorithm.minus dst src n k, regs, mem =>
    run_handles E st loc tmp ret l1 l2 k
      (Function.update regs dst (syn_ptr.copy (loc dst) (syn_ptr.sub E (regs src) n tmp ret)))
      mem
  | iterator_algorithm.pre_inc r k, regs, mem =>
    run_handles E st loc tmp ret l1 l2 k
      (Function.update regs r (syn_ptr.pre_inc E (regs r))) mem
  | iterator_algorithm.pre_dec r k, regs, mem =>
    run_handles E st loc tmp ret l1 l2 k
      (Function.update regs r (syn_ptr.pre_dec E (regs r))) mem
  | iterator_algorithm.post_inc dst r k, regs, mem =>
    run_handles E st loc tmp ret l1 l2 k
      (Function.update (Function.update regs r (syn_ptr.post_inc E (regs r) tmp ret).2) dst
        (syn_ptr.copy (loc dst) (syn_ptr.post_inc E (regs r) tmp ret).1)) mem
  | iterator_algorithm.post_dec dst r k, regs, mem =>
    run_handles E st loc tmp ret l1 l2 k
      (Function.update (Function.update regs r (syn_ptr.post_dec E (regs r) tmp ret).2) dst
        (syn_ptr.copy (loc dst) (syn_ptr.post_dec E (regs r) tmp ret).1)) mem
  | iterator_algorithm.plus_assign r n k, regs, mem =>
    run_handles E st loc tmp ret l1 l2 k
      (Function.update regs r (syn_ptr.add_assign E (regs r) n)) mem
  | iterator_algorithm.minus_assign r n k, regs, mem =>
    run_handles E st loc tmp ret l1 l2 k
      (Function.update regs r (syn_ptr.sub_assign E (regs r) n)) mem
  | iterator_algorithm.distance a b k, regs, mem =>
    run_handles E st loc tmp ret l1 l2
      (k (syn_ptr.sub_ptr E { st with memory := mem } (regs a) (regs b))) regs mem
  | iterator_algorithm.compare op a b k, regs, mem =>
    run_handles E st loc tmp ret l1 l2
      (k (compare_handles { st with memory := mem } l1 l2 op (regs a) (regs b))) regs mem
  | iterator_algorithm.read a k, regs, mem =>
    run_handles E st loc tmp ret l1 l2
      (k (load_bytes mem (syn_ptr.arrow { st with memory := mem } (regs a)) E)) regs mem
  | iterator_algorithm.read_at a n k, regs, mem =>
    run_handles E st loc tmp ret l1 l2
      (k (load_bytes mem (syn_ptr.index E { st with memory := mem } (regs a) n) E)) regs mem
  | iterator_algorithm.write a v k, regs, mem =>
    run_handles E st loc tmp ret l1 l2 k regs
      (store_bytes mem (syn_ptr.arrow { st with memory := mem } (regs a)) v)
  | iterator_algorithm.write_at a n v k, regs, mem =>
    run_handles E st loc tmp ret l1 l2 k regs
      (store_bytes mem (syn_ptr.index E { st with memory := mem } (regs a) n) v)

/-- Whether the address `x` lies in `[lo, hi]`. -/
def in_range (lo hi : Nat) (x : Int) : Bool := decide ((lo : Int) ≤ x ∧ x ≤ (hi : Int))

/-- The algorithm run on native pointers `T*` into the array `[lo, hi)`, with `E = sizeof(T)`:
the memory that it leaves, and whether the run keeps to the array, that is, whether every
pointer that it forms by arithmetic lies in `[lo, hi]` and every difference `p - q` that it
takes has `q <= p`. -/
def run_native (E lo hi : Nat) :
    iterator_algorithm → (Nat → Nat) → (Nat → Nat) → (Nat → Nat) × Bool
  | iterator_algorithm.done, _, mem => (mem, true)
  | iterator_algorithm.construct dst src k, regs, mem =>
    run_native E lo hi k (Function.update regs dst (regs src)) mem
  | iterator_algorithm.plus dst src n k, regs, mem =>
    let r := run_native E lo hi k
      (Function.update regs dst (ptr_add_diff (regs src) (n * (E : Int)))) mem
    (r.1, in_range lo hi ((regs src : Int) + n * (E : Int)) && r.2)
  | iterator_algorithm.minus dst src n k, regs, mem =>
    let r := run_native E lo hi k
      (Function.update regs dst (ptr_add_diff (regs src) (-(n * (E : Int))))) mem
    (r.1, in_range lo hi ((regs src : Int) - n * (E : Int)) && r.2)
  | iterator_algorithm.pre_inc r k, regs, mem =>
    let q := run_native E lo hi k (Function.update regs r (ptr_add (regs r) E)) mem
    (q.1, in_range lo hi ((regs r : Int) + (E : Int)) && q.2)
  | iterator_algorithm.pre_dec r k, regs, mem =>
    let q := run_native E lo hi k
      (Function.update regs r (ptr_add_diff (regs r) (-(E : Int)))) mem
    (q.1, in_range lo hi ((regs r : Int) - (E : Int)) && q.2)
  | iterator_algorithm.post_inc dst r k, regs, mem =>
    let q := run_native E lo hi k
      (Function.update (Function.update regs r (ptr_add (regs r) E)) dst (regs r)) mem
    (q.1, in_range lo hi ((regs r : Int) + (E : Int)) && q.2)
  | iterator_algorithm.post_dec dst r k, regs, mem =>
    let q := run_native E lo hi k
      (Function.update (Function.update regs r (ptr_add_diff (regs r) (-(E : Int)))) dst
        (regs r)) mem
    (q.1, in_range lo hi ((regs r : Int) - (E : Int)) && q.2)
  | iterator_algorithm.plus_assign r n k, regs, mem =>
    let q := run_native E lo hi k
      (Function.update regs r (ptr_add_diff (regs r) (n * (E : Int)))) mem
    (q.1, in_range lo hi ((regs r : Int) + n * (E : Int)) && q.2)
  | iterator_algorithm.minus_assign r n k, regs, mem =>
    let q := run_native E lo hi k
      (Function.update regs r (ptr_add_diff (regs r) (-(n * (E : Int))))) mem
    (q.1, in_range lo hi ((regs r : Int) - n * (E : Int)) && q.2)
  | iterator_algorithm.distance a b k, regs, mem =>
    let q := run_native E lo hi
      (k (Int.tdiv ((regs a : Int) - (regs b : Int)) (E : Int))) regs mem
    (q.1, decide (regs b ≤ regs a) && q.2)
  | iterator_algorithm.compare op a b k, regs, mem =>
    run_native E lo hi (k (compare_native op (regs a) (regs b))) regs mem
  | iterator_algorithm.read a k, regs, mem =>
    run_native E lo hi (k (load_bytes mem (regs a) E)) regs mem
  | iterator_algorithm.read_at a n k, regs, mem =>
    run_native E lo hi (k (load_bytes mem (ptr_add (regs a) (n * E)) E)) regs mem
  | iterator_algorithm.write a v k, regs, mem =>
    run_native E lo hi k regs (store_bytes mem (regs a) v)
  | iterator_algorithm.write_at a n v k, regs, mem =>
    run_native E lo hi k regs (store_bytes mem (ptr_add (regs a) (n * E)) v)

/-- What the sorting contract asks of the handles `first` and `last` of a range
`[first, last)` of elements of size `E`: an algorithm over random access iterators that is run
on the handles leaves the memory that it leaves when it is run on the native pointers
`first.address()` and `last.address()`, whenever the run on the native pointers keeps to the
array. Variable `1` of the algorithm is initialised from `last`, every other variable from
`first`; `mem` is the memory when the algorithm starts. -/
def sort_consistent {AM : Type} [addressing_model AM] (E : Nat) (st : storage_model_base)
    (loc : Nat → Nat) (tmp ret l1 l2 : Nat) (first last : syn_ptr AM) : Prop :=
  ∀ (alg : iterator_algorithm) (mem : Nat → Nat),
    (run_native E (syn_ptr.to_native st first) (syn_ptr.to_native st last) alg
      (fun r => if r = 1 then syn_ptr.to_native st last else syn_ptr.to_native st first)
      mem).2 = true →
    run_handles E st loc tmp ret l1 l2 alg
        (fun r => syn_ptr.copy (loc r) (if r = 1 then last else first)) mem
      = (run_native E (syn_ptr.to_native st first) (syn_ptr.to_native st last) alg
          (fun r => if r = 1 then syn_ptr.to_native st last else syn_ptr.to_native st first)
          mem).1

/-- The inner loop of `insertion_sort`, at most `fuel` iterations of
`for (; j != first && less(*j, *(j - 1)); --j) std::iter_swap(j, j - 1);` followed by `k`, with
`first` in variable `0`, `j` in variable `3` and `j - 1` in variable `4`. -/
def insertion_sort_inner (less : List Nat → List Nat → Bool) (k : iterator_algorithm) :
    Nat → iterator_algorithm
  | 0 => k
  | fuel + 1 =>
    iterator_algorithm.compare comparison.ne 3 0 (fun b =>
      if b then
        iterator_algorithm.minus 4 3 1
          (iterator_algorithm.read 3 (fun x =>
            iterator_algorithm.read 4 (fun y =>
              if less x y then
                iterator_algorithm.write 3 y
                  (iterator_algorithm.write 4 x
                    (iterator_algorithm.pre_dec 3 (insertion_sort_inner less k fuel)))
              else k)))
      else k)

/-- The outer loop of `insertion_sort` over a range of `n` elements, at most `fuel` iterations
of `for (; i != last; ++i) { j = i; ... }`, with `last` in variable `1` and `i` in
variable `2`. -/
def insertion_sort_outer (less : List Nat → List Nat → Bool) (n : Nat) :
    Nat → iterator_algorithm
  | 0 => iterator_algorithm.done
  | fuel + 1 =>
    iterator_algorithm.compare comparison.ne 2 1 (fun b =>
      if b then
        iterator_algorithm.construct 3 2
          (insertion_sort_inner less
            (iterator_algorithm.pre_inc 2 (insertion_sort_outer less n fuel)) n)
      else iterator_algorithm.done)

/-- An example of an algorithm over random access iterators: an insertion sort of
`[first, last)` by the element order `less`, which takes `n = last - first` and then runs
`for (i = first; i != last; ++i) for (j = i; j != first && less(*j, *(j - 1)); --j)
std::iter_swap(j, j - 1);`. -/
def insertion_sort (less : List Nat → List Nat → Bool) : iterator_algorithm :=
  iterator_algorithm.distance 1 0 (fun n =>
    insertion_sort_outer less n.toNat n.toNat)

/-! ## Indexing and pointer arithmetic -/

/-- What the indexing contract asks of a handle `h`, an index `n` and `E = sizeof(T)`: the
element designated by `h[n]` is at the address of `h + n`, which is `h.address() + n * E`;
`*h` and `h.operator->()` designate `h.address()`; and an object representation `A` stored
through `*(h + n)` is read back through the native pointer `h.address() + n * E`. The
temporary and the result of `operator +` are stored at `tmp` and `ret`. -/
def indexing_consistent {AM : Type} [addressing_model AM] (E : Nat) (st : storage_model_base)
    (h : syn_ptr AM) (n tmp ret : Nat) : Prop :=
  syn_ptr.index E st h n = syn_ptr.to_native st (syn_ptr.add E h (n : Int) tmp ret) ∧
  syn_ptr.to_native st (syn_ptr.add E h (n : Int) tmp ret)
    = ptr_add (addressing_model.address st h.m_addrmodel) (n * E) ∧
  syn_ptr.arrow st h = addressing_model.address st h.m_addrmodel ∧
  ∀ A : List Nat,
    load_bytes (store_bytes st.memory (syn_ptr.arrow st (syn_ptr.add E h (n : Int) tmp ret)) A)
      (ptr_add (syn_ptr.to_native st h) (n * E)) A.length = A

/-! ## The relocation scenario -/

/-- The scenario `*h = A; swap_segments(); return *h;` on a handle `h`, the value `A` being
given by its object representation: the bytes read through `h` after the swap. -/
def write_swap_read {AM : Type} [addressing_model AM] (st : storage_model_base)
    (h : syn_ptr AM) (A : List Nat) : List Nat :=
  let st1 : storage_model_base :=
    { st with memory := store_bytes st.memory (syn_ptr.to_native st h) A }
  let st2 := monotonic_allocation_strategy.swap_segments st1
  load_bytes st2.memory (syn_ptr.to_native st2 h) A.length

/-! ## A small registry on which the definitions are evaluated -/

/-- Segment `2` allocated with `128` bytes, its shadow buffer at address `4096` and its primary
buffer at address `8192`, in a memory that held zeros. -/
def example_registry : storage_model_base :=
  (storage_model_base.initial (fun _ => 0)).allocate_segment 2 128 4096 8192

/-! ## Subscripts of the segment tables -/

/-- Number of slots of each of the tables `sm_segment_ptrs`, `sm_segment_size` and
`sm_shadow_ptrs`, which are declared with the bound `max_segments + 2`: the valid subscripts are
`0 .. table_slots - 1`. -/
def table_slots : Nat := max_segments + 2

/-- The subscripts with which `allocate_segment(segment, size)` indexes the three tables, in the
order of evaluation. The operands of `&&` are evaluated from left to right up to the first that
is false, so `sm_segment_ptrs[segment]` is read only when the three comparisons before it
hold; the body indexes the shadow table twice, the primary table twice and the size table
once. -/
def allocate_segment_subscripts (st : storage_model_base) (segment size : Nat) : List Nat :=
  if segment ≥ first_segment_index ∧ segment ≤ last_segment_index ∧ size ≤ max_size then
    if st.sm_segment_ptrs segment = 0 then
      [segment, segment, segment, segment, segment, segment]
    else [segment]
  else []

/-- The subscripts with which `deallocate_segment(segment)` indexes the three tables, in the
order of evaluation: the condition reads `sm_segment_ptrs[segment]`, and the body indexes the
primary table twice, the shadow table twice and the size table once. -/
def deallocate_segment_subscripts (st : storage_model_base) (segment : Nat) : List Nat :=
  if st.sm_segment_ptrs segment ≠ 0 then
    [segment, segment, segment, segment, segment, segment]
  else [segment]

/-! ## Conversions between pointer types

Which conversions exist is decided at compile time by the declarations of `syn_ptr<T, AM>` and
their `enable_if` conditions. The declarations are the same for every addressing model `AM`. -/

/-- The element types of `pointer_cast_tests.h`, cv-qualification apart: `void`, `struct base`,
`struct user : public base`, `struct derived : public user` and `struct unrelated`. -/
inductive elem_class
  | void
  | base
  | user
  | derived
  | unrelated
  deriving DecidableEq

/-- An element type: one of `elem_class`, `const`-qualified or not. -/
structure elem_type where
  cls : elem_class
  is_const : Bool
  deriving DecidableEq

/-- Class `D` is class `B` or has `B` as a public base class. -/
def derives_from : elem_class → elem_class → Bool
  | .base, .base => true
  | .user, .user => true
  | .user, .base => true
  | .derived, .derived => true
  | .derived, .user => true
  | .derived, .base => true
  | .unrelated, .unrelated => true
  | _, _ => false

/-- `std::is_convertible<From*, To*>::value`: the standard pointer conversions. `const` may be
added but not removed, and the target is `void`, the same class, or a public base class. -/
def is_convertible (From To : elem_type) : Bool :=
  (!From.is_const || To.is_const) && (To.cls == .void || derives_from From.cls To.cls)

/-- The condition of `enable_if_convertible_t<From, To>`. -/
def enable_if_convertible_t (From To : elem_type) : Bool := is_convertible From To

/-- The condition of `enable_if_not_convertible_t<From, To>`. -/
def enable_if_not_convertible_t (From To : elem_type) : Bool := !is_convertible From To

/-- The types that occur as source, target, parameter or result of a conversion. -/
inductive cpp_type
  /-- The native pointer `e*`. -/
  | native (e : elem_type)
  /-- The handle `syn_ptr<e, AM>`. -/
  | handle (e : elem_type)
  /-- The addressing model `AM`. -/
  | addrmodel
  /-- The type `std::nullptr_t`. -/
  | nullptr_t
  /-- The type `bool`. -/
  | boolean
  deriving DecidableEq

/-- A constructor or a conversion function of `syn_ptr<T, AM>`, after template argument
deduction: `ty` is the parameter type of the constructor or the result type of the conversion
function, `enabled` the value of its `enable_if` condition. -/
structure conversion_decl where
  ty : cpp_type
  enabled : Bool
  is_explicit : Bool
  deriving DecidableEq

/-- The one-argument constructors of `syn_ptr<T, AM>` for an argument of type `arg`, in the order
of the class definition. `syn_ptr(U* p)` is a template, deduced for a native pointer argument
only, and `syn_ptr(syn_ptr<U, AM> const& p)` for a handle argument only. -/
def syn_ptr_constructors (T : elem_type) (arg : cpp_type) : List conversion_decl :=
  [ ⟨.handle T, true, false⟩, -- syn_ptr(syn_ptr&&), syn_ptr(syn_ptr const&)
    ⟨.addrmodel, true, false⟩, -- syn_ptr(AM am)
    ⟨.nullptr_t, true, false⟩ ] -- syn_ptr(std::nullptr_t)
  ++ (match arg with
    | .native U => [⟨.native U, enable_if_convertible_t U T, false⟩] -- syn_ptr(U* p)
    | _ => [])
  ++ (match arg with
    | .handle U => [⟨.handle U, enable_if_convertible_t U T, false⟩] -- syn_ptr(syn_ptr<U, AM> const&)
    | _ => [])

/-- The conversion functions of `syn_ptr<T, AM>` for the target type `target`, in the order of
the class definition. The three templates are deduced from the target type: `operator U*()` for
a native pointer, `operator syn_ptr<U, AM>()` for a handle. -/
def syn_ptr_conversion_functions (T : elem_type) (target : cpp_type) : List conversion_decl :=
  [ ⟨.boolean, true, true⟩ ] -- explicit operator bool()
  ++ (match target with
    | .native U =>
      [ ⟨.native U, enable_if_convertible_t T U, false⟩, -- operator U*()
        ⟨.native U, enable_if_not_convertible_t T U, true⟩ ] -- explicit operator U*()
    | .handle U =>
      [ ⟨.handle U, enable_if_not_convertible_t T U, true⟩ ] -- explicit operator syn_ptr<U, AM>()
    | _ => [])

/-- A standard conversion sequence from `s` to `d`: identity, a pointer conversion, the null
pointer conversion, or the boolean conversion of a pointer. Two specialisations of `syn_ptr`
are unrelated classes. -/
def standard_conversion : cpp_type → cpp_type → Bool
  | .native U, .native T => is_convertible U T
  | .native _, .boolean => true
  | .nullptr_t, .native _ => true
  | .handle U, .handle T => U == T
  | .addrmodel, .addrmodel => true
  | .nullptr_t, .nullptr_t => true
  | .boolean, .boolean => true
  | _, _ => false

/-- There is an implicit conversion from `s` to `d` (`std::is_convertible<s, d>`): a standard
conversion, or one user-defined conversion, by a constructor of the target that is not
`explicit` and whose parameter takes `s` by a standard conversion, or by a conversion function
of the source that is not `explicit` and whose result gives `d` by a standard conversion. -/
def implicitly_convertible (s d : cpp_type) : Bool :=
  standard_conversion s d
  || (match d with
    | .handle T => (syn_ptr_constructors T s).any
        (fun c => c.enabled && !c.is_explicit && standard_conversion s c.ty)
    | _ => false)
  || (match s with
    | .handle U => (syn_ptr_conversion_functions U d).any
        (fun f => f.enabled && !f.is_explicit && standard_conversion f.ty d)
    | _ => false)

/-- The expression `static_cast<d>(h)` is well-formed for a handle `h` of type
`syn_ptr<T, AM>`: there is an implicit conversion, or the direct-initialisation `d t(h)` finds
a function. For a handle `d` that is any enabled constructor whose parameter takes `h` by a
standard conversion, or the copy or move constructor, whose parameter may be initialised by
an enabled conversion function of `h`, `explicit` or not; for another `d` it is any enabled
conversion function of `h` whose result gives `d` by a standard conversion. -/
def static_cast_from_handle (T : elem_type) (d : cpp_type) : Bool :=
  implicitly_convertible (.handle T) d
  || (match d with
    | .handle U => (syn_ptr_constructors U (.handle T)).any
        (fun c => c.enabled && (standard_conversion (.handle T) c.ty
          || (c.ty == .handle U && (syn_ptr_conversion_functions T (.handle U)).any
            (fun f => f.enabled && f.ty == .handle U))))
    | _ => (syn_ptr_conversion_functions T d).any
        (fun f => f.enabled && standard_conversion f.ty d))

/-- The type `void*`. -/
def ptr_void : cpp_type := .native ⟨.void, false⟩

/-- The type `void const*`. -/
def ptr_void_const : cpp_type := .native ⟨.void, true⟩

/-- The type `base*`. -/
def ptr_base : cpp_type := .native ⟨.base, false⟩

/-- The type `base const*`. -/
def ptr_base_const : cpp_type := .native ⟨.base, true⟩

/-- The type `user*`. -/
def ptr_user : cpp_type := .native ⟨.user, false⟩

/-- The type `user const*`. -/
def ptr_user_const : cpp_type := .native ⟨.user, true⟩

/-- The type `derived*`. -/
def ptr_derived : cpp_type := .native ⟨.derived, false⟩

/-- The type `derived const*`. -/
def ptr_derived_const : cpp_type := .native ⟨.derived, true⟩

/-- The type `test_ptr<AS, void>`. -/
def test_ptr_void : cpp_type := .handle ⟨.void, false⟩

/-- The type `test_ptr<AS, void const>`. -/
def test_ptr_void_const : cpp_type := .handle ⟨.void, true⟩

/-- The type `test_ptr<AS, base>`. -/
def test_ptr_base : cpp_type := .handle ⟨.base, false⟩

/-- The type `test_ptr<AS, base const>`. -/
def test_ptr_base_const : cpp_type := .handle ⟨.base, true⟩

/-- The type `test_ptr<AS, user>`. -/
def test_ptr_type : cpp_type := .handle ⟨.user, false⟩

/-- The type `test_ptr<AS, user const>`. -/
def test_ptr_type_const : cpp_type := .handle ⟨.user, true⟩

/-- The type `test_ptr<AS, derived>`. -/
def test_ptr_derived : cpp_type := .handle ⟨.derived, false⟩

/-- The type `test_ptr<AS, derived const>`. -/
def test_ptr_derived_const : cpp_type := .handle ⟨.derived, true⟩

/-- The type `test_ptr<AS, unrelated>`. -/
def test_ptr_unrelated : cpp_type := .handle ⟨.unrelated, false⟩

/-- The type `test_ptr<AS, unrelated const>`. -/
def test_ptr_unrelated_const : cpp_type := .handle ⟨.unrelated, true⟩

/-- The macro `imp_conv(SRC, DST)` of `pointer_cast_tests.h`: `SRC` converts implicitly to
`DST`. -/
def imp_conv (s d : cpp_type) : Bool := implicitly_convertible s d

/-- The macro `not_conv(SRC, DST)` of `pointer_cast_tests.h`: `SRC` does not convert implicitly
to `DST`. -/
def not_conv (s d : cpp_type) : Bool := !implicitly_convertible s d

/-- The macro `exp_conv(SRC, DST)` of `pointer_cast_tests.h`: `SRC` does not convert implicitly
to `DST`, and `static_cast<DST>` of a `SRC` is well-formed; here for a handle type `SRC`. -/
def exp_conv (s d : cpp_type) : Bool :=
  !implicitly_convertible s d
  && (match s with
    | .handle T => static_cast_from_handle T d
    | _ => false)

/-- The assertions of `run_pointer_cast_tests` that involve a handle type, in the order of the
source. -/
def run_pointer_cast_tests : List Bool :=
  [ imp_conv ptr_void test_ptr_void,
    imp_conv ptr_void test_ptr_void_const,
    not_conv ptr_void test_ptr_base,
    not_conv ptr_void test_ptr_base_const,
    not_conv ptr_void test_ptr_type,
    not_conv ptr_void test_ptr_type_const,
    not_conv ptr_void test_ptr_derived,
    not_conv ptr_void test_ptr_derived_const,
    not_conv ptr_void_const test_ptr_void,
    imp_conv ptr_void_const test_ptr_void_const,
    not_conv ptr_void_const test_ptr_base,
    not_conv ptr_void_const test_ptr_base_const,
    not_conv ptr_void_const test_ptr_type,
    not_conv ptr_void_const test_ptr_type_const,
    not_conv ptr_void_const test_ptr_derived,
    not_conv ptr_void_const test_ptr_derived_const,
    imp_conv ptr_base test_ptr_void,
    imp_conv ptr_base test_ptr_void_const,
    imp_conv ptr_base test_ptr_base,
    imp_conv ptr_base test_ptr_base_const,
    not_conv ptr_base test_ptr_type,
    not_conv ptr_base test_ptr_type_const,
    not_conv ptr_base test_ptr_derived,
    not_conv ptr_base test_ptr_derived_const,
    not_conv ptr_base_const test_ptr_void,
    imp_conv ptr_base_const test_ptr_void_const,
    not_conv ptr_base_const test_ptr_base,
    imp_conv ptr_base_const test_ptr_base_const,
    not_conv ptr_base_const test_ptr_type,
    not_conv ptr_base_const test_ptr_type_const,
    not_conv ptr_base_const test_ptr_derived,
    not_conv ptr_base_const test_ptr_derived_const,
    imp_conv ptr_user test_ptr_void,
    imp_conv ptr_user test_ptr_void_const,
    imp_conv ptr_user test_ptr_base,
    imp_conv ptr_user test_ptr_base_const,
    imp_conv ptr_user test_ptr_type,
    imp_conv ptr_user test_ptr_type_const,
    not_conv ptr_user test_ptr_derived,
    not_conv ptr_user test_ptr_derived_const,
    not_conv ptr_user test_ptr_unrelated,
    not_conv ptr_user test_ptr_unrelated_const,
    not_conv ptr_user_const test_ptr_void,
    imp_conv ptr_user_const test_ptr_void_const,
    not_conv ptr_user_const test_ptr_base,
    imp_conv ptr_user_const test_ptr_base_const,
    not_conv ptr_user_const test_ptr_type,
    imp_conv ptr_user_const test_ptr_type_const,
    not_conv ptr_user_const test_ptr_derived,
    not_conv ptr_user_const test_ptr_derived_const,
    not_conv ptr_user_const test_ptr_unrelated,
    not_conv ptr_user_const test_ptr_unrelated_const,
    imp_conv ptr_derived test_ptr_void,
    imp_conv ptr_derived test_ptr_void_const,
    imp_conv ptr_derived test_ptr_base,
    imp_conv ptr_derived test_ptr_base_const,
    imp_conv ptr_derived test_ptr_type,
    imp_conv ptr_derived test_ptr_type_const,
    imp_conv ptr_derived test_ptr_derived,
    imp_conv ptr_derived test_ptr_derived_const,
    not_conv ptr_derived_const test_ptr_void,
    imp_conv ptr_derived_const test_ptr_void_const,
    not_conv ptr_derived_const test_ptr_base,
    imp_conv ptr_derived_const test_ptr_base_const,
    not_conv ptr_derived_const test_ptr_type,
    imp_conv ptr_derived_const test_ptr_type_const,
    not_conv ptr_derived_const test_ptr_derived,
    imp_conv ptr_derived_const test_ptr_derived_const,
    imp_conv test_ptr_void ptr_void,
    imp_conv test_ptr_void ptr_void_const,
    exp_conv test_ptr_void ptr_base,
    exp_conv test_ptr_void ptr_base_const,
    exp_conv test_ptr_void ptr_user,
    exp_conv test_ptr_void ptr_user_const,
    exp_conv test_ptr_void ptr_derived,
    exp_conv test_ptr_void ptr_derived_const,
    imp_conv test_ptr_void test_ptr_void,
    imp_conv test_ptr_void test_ptr_void_const,
    not_conv test_ptr_void test_ptr_base,
    not_conv test_ptr_void test_ptr_base_const,
    not_conv test_ptr_void test_ptr_type,
    not_conv test_ptr_void test_ptr_type_const,
    not_conv test_ptr_void test_ptr_derived,
    not_conv test_ptr_void test_ptr_derived_const,
    not_conv test_ptr_void_const ptr_void,
    imp_conv test_ptr_void_const ptr_void_const,
    not_conv test_ptr_void_const ptr_base,
    exp_conv test_ptr_void_const ptr_base_const,
    not_conv test_ptr_void_const ptr_user,
    exp_conv test_ptr_void_const ptr_user_const,
    not_conv test_ptr_void_const ptr_derived,
    exp_conv test_ptr_void_const ptr_derived_const,
    not_conv test_ptr_void_const test_ptr_void,
    imp_conv test_ptr_void_const test_ptr_void_const,
    not_conv test_ptr_void_const test_ptr_base,
    not_conv test_ptr_void_const test_ptr_base_const,
    not_conv test_ptr_void_const test_ptr_type,
    not_conv test_ptr_void_const test_ptr_type_const,
    not_conv test_ptr_void_const test_ptr_derived,
    not_conv test_ptr_void_const test_ptr_derived_const,
    imp_conv test_ptr_base ptr_void,
    imp_conv test_ptr_base ptr_void_const,
    imp_conv test_ptr_base ptr_base,
    imp_conv test_ptr_base ptr_base_const,
    exp_conv test_ptr_base ptr_user,
    exp_conv test_ptr_base ptr_user_const,
    exp_conv test_ptr_base ptr_derived,
    exp_conv test_ptr_base ptr_derived_const,
    imp_conv test_ptr_base test_ptr_void,
    imp_conv test_ptr_base test_ptr_void_const,
    imp_conv test_ptr_base test_ptr_base,
    imp_conv test_ptr_base test_ptr_base_const,
    not_conv test_ptr_base test_ptr_type,
    not_conv test_ptr_base test_ptr_type_const,
    not_conv test_ptr_base test_ptr_derived,
    not_conv test_ptr_base test_ptr_derived_const,
    not_conv test_ptr_base_const ptr_void,
    imp_conv test_ptr_base_const ptr_void_const,
    not_conv test_ptr_base_const ptr_base,
    imp_conv test_ptr_base_const ptr_base_const,
    not_conv test_ptr_base_const ptr_user,
    exp_conv test_ptr_base_const ptr_user_const,
    not_conv test_ptr_base_const ptr_derived,
    exp_conv test_ptr_base_const ptr_derived_const,
    not_conv test_ptr_base_const test_ptr_void,
    imp_conv test_ptr_base_const test_ptr_void_const,
    not_conv test_ptr_base_const test_ptr_base,
    imp_conv test_ptr_base_const test_ptr_base_const,
    not_conv test_ptr_base_const test_ptr_type,
    not_conv test_ptr_base_const test_ptr_type_const,
    not_conv test_ptr_base_const test_ptr_derived,
    not_conv test_ptr_base_const test_ptr_derived_const,
    imp_conv test_ptr_type ptr_void,
    imp_conv test_ptr_type ptr_void_const,
    imp_conv test_ptr_type ptr_base,
    imp_conv test_ptr_type ptr_base_const,
    imp_conv test_ptr_type ptr_user,
    imp_conv test_ptr_type ptr_user_const,
    exp_conv test_ptr_type ptr_derived,
    exp_conv test_ptr_type ptr_derived_const,
    imp_conv test_ptr_type test_ptr_void,
    imp_conv test_ptr_type test_ptr_void_const,
    imp_conv test_ptr_type test_ptr_base,
    imp_conv test_ptr_type test_ptr_base_const,
    imp_conv test_ptr_type test_ptr_type,
    imp_conv test_ptr_type test_ptr_type_const,
    not_conv test_ptr_type test_ptr_derived,
    not_conv test_ptr_type test_ptr_derived_const,
    not_conv test_ptr_type_const ptr_void,
    imp_conv test_ptr_type_const ptr_void_const,
    not_conv test_ptr_type_const ptr_base,
    imp_conv test_ptr_type_const ptr_base_const,
    not_conv test_ptr_type_const ptr_user,
    imp_conv test_ptr_type_const ptr_user_const,
    not_conv test_ptr_type_const ptr_derived,
    exp_conv test_ptr_type_const ptr_derived_const,
    not_conv test_ptr_type_const test_ptr_void,
    imp_conv test_ptr_type_const test_ptr_void_const,
    not_conv test_ptr_type_const test_ptr_base,
    imp_conv test_ptr_type_const test_ptr_base_const,
    not_conv test_ptr_type_const test_ptr_type,
    imp_conv test_ptr_type_const test_ptr_type_const,
    not_conv test_ptr_type_const test_ptr_derived,
    not_conv test_ptr_type_const test_ptr_derived_const,
    imp_conv test_ptr_derived ptr_void,
    imp_conv test_ptr_derived ptr_void_const,
    imp_conv test_ptr_derived ptr_base,
    imp_conv test_ptr_derived ptr_base_const,
    imp_conv test_ptr_derived ptr_user,
    imp_conv test_ptr_derived ptr_user_const,
    imp_conv test_ptr_derived ptr_derived,
    imp_conv test_ptr_derived ptr_derived_const,
    imp_conv test_ptr_derived test_ptr_void,
    imp_conv test_ptr_derived test_ptr_void_const,
    imp_conv test_ptr_derived test_ptr_base,
    imp_conv test_ptr_derived test_ptr_base_const,
    imp_conv test_ptr_derived test_ptr_type,
    imp_conv test_ptr_derived test_ptr_type_const,
    imp_conv test_ptr_derived test_ptr_derived,
    imp_conv test_ptr_derived test_ptr_derived_const,
    not_conv test_ptr_derived_const ptr_void,
    imp_conv test_ptr_derived_const ptr_void_const,
    not_conv test_ptr_derived_const ptr_base,
    imp_conv test_ptr_derived_const ptr_base_const,
    not_conv test_ptr_derived_const ptr_user,
    imp_conv test_ptr_derived_const ptr_user_const,
    not_conv test_ptr_derived_const ptr_derived,
    imp_conv test_ptr_derived_const ptr_derived_const,
    not_conv test_ptr_derived_const test_ptr_void,
    imp_conv test_ptr_derived_const test_ptr_void_const,
    not_conv test_ptr_derived_const test_ptr_base,
    imp_conv test_ptr_derived_const test_ptr_base_const,
    not_conv test_ptr_derived_const test_ptr_type,
    imp_conv test_ptr_derived_const test_ptr_type_const,
    not_conv test_ptr_derived_const test_ptr_derived,
    imp_conv test_ptr_derived_const test_ptr_derived_const ]

/-! ## Theorems -/

theorem segment_indices_eq : segment_indices = [2, 3, 4] := by decide

theorem registry_invariant_initial (mem : Nat → Nat) :
    registry_invariant (storage_model_base.initial mem) := by
  constructor <;> simp [storage_model_base.initial, ranges_disjoint, max_size]

theorem registry_invariant_allocate_segment (st : storage_model_base)
    (segment size new_shadow new_primary : Nat) (h : registry_invariant st)
    (hn : new_pair st segment size new_shadow new_primary) :
    registry_invariant (st.allocate_segment segment size new_shadow new_primary) := by
  unfold storage_model_base.allocate_segment
  split_ifs with hg
  · obtain ⟨⟨hs0, hs1, hs2⟩, ⟨hp0, hp1, hp2⟩, hsp, hne⟩ := hn hg
    obtain ⟨hg1, hg2, hg3, hg4⟩ := hg
    have hz := h.null_size segment hg4
    constructor
    · intro i hi
      have := h.outside i hi
      have hne : i ≠ segment := by
        simp only [first_segment_index, last_segment_index, max_segments] at hi hg1 hg2
        omega
      simp [Function.update_apply, hne, this]
    · intro i
      have := h.size_le i
      simp only [Function.update_apply]
      split_ifs <;> omega
    · intro i
      have := h.null_iff i
      simp only [Function.update_apply]
      split_ifs <;> simp_all
    · intro i
      have := h.null_size i
      simp only [Function.update_apply]
      split_ifs <;> simp_all
    · intro i
      have := h.in_space i
      simp only [Function.update_apply]
      split_ifs <;> omega
    · intro i j
      have h1 := h.primary_shadow i j
      have h2 := (hs2 i).1
      have h3 := (hp2 j).2
      simp only [ranges_disjoint, Function.update_apply] at h1 h2 h3 hsp ⊢
      split_ifs with hi hj hj
      · omega
      · omega
      · omega
      · exact h1
    · intro i j hij
      have h1 := h.primary_primary i j hij
      have h2 := (hp2 i).1
      have h3 := (hp2 j).1
      simp only [ranges_disjoint, Function.update_apply] at h1 h2 h3 ⊢
      split_ifs with hi hj hj
      · omega
      · omega
      · omega
      · exact h1
    · intro i j hij
      have h1 := h.shadow_shadow i j hij
      have h2 := (hs2 i).2
      have h3 := (hs2 j).2
      simp only [ranges_disjoint, Function.update_apply] at h1 h2 h3 ⊢
      split_ifs with hi hj hj
      · omega
      · omega
      · omega
      · exact h1
  · exact h

theorem registry_invariant_deallocate_segment (st : storage_model_base) (segment : Nat)
    (h : registry_invariant st) : registry_invariant (st.deallocate_segment segment) := by
  unfold storage_model_base.deallocate_segment
  split_ifs with hg
  swap
  · exact h
  · constructor
    · intro i hi
      have := h.outside i hi
      simp only [Function.update_apply]
      split_ifs <;> simp_all
    · intro i
      have := h.size_le i
      simp only [Function.update_apply]
      split_ifs <;> omega
    · intro i
      have := h.null_iff i
      simp only [Function.update_apply]
      split_ifs <;> simp_all
    · intro i
      have := h.null_size i
      simp only [Function.update_apply]
      split_ifs <;> simp_all
    · intro i
      have := h.in_space i
      simp only [Function.update_apply]
      split_ifs <;> omega
    · intro i j
      have h1 := h.primary_shadow i j
      simp only [ranges_disjoint, Function.update_apply] at h1 ⊢
      split_ifs <;> omega
    · intro i j hij
      have h1 := h.primary_primary i j hij
      simp only [ranges_disjoint, Function.update_apply] at h1 ⊢
      split_ifs <;> omega
    · intro i j hij
      have h1 := h.shadow_shadow i j hij
      simp only [ranges_disjoint, Function.update_apply] at h1 ⊢
      split_ifs <;> omega

theorem registry_invariant_swap_segment (st : storage_model_base) (i : Nat)
    (h : registry_invariant st) : registry_invariant (swap_segment st i) := by
  unfold storage_model_base.swap_segment
  constructor
  · intro k hk
    have := h.outside k hk
    simp only [Function.update_apply]
    split_ifs <;> simp_all
  · exact h.size_le
  · intro k
    have := h.null_iff k
    simp only [Function.update_apply]
    split_ifs <;> simp_all
  · intro k
    have := h.null_size k
    have := h.null_iff k
    simp only [Function.update_apply]
    split_ifs <;> simp_all
  · intro k
    have := h.in_space k
    simp only [Function.update_apply]
    split_ifs <;> simp_all
  · intro k j
    have h1 := h.primary_shadow k j
    have h2 := h.primary_shadow j k
    have h3 := h.primary_primary k j
    have h4 := h.shadow_shadow k j
    simp only [ranges_disjoint, Function.update_apply] at h1 h2 h3 h4 ⊢
    split_ifs with hk hj hj
    · subst hk; subst hj; omega
    · subst hk; have := h4 (fun e => hj e.symm); omega
    · subst hj; have := h3 hk; omega
    · omega
  · intro k j hkj
    have h1 := h.primary_shadow k j
    have h2 := h.primary_shadow j k
    have h3 := h.primary_primary k j hkj
    have h4 := h.shadow_shadow k j hkj
    simp only [ranges_disjoint, Function.update_apply] at h1 h2 h3 h4 ⊢
    split_ifs with hk hj hj
    · subst hk; subst hj; omega
    · subst hk; omega
    · subst hj; omega
    · omega
  · intro k j hkj
    have h1 := h.primary_shadow k j
    have h2 := h.primary_shadow j k
    have h3 := h.primary_primary k j hkj
    have h4 := h.shadow_shadow k j hkj
    simp only [ranges_disjoint, Function.update_apply] at h1 h2 h3 h4 ⊢
    split_ifs with hk hj hj
    · subst hk; subst hj; omega
    · subst hk; omega
    · subst hj; omega
    · omega

theorem registry_invariant_memory (st : storage_model_base) (mem : Nat → Nat)
    (h : registry_invariant st) : registry_invariant { st with memory := mem } :=
  ⟨h.outside, h.size_le, h.null_iff, h.null_size, h.in_space, h.primary_shadow,
    h.primary_primary, h.shadow_shadow⟩

theorem registry_invariant_reset_segment (st : storage_model_base) (i : Nat)
    (h : registry_invariant st) : registry_invariant (reset_segment st i) := by
  unfold storage_model_base.reset_segment
  split_ifs
  · exact registry_invariant_memory st _ h
  · exact h

theorem registry_invariant_foldl (f : storage_model_base → Nat → storage_model_base)
    (hf : ∀ st i, registry_invariant st → registry_invariant (f st i)) (l : List Nat) :
    ∀ st, registry_invariant st → registry_invariant (l.foldl f st) := by
  induction l with
  | nil => intro st h; exact h
  | cons i rest ih => intro st h; exact ih _ (hf st i h)

theorem registry_invariant_allocate_all (fresh : Nat → Nat × Nat) (l : List Nat) :
    ∀ st, registry_invariant st → new_pairs fresh st l →
      registry_invariant (allocate_all fresh st l) := by
  induction l with
  | nil => intro st h _; exact h
  | cons i rest ih =>
    intro st h hn
    exact ih _ (registry_invariant_allocate_segment st i max_size _ _ h hn.1) hn.2

theorem registry_invariant_init_segments (st : storage_model_base) (fresh : Nat → Nat × Nat)
    (h : registry_invariant st) (hn : new_pairs fresh st segment_indices) :
    registry_invariant (st.init_segments fresh) := by
  unfold storage_model_base.init_segments
  split_ifs
  · have h1 := registry_invariant_allocate_all fresh segment_indices st h hn
    exact ⟨h1.outside, h1.size_le, h1.null_iff, h1.null_size, h1.in_space, h1.primary_shadow,
      h1.primary_primary, h1.shadow_shadow⟩
  · exact h

theorem registry_invariant_clear_segments (st : storage_model_base)
    (h : registry_invariant st) : registry_invariant st.clear_segments := by
  unfold storage_model_base.clear_segments
  apply registry_invariant_foldl _ registry_invariant_deallocate_segment
  exact ⟨h.outside, h.size_le, h.null_iff, h.null_size, h.in_space, h.primary_shadow,
    h.primary_primary, h.shadow_shadow⟩

/-- Every reachable registry state satisfies the registry invariant. -/
theorem reachable_invariant (st : storage_model_base) (h : reachable st) :
    registry_invariant st := by
  induction h with
  | initial mem => exact registry_invariant_initial mem
  | allocate_segment st segment size ns np _ hn ih =>
    exact registry_invariant_allocate_segment st segment size ns np ih hn
  | deallocate_segment st segment _ ih => exact registry_invariant_deallocate_segment st segment ih
  | init_segments st fresh _ hn ih => exact registry_invariant_init_segments st fresh ih hn
  | reset_segments st _ ih =>
    exact registry_invariant_foldl _ registry_invariant_reset_segment _ st ih
  | swap_segments st _ ih =>
    exact registry_invariant_foldl _ registry_invariant_swap_segment _ st ih
  | clear_segments st _ ih => exact registry_invariant_clear_segments st ih
  | store st mem _ ih => exact registry_invariant_memory st mem ih

/-! ### Machine words -/

theorem to_size_t_natCast (n : Nat) : to_size_t (n : Int) = n % 2 ^ 64 := by
  unfold to_size_t; omega

theorem to_size_t_lt (i : Int) : to_size_t i < 2 ^ 64 := by
  unfold to_size_t; omega

theorem to_size_t_wrap_ptrdiff (i : Int) : to_size_t (wrap_ptrdiff i) = to_size_t i := by
  unfold wrap_ptrdiff to_ptrdiff_t to_size_t
  split_ifs <;> omega

theorem to_size_t_ptr_diff (p q : Nat) (hq : q ≤ p) (hp : p < 2 ^ 64) :
    to_size_t (ptr_diff p q) = p - q := by
  unfold ptr_diff
  rw [to_size_t_wrap_ptrdiff]
  unfold to_size_t; omega

theorem and_offset_mask (x : Nat) :
    x &&& based_2d_msk_addressing_model.offset_mask = x % 2 ^ 48 := by
  have h := Nat.and_pow_two_sub_one_eq_mod x 48
  simpa [based_2d_msk_addressing_model.offset_mask] using h

/-! ### Round trip of `assign_from` and `address` -/

theorem msk_assign_from_loop_address (st : storage_model_base) (hst : registry_invariant st)
    (x : based_2d_msk_addressing_model) (p s : Nat) (hlive : st.segment_address s ≠ 0)
    (hp : st.segment_address s ≤ p ∧ p < st.segment_address s + st.segment_size s) :
    ∀ l : List Nat, (∀ i ∈ l, i < 2 ^ 16) → s ∈ l →
      ∃ z, based_2d_msk_addressing_model.assign_from_loop st x p l = some z ∧
        based_2d_msk_addressing_model.address st z = p := by
  intro l
  induction l with
  | nil => intro _ hs; simp at hs
  | cons i rest ih =>
    intro hl hs
    have hi : i < 2 ^ 16 := hl i (List.mem_cons_self i rest)
    have hsz := hst.size_le i
    have hsp := hst.in_space i
    have hss := hst.in_space s
    simp only [storage_model_base.segment_address, storage_model_base.segment_size,
      max_size] at *
    by_cases hfound : st.sm_segment_ptrs i ≠ 0 ∧ st.sm_segment_ptrs i ≤ p ∧
        p < ptr_add (st.sm_segment_ptrs i) (st.sm_segment_size i)
    · obtain ⟨h0, h1, h2⟩ := hfound
      refine ⟨_, by
        simp only [based_2d_msk_addressing_model.assign_from_loop,
          storage_model_base.segment_address, storage_model_base.segment_size]
        rw [if_pos h0, if_pos ⟨h1, h2⟩], ?_⟩
      unfold ptr_add at h2
      have hp64 : p < 2 ^ 64 := by omega
      simp only [based_2d_msk_addressing_model.address,
        based_2d_msk_addressing_model.set_m_segment, based_2d_msk_addressing_model.m_segment,
        storage_model_base.segment_address, and_offset_mask, ptr_add,
        to_size_t_ptr_diff p _ h1 hp64]
      have e1 : (i % 2 ^ 16 * 2 ^ 48 + (p - st.sm_segment_ptrs i) % 2 ^ 48) / 2 ^ 48 % 2 ^ 16
          = i := by omega
      have e2 : (i % 2 ^ 16 * 2 ^ 48 + (p - st.sm_segment_ptrs i) % 2 ^ 48) % 2 ^ 48
          = p - st.sm_segment_ptrs i := by omega
      rw [e1, e2]
      omega
    · have hrest : s ∈ rest := by
        rcases List.mem_cons.mp hs with h | h
        · exfalso
          subst h
          apply hfound
          unfold ptr_add
          omega
        · exact h
      obtain ⟨z, hz, hza⟩ := ih (fun k hk => hl k (List.mem_cons_of_mem i hk)) hrest
      refine ⟨z, ?_, hza⟩
      simp only [based_2d_msk_addressing_model.assign_from_loop,
        storage_model_base.segment_address, storage_model_base.segment_size]
      by_cases h0 : st.sm_segment_ptrs i ≠ 0
      · rw [if_pos h0, if_neg (fun hc => hfound ⟨h0, hc⟩)]
        exact hz
      · rw [if_neg h0]
        exact hz

theorem xl_assign_from_loop_address (st : storage_model_base) (hst : registry_invariant st)
    (x : based_2d_xl_addressing_model) (p s : Nat) (hlive : st.segment_address s ≠ 0)
    (hp : st.segment_address s ≤ p ∧ p < st.segment_address s + st.segment_size s) :
    ∀ l : List Nat, s ∈ l →
      ∃ z, based_2d_xl_addressing_model.assign_from_loop st x p l = some z ∧
        based_2d_xl_addressing_model.address st z = p := by
  intro l
  induction l with
  | nil => intro hs; simp at hs
  | cons i rest ih =>
    intro hs
    have hss := hst.in_space s
    simp only [storage_model_base.segment_address, storage_model_base.segment_size] at *
    by_cases hfound : st.sm_segment_ptrs i ≠ 0 ∧ st.sm_segment_ptrs i ≤ p ∧
        p < ptr_add (st.sm_segment_ptrs i) (st.sm_segment_size i)
    · obtain ⟨h0, h1, h2⟩ := hfound
      refine ⟨_, by
        simp only [based_2d_xl_addressing_model.assign_from_loop,
          storage_model_base.segment_address, storage_model_base.segment_size]
        rw [if_pos h0, if_pos ⟨h1, h2⟩], ?_⟩
      unfold ptr_add at h2
      have hp64 : p < 2 ^ 64 := by omega
      simp only [based_2d_xl_addressing_model.address, storage_model_base.segment_address,
        ptr_add, to_size_t_ptr_diff p _ h1 hp64]
      omega
    · have hrest : s ∈ rest := by
        rcases List.mem_cons.mp hs with h | h
        · exfalso
          subst h
          apply hfound
          unfold ptr_add
          omega
        · exact h
      obtain ⟨z, hz, hza⟩ := ih hrest
      refine ⟨z, ?_, hza⟩
      simp only [based_2d_xl_addressing_model.assign_from_loop,
        storage_model_base.segment_address, storage_model_base.segment_size]
      by_cases h0 : st.sm_segment_ptrs i ≠ 0
      · rw [if_pos h0, if_neg (fun hc => hfound ⟨h0, hc⟩)]
        exact hz
      · rw [if_neg h0]
        exact hz

theorem mem_segment_indices (s : Nat) :
    s ∈ segment_indices ↔ first_segment_index ≤ s ∧ s ≤ last_segment_index := by
  rw [segment_indices_eq]
  simp only [first_segment_index, last_segment_index, max_segments, List.mem_cons,
    List.mem_singleton, List.not_mem_nil, or_false]
  omega

/-- C1. Round trip for the segment:offset models: in every reachable registry state, for every
native address `p` inside a live segment `s` of `[first_segment_index, last_segment_index]`, a
`based_2d_msk` handle and a `based_2d_xl` handle on which `assign_from(p)` has been called
return exactly `p` from `address()`. -/
theorem assign_from_address_round_trip (st : storage_model_base) (hst : reachable st)
    (p s : Nat) (hs : first_segment_index ≤ s ∧ s ≤ last_segment_index)
    (hlive : st.segment_address s ≠ 0)
    (hp : st.segment_address s ≤ p ∧ p < st.segment_address s + st.segment_size s)
    (x : based_2d_msk_addressing_model) (y : based_2d_xl_addressing_model) :
    based_2d_msk_addressing_model.address st
        (based_2d_msk_addressing_model.assign_from st x p) = p ∧
      based_2d_xl_addressing_model.address st
        (based_2d_xl_addressing_model.assign_from st y p) = p := by
  have hinv := reachable_invariant st hst
  have hmem := (mem_segment_indices s).mpr hs
  constructor
  · obtain ⟨z, hz, hza⟩ := msk_assign_from_loop_address st hinv x p s hlive hp segment_indices
      (by rw [segment_indices_eq]; intro i hi; simp at hi; omega) hmem
    simp only [based_2d_msk_addressing_model.assign_from, hz]
    exact hza
  · obtain ⟨z, hz, hza⟩ := xl_assign_from_loop_address st hinv y p s hlive hp segment_indices hmem
    simp only [based_2d_xl_addressing_model.assign_from, hz]
    exact hza

theorem example_registry_reachable : reachable example_registry := by
  refine reachable.allocate_segment _ 2 128 4096 8192 (reachable.initial _) ?_
  simp [new_pair, new_block, ranges_disjoint, storage_model_base.initial]

theorem assign_from_address_round_trip_witness :
    reachable example_registry ∧
      based_2d_msk_addressing_model.address example_registry
        (based_2d_msk_addressing_model.assign_from example_registry ⟨0⟩ 8262) = 8262 ∧
      based_2d_xl_addressing_model.address example_registry
        (based_2d_xl_addressing_model.assign_from example_registry ⟨0, 0⟩ 8262) = 8262 :=
  ⟨example_registry_reachable,
    assign_from_address_round_trip example_registry example_registry_reachable 8262 2
      (by decide) (by decide) (by decide) ⟨0⟩ ⟨0, 0⟩⟩

/-! ### Resolution at access time -/

theorem swap_segments_eq (st : storage_model_base) :
    st.swap_segments = swap_segment (swap_segment (swap_segment st 2) 3) 4 := by
  simp [storage_model_base.swap_segments, segment_indices_eq]

theorem swap_segments_tables (st : storage_model_base) (s : Nat)
    (hs : first_segment_index ≤ s ∧ s ≤ last_segment_index) :
    st.swap_segments.sm_segment_ptrs s = st.sm_shadow_ptrs s ∧
      st.swap_segments.sm_shadow_ptrs s = st.sm_segment_ptrs s := by
  simp only [first_segment_index, last_segment_index, max_segments] at hs
  obtain ⟨h1, h2⟩ := hs
  rw [swap_segments_eq]
  interval_cases s <;> simp [storage_model_base.swap_segment, Function.update_apply]

theorem swap_segments_size (st : storage_model_base) :
    st.swap_segments.sm_segment_size = st.sm_segment_size := by
  rw [swap_segments_eq]
  rfl

theorem address_resolves_at_access_time_aux (st : storage_model_base) (s o : Nat)
    (hs : s < 2 ^ 16) (ho : o < 2 ^ 48) :
    based_2d_msk_addressing_model.address st (based_2d_msk_addressing_model.ctor s o)
        = ptr_add (st.segment_address s) o ∧
      based_2d_xl_addressing_model.address st (based_2d_xl_addressing_model.ctor s o)
        = ptr_add (st.segment_address s) o := by
  have e1 : (s % 2 ^ 16 * 2 ^ 48 + o % 2 ^ 64 % 2 ^ 48) / 2 ^ 48 % 2 ^ 16 = s := by omega
  have e2 : (s % 2 ^ 16 * 2 ^ 48 + o % 2 ^ 64 % 2 ^ 48) % 2 ^ 48 = o := by omega
  have e3 : o % 2 ^ 64 = o := by omega
  have e4 : s % 2 ^ 64 = s := by omega
  constructor
  · simp only [based_2d_msk_addressing_model.address, based_2d_msk_addressing_model.ctor,
      based_2d_msk_addressing_model.set_m_segment, based_2d_msk_addressing_model.m_segment,
      and_offset_mask, e1, e2]
  · simp only [based_2d_xl_addressing_model.address, based_2d_xl_addressing_model.ctor, e3, e4]

/-- C2. Resolution happens at access time: for every registry state, the `based_2d_msk` and the
`based_2d_xl` handle built from a segment `s < 2 ^ 16` and an offset `o < 2 ^ 48` have
`address()` equal to the current `segment_address(s)` plus `o`; so after `swap_segments()` the
same handle, for a segment `s` of the registry, resolves to the former shadow buffer of `s`
plus `o`. -/
theorem address_resolves_at_access_time (st : storage_model_base) (s o : Nat)
    (hs : s < 2 ^ 16) (ho : o < 2 ^ 48) :
    based_2d_msk_addressing_model.address st (based_2d_msk_addressing_model.ctor s o)
        = ptr_add (st.segment_address s) o ∧
      based_2d_xl_addressing_model.address st (based_2d_xl_addressing_model.ctor s o)
        = ptr_add (st.segment_address s) o ∧
      (first_segment_index ≤ s ∧ s ≤ last_segment_index →
        based_2d_msk_addressing_model.address st.swap_segments
            (based_2d_msk_addressing_model.ctor s o) = ptr_add (st.sm_shadow_ptrs s) o ∧
          based_2d_xl_addressing_model.address st.swap_segments
            (based_2d_xl_addressing_model.ctor s o) = ptr_add (st.sm_shadow_ptrs s) o) := by
  have hmsk := fun r => (address_resolves_at_access_time_aux r s o hs ho).1
  have hxl := fun r => (address_resolves_at_access_time_aux r s o hs ho).2
  refine ⟨hmsk st, hxl st, fun hr => ?_⟩
  rw [hmsk, hxl]
  simp only [storage_model_base.segment_address, (swap_segments_tables st s hr).1, and_self]

theorem address_resolves_at_access_time_witness :
    based_2d_msk_addressing_model.address example_registry
        (based_2d_msk_addressing_model.ctor 2 64)
        = ptr_add (example_registry.segment_address 2) 64 ∧
      based_2d_xl_addressing_model.address example_registry
        (based_2d_xl_addressing_model.ctor 2 64)
        = ptr_add (example_registry.segment_address 2) 64 ∧
      (first_segment_index ≤ 2 ∧ 2 ≤ last_segment_index →
        based_2d_msk_addressing_model.address example_registry.swap_segments
            (based_2d_msk_addressing_model.ctor 2 64)
            = ptr_add (example_registry.sm_shadow_ptrs 2) 64 ∧
          based_2d_xl_addressing_model.address example_registry.swap_segments
            (based_2d_xl_addressing_model.ctor 2 64)
            = ptr_add (example_registry.sm_shadow_ptrs 2) 64) :=
  address_resolves_at_access_time example_registry 2 64 (by norm_num) (by norm_num)

/-! ### Memory across `swap_segments` -/

theorem memcpy_inside (mem : Nat → Nat) (dst src n a : Nat) (h : dst ≤ a ∧ a < dst + n) :
    memcpy mem dst src n a = mem (src + (a - dst)) := by
  simp only [memcpy, if_pos h]

theorem memcpy_outside (mem : Nat → Nat) (dst src n a : Nat) (h : ¬ (dst ≤ a ∧ a < dst + n)) :
    memcpy mem dst src n a = mem a := by
  simp only [memcpy, if_neg h]

theorem swap_segments_memory_eq (st : storage_model_base) :
    st.swap_segments.memory =
      memcpy (memcpy (memcpy st.memory (st.sm_shadow_ptrs 2) (st.sm_segment_ptrs 2)
        (st.sm_segment_size 2)) (st.sm_shadow_ptrs 3) (st.sm_segment_ptrs 3)
        (st.sm_segment_size 3)) (st.sm_shadow_ptrs 4) (st.sm_segment_ptrs 4)
        (st.sm_segment_size 4) := by
  rw [swap_segments_eq]
  simp [storage_model_base.swap_segment, Function.update_apply]

theorem swap_segments_memory_frame (st : storage_model_base) (a : Nat)
    (ha : ∀ i, first_segment_index ≤ i ∧ i ≤ last_segment_index →
      ¬ (st.sm_shadow_ptrs i ≤ a ∧ a < st.sm_shadow_ptrs i + st.sm_segment_size i)) :
    st.swap_segments.memory a = st.memory a := by
  rw [swap_segments_memory_eq, memcpy_outside _ _ _ _ _ (ha 4 (by decide)),
    memcpy_outside _ _ _ _ _ (ha 3 (by decide)), memcpy_outside _ _ _ _ _ (ha 2 (by decide))]

theorem swap_segments_memory_shadow (st : storage_model_base) (hinv : registry_invariant st)
    (s k : Nat) (hs : first_segment_index ≤ s ∧ s ≤ last_segment_index)
    (hk : k < st.sm_segment_size s) :
    st.swap_segments.memory (st.sm_shadow_ptrs s + k) = st.memory (st.sm_segment_ptrs s + k) := by
  simp only [first_segment_index, last_segment_index, max_segments] at hs
  obtain ⟨hs1, hs2⟩ := hs
  rw [swap_segments_memory_eq]
  interval_cases s
  · have d23 := hinv.shadow_shadow 2 3 (by decide)
    have d24 := hinv.shadow_shadow 2 4 (by decide)
    simp only [ranges_disjoint] at d23 d24
    rw [memcpy_outside _ _ _ _ _ (by omega), memcpy_outside _ _ _ _ _ (by omega),
      memcpy_inside _ _ _ _ _ (by omega)]
    congr 1
    omega
  · have d23 := hinv.shadow_shadow 2 3 (by decide)
    have d34 := hinv.shadow_shadow 3 4 (by decide)
    have p32 := hinv.primary_shadow 3 2
    simp only [ranges_disjoint] at d23 d34 p32
    rw [memcpy_outside _ _ _ _ _ (by omega), memcpy_inside _ _ _ _ _ (by omega),
      memcpy_outside _ _ _ _ _ (by omega)]
    congr 1
    omega
  · have p42 := hinv.primary_shadow 4 2
    have p43 := hinv.primary_shadow 4 3
    simp only [ranges_disjoint] at p42 p43
    rw [memcpy_inside _ _ _ _ _ (by omega), memcpy_outside _ _ _ _ _ (by omega),
      memcpy_outside _ _ _ _ _ (by omega)]
    congr 1
    omega

/-- C4. `swap_segments()` exchanges the primary and the shadow buffer of every segment of the
registry and keeps the contents: in every reachable state, for every segment `id` of
`[first_segment_index, last_segment_index]`, the byte at `segment_address(id) + o` is the same
after the call as before it for every offset `o < segment_size(id)`, `segment_address(id)`
after the call is the former shadow buffer, the former primary buffer is the new shadow buffer,
and `segment_size(id)` is unchanged. -/
theorem swap_segments_preserves_contents (st : storage_model_base) (hst : reachable st)
    (id : Nat) (hid : first_segment_index ≤ id ∧ id ≤ last_segment_index) :
    (∀ o, o < st.segment_size id →
        st.swap_segments.memory (st.swap_segments.segment_address id + o)
          = st.memory (st.segment_address id + o)) ∧
      st.swap_segments.segment_address id = st.sm_shadow_ptrs id ∧
      st.swap_segments.sm_shadow_ptrs id = st.segment_address id ∧
      st.swap_segments.segment_size id = st.segment_size id := by
  have hinv := reachable_invariant st hst
  have ht := swap_segments_tables st id hid
  simp only [storage_model_base.segment_address, storage_model_base.segment_size] at *
  refine ⟨fun o ho => ?_, ht.1, ht.2, by rw [swap_segments_size]⟩
  rw [ht.1]
  exact swap_segments_memory_shadow st hinv id o hid ho

theorem swap_segments_preserves_contents_witness :
    reachable example_registry ∧
      (∀ o, o < example_registry.segment_size 2 →
        example_registry.swap_segments.memory
            (example_registry.swap_segments.segment_address 2 + o)
          = example_registry.memory (example_registry.segment_address 2 + o)) ∧
      example_registry.swap_segments.segment_address 2 = example_registry.sm_shadow_ptrs 2 ∧
      example_registry.swap_segments.sm_shadow_ptrs 2 = example_registry.segment_address 2 ∧
      example_registry.swap_segments.segment_size 2 = example_registry.segment_size 2 :=
  ⟨example_registry_reachable,
    swap_segments_preserves_contents example_registry example_registry_reachable 2 (by decide)⟩

/-! ### The relocation scenario -/

theorem load_bytes_eq (mem : Nat → Nat) (a : Nat) (A : List Nat)
    (h : ∀ j, j < A.length → mem (a + j) = A.getD j 0) : load_bytes mem a A.length = A := by
  apply List.ext_getElem
  · simp [load_bytes]
  · intro j h1 h2
    simp only [load_bytes, List.getElem_map, List.getElem_range]
    rw [h j h2, List.getD_eq_getElem _ _ h2]

theorem store_bytes_inside (mem : Nat → Nat) (a : Nat) (A : List Nat) (j : Nat)
    (hj : j < A.length) : store_bytes mem a A (a + j) = A.getD j 0 := by
  have e : a + j - a = j := by omega
  simp only [store_bytes, if_pos (show a ≤ a + j ∧ a + j < a + A.length by omega), e]

theorem write_swap_read_relative (st : storage_model_base) (hinv : registry_invariant st)
    (s o : Nat) (hs : first_segment_index ≤ s ∧ s ≤ last_segment_index) (A : List Nat)
    (hfit : o + A.length ≤ st.segment_size s) :
    load_bytes ({ st with memory := store_bytes st.memory (st.sm_segment_ptrs s + o) A } :
        storage_model_base).swap_segments.memory (st.sm_shadow_ptrs s + o) A.length = A := by
  apply load_bytes_eq
  intro j hj
  simp only [storage_model_base.segment_size] at hfit
  have h1 := swap_segments_memory_shadow
    { st with memory := store_bytes st.memory (st.sm_segment_ptrs s + o) A }
    (registry_invariant_memory st _ hinv) s (o + j) hs (by show o + j < st.sm_segment_size s; omega)
  rw [Nat.add_assoc, h1]
  show store_bytes st.memory (st.sm_segment_ptrs s + o) A (st.sm_segment_ptrs s + (o + j)) = _
  rw [← Nat.add_assoc]
  exact store_bytes_inside _ _ _ _ hj

theorem write_swap_read_absolute (st : storage_model_base) (hinv : registry_invariant st)
    (s o : Nat) (A : List Nat)
    (hfit : o + A.length ≤ st.segment_size s) :
    load_bytes ({ st with memory := store_bytes st.memory (st.sm_segment_ptrs s + o) A } :
        storage_model_base).swap_segments.memory (st.sm_segment_ptrs s + o) A.length = A := by
  apply load_bytes_eq
  intro j hj
  simp only [storage_model_base.segment_size] at hfit
  rw [swap_segments_memory_frame]
  · exact store_bytes_inside _ _ _ _ hj
  · intro i _
    have hd := hinv.primary_shadow s i
    simp only [ranges_disjoint] at hd
    show ¬ (st.sm_shadow_ptrs i ≤ st.sm_segment_ptrs s + o + j ∧
      st.sm_segment_ptrs s + o + j < st.sm_shadow_ptrs i + st.sm_segment_size i)
    omega

theorem to_native_msk (st : storage_model_base) (x : based_2d_msk_addressing_model) :
    syn_ptr.to_native st (⟨x⟩ : syn_ptr based_2d_msk_addressing_model)
      = based_2d_msk_addressing_model.address st x := rfl

theorem to_native_xl (st : storage_model_base) (x : based_2d_xl_addressing_model) :
    syn_ptr.to_native st (⟨x⟩ : syn_ptr based_2d_xl_addressing_model)
      = based_2d_xl_addressing_model.address st x := rfl

theorem to_native_wrapper (st : storage_model_base) (x : wrapper_addressing_model) :
    syn_ptr.to_native st (⟨x⟩ : syn_ptr wrapper_addressing_model) = x.address := rfl

theorem to_native_offset (st : storage_model_base) (x : offset_addressing_model) :
    syn_ptr.to_native st (⟨x⟩ : syn_ptr offset_addressing_model) = x.address := rfl

/-- C3, as the claim states it, fails: in the example registry the handle `(2, 64)` of the
`based_2d_msk` model receives the value `A = [7]`; after `swap_segments()` the value read
through the same handle is `[7]`, that is `A`, and it is not the `[0]` that the shadow buffer of
segment `2` held at offset `64` before the swap. -/
theorem write_swap_read_counterexample :
    write_swap_read example_registry
        (⟨based_2d_msk_addressing_model.ctor 2 64⟩ : syn_ptr based_2d_msk_addressing_model) [7]
        = [7] ∧
      load_bytes example_registry.memory (example_registry.sm_shadow_ptrs 2 + 64) 1 = [0] ∧
      ¬ (write_swap_read example_registry
          (⟨based_2d_msk_addressing_model.ctor 2 64⟩ : syn_ptr based_2d_msk_addressing_model) [7]
          = load_bytes example_registry.memory (example_registry.sm_shadow_ptrs 2 + 64) 1 ∧
        write_swap_read example_registry
          (⟨based_2d_msk_addressing_model.ctor 2 64⟩ : syn_ptr based_2d_msk_addressing_model) [7]
          ≠ [7]) := by
  decide

/-- C3, amended. Take a handle `h` that designates offset `o` of a segment `s` of a reachable
registry, write a value `A` that fits in the segment through `h`, call `swap_segments()` and
read through `h` again: the value read is `A`, in each of the four addressing models, because
`swap_segments()` copies the primary buffer into the shadow buffer before it exchanges the two;
and the segment:offset handles resolve into the former shadow buffer after the swap. -/
theorem write_swap_read_returns_written_value (st : storage_model_base) (hst : reachable st)
    (s o : Nat) (hs : first_segment_index ≤ s ∧ s ≤ last_segment_index) (A : List Nat)
    (hfit : o + A.length ≤ st.segment_size s)
    (w : wrapper_addressing_model) (f : offset_addressing_model)
    (hw : w.address = st.segment_address s + o) (hf : f.address = st.segment_address s + o) :
    write_swap_read st
        (⟨based_2d_msk_addressing_model.ctor s o⟩ : syn_ptr based_2d_msk_addressing_model) A = A ∧
      write_swap_read st
        (⟨based_2d_xl_addressing_model.ctor s o⟩ : syn_ptr based_2d_xl_addressing_model) A = A ∧
      write_swap_read st (⟨w⟩ : syn_ptr wrapper_addressing_model) A = A ∧
      write_swap_read st (⟨f⟩ : syn_ptr offset_addressing_model) A = A ∧
      syn_ptr.to_native st.swap_segments
        (⟨based_2d_msk_addressing_model.ctor s o⟩ : syn_ptr based_2d_msk_addressing_model)
        = st.sm_shadow_ptrs s + o ∧
      syn_ptr.to_native st.swap_segments
        (⟨based_2d_xl_addressing_model.ctor s o⟩ : syn_ptr based_2d_xl_addressing_model)
        = st.sm_shadow_ptrs s + o := by
  have hinv := reachable_invariant st hst
  have hsz := hinv.size_le s
  have hsp := hinv.in_space s
  have hs16 : s < 2 ^ 16 := by
    simp only [first_segment_index, last_segment_index, max_segments] at hs; omega
  have ho48 : o < 2 ^ 48 := by
    simp only [storage_model_base.segment_size, max_size] at hfit hsz; omega
  have hfit2 : o ≤ st.sm_segment_size s := by
    simp only [storage_model_base.segment_size] at hfit; omega
  have hadd : ∀ r : storage_model_base, r.sm_segment_ptrs = st.sm_segment_ptrs →
      ptr_add (r.segment_address s) o = st.sm_segment_ptrs s + o := by
    intro r hr
    simp only [ptr_add, storage_model_base.segment_address, hr]
    omega
  have hswp : ∀ mem : Nat → Nat,
      ptr_add (({ st with memory := mem } : storage_model_base).swap_segments.segment_address s) o
        = st.sm_shadow_ptrs s + o := by
    intro mem
    simp only [ptr_add, storage_model_base.segment_address,
      (swap_segments_tables { st with memory := mem } s hs).1]
    omega
  have hrel := write_swap_read_relative st hinv s o hs A hfit
  have habs := write_swap_read_absolute st hinv s o A hfit
  have hmsk := fun r => (address_resolves_at_access_time_aux r s o hs16 ho48).1
  have hxl := fun r => (address_resolves_at_access_time_aux r s o hs16 ho48).2
  have hadd0 := hadd st rfl
  refine ⟨?_, ?_, ?_, ?_, ?_, ?_⟩
  · simp only [write_swap_read, monotonic_allocation_strategy.swap_segments, to_native_msk, hmsk,
      hadd0, hswp]
    exact hrel
  · simp only [write_swap_read, monotonic_allocation_strategy.swap_segments, to_native_xl, hxl,
      hadd0, hswp]
    exact hrel
  · simp only [write_swap_read, monotonic_allocation_strategy.swap_segments, to_native_wrapper,
      hw, storage_model_base.segment_address]
    exact habs
  · simp only [write_swap_read, monotonic_allocation_strategy.swap_segments, to_native_offset,
      hf, storage_model_base.segment_address]
    exact habs
  · rw [to_native_msk, hmsk]
    exact hswp st.memory
  · rw [to_native_xl, hxl]
    exact hswp st.memory

theorem write_swap_read_returns_written_value_witness :
    write_swap_read example_registry
        (⟨based_2d_msk_addressing_model.ctor 2 64⟩ : syn_ptr based_2d_msk_addressing_model)
        [7, 9] = [7, 9] ∧
      write_swap_read example_registry
        (⟨based_2d_xl_addressing_model.ctor 2 64⟩ : syn_ptr based_2d_xl_addressing_model)
        [7, 9] = [7, 9] ∧
      write_swap_read example_registry (⟨⟨8256⟩⟩ : syn_ptr wrapper_addressing_model)
        [7, 9] = [7, 9] ∧
      write_swap_read example_registry (⟨⟨16, 8240⟩⟩ : syn_ptr offset_addressing_model)
        [7, 9] = [7, 9] ∧
      syn_ptr.to_native example_registry.swap_segments
        (⟨based_2d_msk_addressing_model.ctor 2 64⟩ : syn_ptr based_2d_msk_addressing_model)
        = example_registry.sm_shadow_ptrs 2 + 64 ∧
      syn_ptr.to_native example_registry.swap_segments
        (⟨based_2d_xl_addressing_model.ctor 2 64⟩ : syn_ptr based_2d_xl_addressing_model)
        = example_registry.sm_shadow_ptrs 2 + 64 :=
  write_swap_read_returns_written_value example_registry example_registry_reachable 2 64
    (by decide) [7, 9] (by decide) ⟨8256⟩ ⟨16, 8240⟩ (by decide) (by decide)

/-! ### Pointer arithmetic -/

theorem wrap_ptrdiff_spec (i : Int) :
    -2 ^ 63 ≤ wrap_ptrdiff i ∧ wrap_ptrdiff i < 2 ^ 63 ∧ wrap_ptrdiff i % 2 ^ 64 = i % 2 ^ 64 := by
  unfold wrap_ptrdiff to_ptrdiff_t to_size_t
  split_ifs <;> omega

theorem scaled_emod (E : Nat) (n : Int) :
    syn_ptr.scaled E n % 2 ^ 64 = (n * (E : Int)) % 2 ^ 64 := by
  have h1 : (((to_size_t n * E : Nat) : Int)) % 2 ^ 64 = (n * (E : Int)) % 2 ^ 64 := by
    have h2 : ((to_size_t n : Nat) : Int) = n % 2 ^ 64 := by unfold to_size_t; omega
    rw [Nat.cast_mul, h2]
    exact Int.emod_emod_of_dvd n (dvd_refl _) |> fun h => by
      rw [Int.mul_emod, h, ← Int.mul_emod]
  have h3 : syn_ptr.scaled E n % 2 ^ 64 = (((to_size_t n * E : Nat) : Int)) % 2 ^ 64 := by
    unfold syn_ptr.scaled to_ptrdiff_t
    split_ifs <;> omega
  rw [h3, h1]

theorem wrapper_add_address (st : storage_model_base) (w : wrapper_addressing_model)
    (E : Nat) (n : Int) (tmp ret : Nat) :
    syn_ptr.to_native st (syn_ptr.add E (⟨w⟩ : syn_ptr wrapper_addressing_model) n tmp ret)
      = ptr_add_diff (syn_ptr.to_native st (⟨w⟩ : syn_ptr wrapper_addressing_model))
          (n * (E : Int)) := by
  show ptr_add_diff w.m_addr (syn_ptr.scaled E n) = ptr_add_diff w.m_addr (n * (E : Int))
  have h := scaled_emod E n
  unfold ptr_add_diff to_size_t
  omega

theorem wrapper_sub_address (st : storage_model_base) (w : wrapper_addressing_model)
    (E : Nat) (n : Int) (tmp ret : Nat) :
    syn_ptr.to_native st (syn_ptr.sub E (⟨w⟩ : syn_ptr wrapper_addressing_model) n tmp ret)
      = ptr_add_diff (syn_ptr.to_native st (⟨w⟩ : syn_ptr wrapper_addressing_model))
          (-(n * (E : Int))) := by
  show ptr_add_diff w.m_addr (-syn_ptr.scaled E n) = ptr_add_diff w.m_addr (-(n * (E : Int)))
  have h := scaled_emod E n
  unfold ptr_add_diff to_size_t
  omega

theorem xl_add_address (st : storage_model_base) (x : based_2d_xl_addressing_model)
    (E : Nat) (n : Int) (tmp ret : Nat) :
    syn_ptr.to_native st (syn_ptr.add E (⟨x⟩ : syn_ptr based_2d_xl_addressing_model) n tmp ret)
      = ptr_add_diff (syn_ptr.to_native st (⟨x⟩ : syn_ptr based_2d_xl_addressing_model))
          (n * (E : Int)) := by
  show ptr_add (st.segment_address x.m_segment)
      (to_size_t ((x.m_offset : Int) + syn_ptr.scaled E n))
    = ptr_add_diff (ptr_add (st.segment_address x.m_segment) x.m_offset) (n * (E : Int))
  have h := scaled_emod E n
  unfold ptr_add_diff ptr_add to_size_t
  omega

theorem xl_sub_address (st : storage_model_base) (x : based_2d_xl_addressing_model)
    (E : Nat) (n : Int) (tmp ret : Nat) :
    syn_ptr.to_native st (syn_ptr.sub E (⟨x⟩ : syn_ptr based_2d_xl_addressing_model) n tmp ret)
      = ptr_add_diff (syn_ptr.to_native st (⟨x⟩ : syn_ptr based_2d_xl_addressing_model))
          (-(n * (E : Int))) := by
  show ptr_add (st.segment_address x.m_segment)
      (to_size_t ((x.m_offset : Int) - syn_ptr.scaled E n))
    = ptr_add_diff (ptr_add (st.segment_address x.m_segment) x.m_offset) (-(n * (E : Int)))
  have h := scaled_emod E n
  unfold ptr_add_diff ptr_add to_size_t
  omega

theorem msk_increment_address (st : storage_model_base) (x : based_2d_msk_addressing_model)
    (d t : Int) (hd : d % 2 ^ 64 = t % 2 ^ 64)
    (hr : 0 ≤ (x.offset : Int) + t ∧ (x.offset : Int) + t < 2 ^ 48) :
    based_2d_msk_addressing_model.address st (x.increment d)
      = ptr_add_diff (based_2d_msk_addressing_model.address st x) t := by
  simp only [based_2d_msk_addressing_model.offset, and_offset_mask] at hr
  have hseg : (x.increment d).m_segment = x.m_segment := by
    simp only [based_2d_msk_addressing_model.increment, based_2d_msk_addressing_model.m_segment,
      to_size_t]
    omega
  have hoff : (((x.increment d).m_addr % 2 ^ 48 : Nat) : Int) = (x.m_addr % 2 ^ 48 : Nat) + t := by
    simp only [based_2d_msk_addressing_model.increment, to_size_t]
    omega
  simp only [based_2d_msk_addressing_model.address, and_offset_mask, hseg]
  unfold ptr_add_diff ptr_add to_size_t
  omega

theorem msk_add_address (st : storage_model_base) (x : based_2d_msk_addressing_model)
    (E : Nat) (n : Int) (tmp ret : Nat)
    (hr : 0 ≤ (x.offset : Int) + n * (E : Int) ∧ (x.offset : Int) + n * (E : Int) < 2 ^ 48) :
    syn_ptr.to_native st (syn_ptr.add E (⟨x⟩ : syn_ptr based_2d_msk_addressing_model) n tmp ret)
      = ptr_add_diff (syn_ptr.to_native st (⟨x⟩ : syn_ptr based_2d_msk_addressing_model))
          (n * (E : Int)) :=
  msk_increment_address st x (syn_ptr.scaled E n) (n * (E : Int)) (scaled_emod E n) hr

theorem msk_sub_address (st : storage_model_base) (x : based_2d_msk_addressing_model)
    (E : Nat) (n : Int) (tmp ret : Nat)
    (hr : 0 ≤ (x.offset : Int) - n * (E : Int) ∧ (x.offset : Int) - n * (E : Int) < 2 ^ 48) :
    syn_ptr.to_native st (syn_ptr.sub E (⟨x⟩ : syn_ptr based_2d_msk_addressing_model) n tmp ret)
      = ptr_add_diff (syn_ptr.to_native st (⟨x⟩ : syn_ptr based_2d_msk_addressing_model))
          (-(n * (E : Int))) := by
  have h := msk_increment_address st x (-syn_ptr.scaled E n) (-(n * (E : Int)))
    (by have := scaled_emod E n; omega) (by omega)
  have e : x.decrement (syn_ptr.scaled E n) = x.increment (-syn_ptr.scaled E n) := by
    simp only [based_2d_msk_addressing_model.decrement, based_2d_msk_addressing_model.increment,
      sub_eq_add_neg]
  show based_2d_msk_addressing_model.address st (x.decrement (syn_ptr.scaled E n)) = _
  rw [e]
  exact h

theorem offset_copy_ctor_address (this : Nat) (f : offset_addressing_model)
    (h : f.address ≠ offset_addressing_model.reserved this) :
    (offset_addressing_model.copy_ctor this f).address = f.address := by
  have h1 := wrap_ptrdiff_spec ((f.self : Int) - (this : Int))
  have h2 := wrap_ptrdiff_spec (wrap_ptrdiff ((f.self : Int) - (this : Int)) + f.m_offset)
  simp only [offset_addressing_model.address, offset_addressing_model.copy_ctor,
    offset_addressing_model.offset_to, offset_addressing_model.offset_between,
    offset_addressing_model.reserved, offset_addressing_model.null_offset, to_size_t] at h ⊢
  by_cases hn : f.m_offset = 1
  · simp only [hn, if_true]
  · rw [if_neg hn] at h ⊢
    simp only [if_neg hn]
    have hne : wrap_ptrdiff (wrap_ptrdiff ((f.self : Int) - (this : Int)) + f.m_offset) ≠ 1 := by
      intro hc
      rw [hc] at h2
      omega
    rw [if_neg hne]
    omega

theorem offset_increment_address (f : offset_addressing_model) (d t : Int)
    (hd : d % 2 ^ 64 = t % 2 ^ 64) (hn : f.m_offset ≠ offset_addressing_model.null_offset)
    (h : ptr_add_diff f.address t ≠ offset_addressing_model.reserved f.self) :
    (f.increment d).address = ptr_add_diff f.address t := by
  have h1 := wrap_ptrdiff_spec (f.m_offset + d)
  simp only [offset_addressing_model.address, offset_addressing_model.increment,
    offset_addressing_model.reserved, offset_addressing_model.null_offset, ptr_add_diff,
    to_size_t] at h hn ⊢
  rw [if_neg hn] at h ⊢
  have hne : wrap_ptrdiff (f.m_offset + d) ≠ 1 := by
    intro hc
    rw [hc] at h1
    omega
  rw [if_neg hne]
  omega

theorem offset_copy_ctor_null_iff (this : Nat) (f : offset_addressing_model)
    (h : f.address ≠ offset_addressing_model.reserved this) :
    (offset_addressing_model.copy_ctor this f).m_offset = offset_addressing_model.null_offset ↔
      f.m_offset = offset_addressing_model.null_offset := by
  have h1 := wrap_ptrdiff_spec ((f.self : Int) - (this : Int))
  have h2 := wrap_ptrdiff_spec (wrap_ptrdiff ((f.self : Int) - (this : Int)) + f.m_offset)
  simp only [offset_addressing_model.address, offset_addressing_model.copy_ctor,
    offset_addressing_model.offset_to, offset_addressing_model.offset_between,
    offset_addressing_model.reserved, offset_addressing_model.null_offset, to_size_t] at h ⊢
  by_cases hn : f.m_offset = 1
  · simp only [hn, if_true]
  · rw [if_neg hn] at h ⊢
    simp only [hn, iff_false]
    intro hc
    rw [hc] at h2
    omega

theorem offset_add_address (st : storage_model_base) (f : offset_addressing_model)
    (E : Nat) (n : Int) (tmp ret : Nat)
    (hn : f.m_offset ≠ offset_addressing_model.null_offset)
    (h1 : f.address ≠ offset_addressing_model.reserved tmp)
    (h2 : ptr_add_diff f.address (n * (E : Int)) ≠ offset_addressing_model.reserved tmp)
    (h3 : ptr_add_diff f.address (n * (E : Int)) ≠ offset_addressing_model.reserved ret) :
    syn_ptr.to_native st (syn_ptr.add E (⟨f⟩ : syn_ptr offset_addressing_model) n tmp ret)
      = ptr_add_diff (syn_ptr.to_native st (⟨f⟩ : syn_ptr offset_addressing_model))
          (n * (E : Int)) := by
  show (offset_addressing_model.copy_ctor ret
      ((offset_addressing_model.copy_ctor tmp f).increment (syn_ptr.scaled E n))).address
    = ptr_add_diff f.address (n * (E : Int))
  have ha := offset_copy_ctor_address tmp f h1
  have hnn : (offset_addressing_model.copy_ctor tmp f).m_offset
      ≠ offset_addressing_model.null_offset := fun hc =>
    hn ((offset_copy_ctor_null_iff tmp f h1).mp hc)
  have hi := offset_increment_address (offset_addressing_model.copy_ctor tmp f)
    (syn_ptr.scaled E n) (n * (E : Int)) (scaled_emod E n) hnn (by rw [ha]; exact h2)
  rw [offset_copy_ctor_address ret _ (by rw [hi, ha]; exact h3), hi, ha]

theorem offset_sub_address (st : storage_model_base) (f : offset_addressing_model)
    (E : Nat) (n : Int) (tmp ret : Nat)
    (hn : f.m_offset ≠ offset_addressing_model.null_offset)
    (h1 : f.address ≠ offset_addressing_model.reserved tmp)
    (h2 : ptr_add_diff f.address (-(n * (E : Int))) ≠ offset_addressing_model.reserved tmp)
    (h3 : ptr_add_diff f.address (-(n * (E : Int))) ≠ offset_addressing_model.reserved ret) :
    syn_ptr.to_native st (syn_ptr.sub E (⟨f⟩ : syn_ptr offset_addressing_model) n tmp ret)
      = ptr_add_diff (syn_ptr.to_native st (⟨f⟩ : syn_ptr offset_addressing_model))
          (-(n * (E : Int))) := by
  show (offset_addressing_model.copy_ctor ret
      ((offset_addressing_model.copy_ctor tmp f).decrement (syn_ptr.scaled E n))).address
    = ptr_add_diff f.address (-(n * (E : Int)))
  have e : ∀ g : offset_addressing_model,
      g.decrement (syn_ptr.scaled E n) = g.increment (-syn_ptr.scaled E n) := by
    intro g
    simp only [offset_addressing_model.decrement, offset_addressing_model.increment,
      sub_eq_add_neg]
  rw [e]
  have ha := offset_copy_ctor_address tmp f h1
  have hnn : (offset_addressing_model.copy_ctor tmp f).m_offset
      ≠ offset_addressing_model.null_offset := fun hc =>
    hn ((offset_copy_ctor_null_iff tmp f h1).mp hc)
  have hi := offset_increment_address (offset_addressing_model.copy_ctor tmp f)
    (-syn_ptr.scaled E n) (-(n * (E : Int))) (by have := scaled_emod E n; omega) hnn
    (by rw [ha]; exact h2)
  rw [offset_copy_ctor_address ret _ (by rw [hi, ha]; exact h3), hi, ha]

/-- C5, as the claim states it, fails: in the example registry the `based_2d_msk` handle
`h = (2, 0)` with element size `1` has `h.address() == 8192`, and `(h + (-1)).address()` and
`(h - 1).address()` are `2 ^ 48 - 1`, not `8191`: the borrow leaves the 48 offset bits and
changes the segment bits of the packed word. -/
theorem pointer_arithmetic_counterexample :
    syn_ptr.to_native example_registry
        (⟨based_2d_msk_addressing_model.ctor 2 0⟩ : syn_ptr based_2d_msk_addressing_model)
        = 8192 ∧
      syn_ptr.to_native example_registry (syn_ptr.add 1
        (⟨based_2d_msk_addressing_model.ctor 2 0⟩ : syn_ptr based_2d_msk_addressing_model)
        (-1) 0 0) = 281474976710655 ∧
      syn_ptr.to_native example_registry (syn_ptr.sub 1
        (⟨based_2d_msk_addressing_model.ctor 2 0⟩ : syn_ptr based_2d_msk_addressing_model)
        1 0 0) = 281474976710655 ∧
      syn_ptr.to_native example_registry (syn_ptr.add 1
        (⟨based_2d_msk_addressing_model.ctor 2 0⟩ : syn_ptr based_2d_msk_addressing_model)
        (-1) 0 0)
        ≠ ptr_add_diff (syn_ptr.to_native example_registry
          (⟨based_2d_msk_addressing_model.ctor 2 0⟩ : syn_ptr based_2d_msk_addressing_model))
          ((-1) * ((1 : Nat) : Int)) := by
  decide

/-- C5, amended. With `E = sizeof(T)` and 64-bit pointer arithmetic on the right-hand sides,
`(h + n).address() == h.address() + n*E` and `(h - n).address() == h.address() - n*E` hold
* for every `n` in the wrapper and the `based_2d_xl` model;
* in the `based_2d_msk` model when the offset of `h` plus (minus) `n*E` stays in `[0, 2 ^ 48)`;
* in the offset model when `h` is not null and neither the address of `h` nor the result is the
  address reserved for null by the temporary (stored at `tmp`) or by the returned handle
  (stored at `ret`). -/
theorem pointer_arithmetic_scaling (st : storage_model_base) (E : Nat) (n : Int) (tmp ret : Nat)
    (w : wrapper_addressing_model) (x : based_2d_xl_addressing_model)
    (m : based_2d_msk_addressing_model) (f : offset_addressing_model) :
    (syn_ptr.to_native st (syn_ptr.add E (⟨w⟩ : syn_ptr wrapper_addressing_model) n tmp ret)
        = ptr_add_diff (syn_ptr.to_native st (⟨w⟩ : syn_ptr wrapper_addressing_model))
            (n * (E : Int)) ∧
      syn_ptr.to_native st (syn_ptr.sub E (⟨w⟩ : syn_ptr wrapper_addressing_model) n tmp ret)
        = ptr_add_diff (syn_ptr.to_native st (⟨w⟩ : syn_ptr wrapper_addressing_model))
            (-(n * (E : Int)))) ∧
    (syn_ptr.to_native st (syn_ptr.add E (⟨x⟩ : syn_ptr based_2d_xl_addressing_model) n tmp ret)
        = ptr_add_diff (syn_ptr.to_native st (⟨x⟩ : syn_ptr based_2d_xl_addressing_model))
            (n * (E : Int)) ∧
      syn_ptr.to_native st (syn_ptr.sub E (⟨x⟩ : syn_ptr based_2d_xl_addressing_model) n tmp ret)
        = ptr_add_diff (syn_ptr.to_native st (⟨x⟩ : syn_ptr based_2d_xl_addressing_model))
            (-(n * (E : Int)))) ∧
    (0 ≤ (m.offset : Int) + n * (E : Int) ∧ (m.offset : Int) + n * (E : Int) < 2 ^ 48 →
      syn_ptr.to_native st (syn_ptr.add E (⟨m⟩ : syn_ptr based_2d_msk_addressing_model) n tmp ret)
        = ptr_add_diff (syn_ptr.to_native st (⟨m⟩ : syn_ptr based_2d_msk_addressing_model))
            (n * (E : Int))) ∧
    (0 ≤ (m.offset : Int) - n * (E : Int) ∧ (m.offset : Int) - n * (E : Int) < 2 ^ 48 →
      syn_ptr.to_native st (syn_ptr.sub E (⟨m⟩ : syn_ptr based_2d_msk_addressing_model) n tmp ret)
        = ptr_add_diff (syn_ptr.to_native st (⟨m⟩ : syn_ptr based_2d_msk_addressing_model))
            (-(n * (E : Int)))) ∧
    (f.m_offset ≠ offset_addressing_model.null_offset →
      f.address ≠ offset_addressing_model.reserved tmp →
      ptr_add_diff f.address (n * (E : Int)) ≠ offset_addressing_model.reserved tmp →
      ptr_add_diff f.address (n * (E : Int)) ≠ offset_addressing_model.reserved ret →
      syn_ptr.to_native st (syn_ptr.add E (⟨f⟩ : syn_ptr offset_addressing_model) n tmp ret)
        = ptr_add_diff (syn_ptr.to_native st (⟨f⟩ : syn_ptr offset_addressing_model))
            (n * (E : Int))) ∧
    (f.m_offset ≠ offset_addressing_model.null_offset →
      f.address ≠ offset_addressing_model.reserved tmp →
      ptr_add_diff f.address (-(n * (E : Int))) ≠ offset_addressing_model.reserved tmp →
      ptr_add_diff f.address (-(n * (E : Int))) ≠ offset_addressing_model.reserved ret →
      syn_ptr.to_native st (syn_ptr.sub E (⟨f⟩ : syn_ptr offset_addressing_model) n tmp ret)
        = ptr_add_diff (syn_ptr.to_native st (⟨f⟩ : syn_ptr offset_addressing_model))
            (-(n * (E : Int)))) :=
  ⟨⟨wrapper_add_address st w E n tmp ret, wrapper_sub_address st w E n tmp ret⟩,
    ⟨xl_add_address st x E n tmp ret, xl_sub_address st x E n tmp ret⟩,
    msk_add_address st m E n tmp ret, msk_sub_address st m E n tmp ret,
    offset_add_address st f E n tmp ret, offset_sub_address st f E n tmp ret⟩

theorem pointer_arithmetic_scaling_witness :
    syn_ptr.to_native example_registry (syn_ptr.add 4
        (⟨based_2d_msk_addressing_model.ctor 2 64⟩ : syn_ptr based_2d_msk_addressing_model)
        3 16 32) = 8268 ∧
      syn_ptr.to_native example_registry (syn_ptr.sub 4
        (⟨based_2d_msk_addressing_model.ctor 2 64⟩ : syn_ptr based_2d_msk_addressing_model)
        3 16 32) = 8244 ∧
      syn_ptr.to_native example_registry (syn_ptr.add 4
        (⟨⟨48, 8208⟩⟩ : syn_ptr offset_addressing_model) 3 16 32) = 8268 ∧
      syn_ptr.to_native example_registry (syn_ptr.sub 4
        (⟨⟨48, 8208⟩⟩ : syn_ptr offset_addressing_model) 3 16 32) = 8244 :=
  have h := pointer_arithmetic_scaling example_registry 4 3 16 32 ⟨8256⟩
    (based_2d_xl_addressing_model.ctor 2 64) (based_2d_msk_addressing_model.ctor 2 64)
    ⟨48, 8208⟩
  ⟨(h.2.2.1 (by decide)).trans (by decide), (h.2.2.2.1 (by decide)).trans (by decide),
    (h.2.2.2.2.1 (by decide) (by decide) (by decide) (by decide)).trans (by decide),
    (h.2.2.2.2.2 (by decide) (by decide) (by decide) (by decide)).trans (by decide)⟩

/-! ### Difference of two handles -/

/-- C6, the code at the failing input: in the example registry, with `sizeof(T) == 8`, the
`based_2d_msk` handle `h = (2, 64)` has address `8256` and `h + (-1)` has address `8248`, one
element below; `(h + (-1)) - h` evaluates to `2 ^ 61 - 1`, not to `-1`, because the quotient
`(p1 - p2) / sizeof(T)` is formed in `std::size_t`. -/
theorem handle_difference_below :
    syn_ptr.to_native example_registry
        (⟨based_2d_msk_addressing_model.ctor 2 64⟩ : syn_ptr based_2d_msk_addressing_model)
        = 8256 ∧
      syn_ptr.to_native example_registry (syn_ptr.add 8
        (⟨based_2d_msk_addressing_model.ctor 2 64⟩ : syn_ptr based_2d_msk_addressing_model)
        (-1) 0 0) = 8248 ∧
      syn_ptr.sub_ptr 8 example_registry
        (syn_ptr.add 8
          (⟨based_2d_msk_addressing_model.ctor 2 64⟩ : syn_ptr based_2d_msk_addressing_model)
          (-1) 0 0)
        (⟨based_2d_msk_addressing_model.ctor 2 64⟩ : syn_ptr based_2d_msk_addressing_model)
        = 2305843009213693951 := by
  decide

/-! ### Ordering of handles -/

theorem order_consistent_of {AM : Type} [addressing_model AM] (st : storage_model_base)
    (l1 l2 : Nat) (hs : List (syn_ptr AM))
    (hlt : ∀ a ∈ hs, ∀ b ∈ hs, syn_ptr.op_lt st l1 l2 a b
      = decide (syn_ptr.to_native st a < syn_ptr.to_native st b))
    (heq : ∀ a ∈ hs, ∀ b ∈ hs, syn_ptr.op_eq st l1 l2 a b
      = decide (syn_ptr.to_native st a = syn_ptr.to_native st b)) :
    order_consistent st l1 l2 hs := by
  refine ⟨?_, ?_, ?_, ?_, ?_⟩
  · intro a ha b hb
    rw [hlt a ha b hb, heq a ha b hb]
    simp
  · intro a ha
    rw [hlt a ha a ha]
    simp
  · intro a ha b hb c hc
    rw [hlt a ha b hb, hlt b hb c hc, hlt a ha c hc]
    simp only [decide_eq_true_eq]
    exact fun h1 h2 => Nat.lt_trans h1 h2
  · intro a ha b hb
    rw [hlt a ha b hb, hlt b hb a ha, heq a ha b hb]
    simp only [decide_eq_false_iff_not, decide_eq_true_eq]
    omega
  · exact List.map_mergeSort (fun a ha b hb => hlt a ha b hb)

theorem to_ptrdiff_t_emod (u : Nat) : to_ptrdiff_t u % 2 ^ 64 = (u : Int) % 2 ^ 64 := by
  unfold to_ptrdiff_t
  split_ifs <;> omega

theorem ptr_add_eq_ptr_add_diff (p n : Nat) : ptr_add p n = ptr_add_diff p (n : Int) := by
  unfold ptr_add ptr_add_diff to_size_t
  omega

theorem ptr_add_diff_in_range (lo hi p : Nat) (t : Int) (hhi : hi < 2 ^ 64)
    (h1 : (lo : Int) ≤ p + t) (h2 : (p : Int) + t ≤ hi) :
    ((ptr_add_diff p t : Nat) : Int) = p + t ∧ lo ≤ ptr_add_diff p t ∧ ptr_add_diff p t ≤ hi := by
  unfold ptr_add_diff to_size_t
  omega

theorem native_distance (E pa pb : Nat) (h1 : pb ≤ pa) (h3 : pa - pb < 2 ^ 63) :
    to_ptrdiff_t (to_size_t (ptr_diff pa pb) / E) = Int.tdiv ((pa : Int) - (pb : Int)) (E : Int) := by
  have e1 : ptr_diff pa pb = ((pa - pb : Nat) : Int) := by
    unfold ptr_diff wrap_ptrdiff to_ptrdiff_t to_size_t
    split_ifs <;> omega
  have e2 : to_size_t ((pa - pb : Nat) : Int) = pa - pb := by
    unfold to_size_t
    omega
  have e3 : ((pa : Int) - (pb : Int)) = ((pa - pb : Nat) : Int) := by omega
  rw [e1, e2, e3]
  have hq : (pa - pb) / E < 2 ^ 63 := lt_of_le_of_lt (Nat.div_le_self _ _) h3
  have e4 : to_ptrdiff_t ((pa - pb) / E) = (((pa - pb) / E : Nat) : Int) := by
    generalize (pa - pb) / E = q at hq
    unfold to_ptrdiff_t
    split_ifs <;> omega
  rw [e4, Int.tdiv_eq_ediv (Int.ofNat_nonneg _) (Int.ofNat_nonneg _)]
  exact Int.natCast_div _ _

theorem update_related {α β : Type} (R : α → β → Prop) (f : Nat → α) (g : Nat → β)
    (h : ∀ r, R (f r) (g r)) (d : Nat) (a : α) (b : β) (hab : R a b) :
    ∀ r, R (Function.update f d a r) (Function.update g d b r) := by
  intro r
  by_cases e : r = d
  · subst e
    simp only [Function.update_same]
    exact hab
  · simp only [Function.update_noteq e]
    exact h r

theorem compare_handles_eq_native {AM : Type} [addressing_model AM] (st : storage_model_base)
    (l1 l2 : Nat) (a b : syn_ptr AM) (pa pb : Nat)
    (ha : addressing_model.address st (syn_ptr.copy l1 a).m_addrmodel = pa)
    (hb : addressing_model.address st (syn_ptr.copy l2 b).m_addrmodel = pb)
    (hlt : ∀ (x : AM) (q : Nat),
      addressing_model.less_than_ptr st x q = decide (addressing_model.address st x < q))
    (hgt : ∀ (x : AM) (q : Nat),
      addressing_model.greater_than_ptr st x q = decide (addressing_model.address st x > q))
    (heq : ∀ (x y : AM), addressing_model.equals st x y
      = decide (addressing_model.address st x = addressing_model.address st y))
    (op : comparison) :
    compare_handles st l1 l2 op a b = compare_native op pa pb := by
  cases op <;>
    simp only [compare_handles, compare_native, syn_ptr.op_eq, syn_ptr.op_ne, syn_ptr.op_lt,
      syn_ptr.op_le, syn_ptr.op_gt, syn_ptr.op_ge, syn_ptr.equals, syn_ptr.less_than,
      syn_ptr.greater_than, syn_ptr.to_native, hlt, hgt, heq, ha, hb, gt_iff_lt, ge_iff_le,
      ← decide_not, Nat.not_lt]

/-- The run on handles leaves the memory of the run on native pointers, for every addressing
model whose handles keep designating the native pointer of the same variable (`good`) through
copies and through steps that stay in `[lo, hi]`. -/
theorem run_handles_eq_run_native {AM : Type} [addressing_model AM] (E : Nat)
    (st : storage_model_base) (lo hi : Nat) (loc : Nat → Nat) (tmp ret l1 l2 : Nat)
    (good : syn_ptr AM → Nat → Prop) (okL : Nat → Prop)
    (hspan : hi - lo < 2 ^ 63)
    (hloc : ∀ r, okL (loc r)) (htmp : okL tmp) (hret : okL ret) (hl1 : okL l1) (hl2 : okL l2)
    (hrange : ∀ h p, good h p → lo ≤ p ∧ p ≤ hi)
    (haddr : ∀ (mem : Nat → Nat) h p, good h p →
      addressing_model.address { st with memory := mem } h.m_addrmodel = p)
    (hcopy : ∀ L, okL L → ∀ h p, good h p → good (syn_ptr.copy L h) p)
    (hinc : ∀ h p (d t : Int), good h p → d % 2 ^ 64 = t % 2 ^ 64 →
      (lo : Int) ≤ p + t → (p : Int) + t ≤ hi →
      good ⟨addressing_model.increment h.m_addrmodel d⟩ (ptr_add_diff p t))
    (hdec : ∀ h p (d t : Int), good h p → d % 2 ^ 64 = t % 2 ^ 64 →
      (lo : Int) ≤ p - t → (p : Int) - t ≤ hi →
      good ⟨addressing_model.decrement h.m_addrmodel d⟩ (ptr_add_diff p (-t)))
    (hlt : ∀ (s : storage_model_base) (x : AM) (q : Nat),
      addressing_model.less_than_ptr s x q = decide (addressing_model.address s x < q))
    (hgt : ∀ (s : storage_model_base) (x : AM) (q : Nat),
      addressing_model.greater_than_ptr s x q = decide (addressing_model.address s x > q))
    (heq : ∀ (s : storage_model_base) (x y : AM), addressing_model.equals s x y
      = decide (addressing_model.address s x = addressing_model.address s y))
    (alg : iterator_algorithm) :
    ∀ (hregs : Nat → syn_ptr AM) (nregs : Nat → Nat) (mem : Nat → Nat),
      (∀ r, good (hregs r) (nregs r)) →
      (run_native E lo hi alg nregs mem).2 = true →
      run_handles E st loc tmp ret l1 l2 alg hregs mem = (run_native E lo hi alg nregs mem).1 := by
  have hplus : ∀ h p (n : Int), good h p → (lo : Int) ≤ p + n * E → (p : Int) + n * E ≤ hi →
      good (syn_ptr.add E h n tmp ret) (ptr_add_diff p (n * (E : Int))) := by
    intro h p n hg h1 h2
    exact hcopy ret hret _ _
      (hinc _ p _ _ (hcopy tmp htmp h p hg) (scaled_emod E n) h1 h2)
  have hminus : ∀ h p (n : Int), good h p → (lo : Int) ≤ p - n * E → (p : Int) - n * E ≤ hi →
      good (syn_ptr.sub E h n tmp ret) (ptr_add_diff p (-(n * (E : Int)))) := by
    intro h p n hg h1 h2
    exact hcopy ret hret _ _
      (hdec _ p _ _ (hcopy tmp htmp h p hg) (scaled_emod E n) h1 h2)
  have hpre_inc : ∀ h p, good h p → (lo : Int) ≤ p + E → (p : Int) + E ≤ hi →
      good (syn_ptr.pre_inc E h) (ptr_add p E) := by
    intro h p hg h1 h2
    rw [ptr_add_eq_ptr_add_diff]
    exact hinc h p _ _ hg (to_ptrdiff_t_emod E) h1 h2
  have hpre_dec : ∀ h p, good h p → (lo : Int) ≤ p - E → (p : Int) - E ≤ hi →
      good (syn_ptr.pre_dec E h) (ptr_add_diff p (-(E : Int))) := by
    intro h p hg h1 h2
    exact hdec h p _ _ hg (to_ptrdiff_t_emod E) h1 h2
  induction alg with
  | done =>
    intro hregs nregs mem _ _
    rfl
  | construct dst src k ih =>
    intro hregs nregs mem hg hok
    simp only [run_handles, run_native] at hok ⊢
    exact ih _ _ mem (update_related good _ _ hg dst _ _
      (hcopy _ (hloc dst) _ _ (hg src))) hok
  | plus dst src n k ih =>
    intro hregs nregs mem hg hok
    simp only [run_handles, run_native, in_range, Bool.and_eq_true, decide_eq_true_eq] at hok ⊢
    exact ih _ _ mem (update_related good _ _ hg dst _ _
      (hcopy _ (hloc dst) _ _ (hplus _ _ n (hg src) hok.1.1 hok.1.2))) hok.2
  | minus dst src n k ih =>
    intro hregs nregs mem hg hok
    simp only [run_handles, run_native, in_range, Bool.and_eq_true, decide_eq_true_eq] at hok ⊢
    exact ih _ _ mem (update_related good _ _ hg dst _ _
      (hcopy _ (hloc dst) _ _ (hminus _ _ n (hg src) hok.1.1 hok.1.2))) hok.2
  | pre_inc r k ih =>
    intro hregs nregs mem hg hok
    simp only [run_handles, run_native, in_range, Bool.and_eq_true, decide_eq_true_eq] at hok ⊢
    exact ih _ _ mem (update_related good _ _ hg r _ _
      (hpre_inc _ _ (hg r) hok.1.1 hok.1.2)) hok.2
  | pre_dec r k ih =>
    intro hregs nregs mem hg hok
    simp only [run_handles, run_native, in_range, Bool.and_eq_true, decide_eq_true_eq] at hok ⊢
    exact ih _ _ mem (update_related good _ _ hg r _ _
      (hpre_dec _ _ (hg r) hok.1.1 hok.1.2)) hok.2
  | post_inc dst r k ih =>
    intro hregs nregs mem hg hok
    simp only [run_handles, run_native, in_range, Bool.and_eq_true, decide_eq_true_eq,
      syn_ptr.post_inc] at hok ⊢
    exact ih _ _ mem (update_related good _ _
      (update_related good _ _ hg r _ _ (hpre_inc _ _ (hg r) hok.1.1 hok.1.2)) dst _ _
      (hcopy _ (hloc dst) _ _ (hcopy ret hret _ _ (hcopy tmp htmp _ _ (hg r))))) hok.2
  | post_dec dst r k ih =>
    intro hregs nregs mem hg hok
    simp only [run_handles, run_native, in_range, Bool.and_eq_true, decide_eq_true_eq,
      syn_ptr.post_dec] at hok ⊢
    exact ih _ _ mem (update_related good _ _
      (update_related good _ _ hg r _ _ (hpre_dec _ _ (hg r) hok.1.1 hok.1.2)) dst _ _
      (hcopy _ (hloc dst) _ _ (hcopy ret hret _ _ (hcopy tmp htmp _ _ (hg r))))) hok.2
  | plus_assign r n k ih =>
    intro hregs nregs mem hg hok
    simp only [run_handles, run_native, in_range, Bool.and_eq_true, decide_eq_true_eq] at hok ⊢
    exact ih _ _ mem (update_related good _ _ hg r _ _
      (hinc _ _ _ _ (hg r) (scaled_emod E n) hok.1.1 hok.1.2)) hok.2
  | minus_assign r n k ih =>
    intro hregs nregs mem hg hok
    simp only [run_handles, run_native, in_range, Bool.and_eq_true, decide_eq_true_eq] at hok ⊢
    exact ih _ _ mem (update_related good _ _ hg r _ _
      (hdec _ _ _ _ (hg r) (scaled_emod E n) hok.1.1 hok.1.2)) hok.2
  | distance a b k ih =>
    intro hregs nregs mem hg hok
    simp only [run_handles, run_native, Bool.and_eq_true, decide_eq_true_eq] at hok ⊢
    have ra := hrange _ _ (hg a)
    have rb := hrange _ _ (hg b)
    have e : syn_ptr.sub_ptr E { st with memory := mem } (hregs a) (hregs b)
        = Int.tdiv ((nregs a : Int) - (nregs b : Int)) (E : Int) := by
      simp only [syn_ptr.sub_ptr, haddr mem _ _ (hg a), haddr mem _ _ (hg b)]
      exact native_distance E _ _ hok.1 (by omega)
    rw [e]
    exact ih _ _ _ mem hg hok.2
  | compare op a b k ih =>
    intro hregs nregs mem hg hok
    simp only [run_handles, run_native] at hok ⊢
    rw [compare_handles_eq_native { st with memory := mem } l1 l2 (hregs a) (hregs b)
      (nregs a) (nregs b) (haddr mem _ _ (hcopy l1 hl1 _ _ (hg a)))
      (haddr mem _ _ (hcopy l2 hl2 _ _ (hg b))) (hlt _) (hgt _) (heq _) op]
    exact ih _ _ _ mem hg hok
  | read a k ih =>
    intro hregs nregs mem hg hok
    simp only [run_handles, run_native, syn_ptr.arrow, haddr mem _ _ (hg a)] at hok ⊢
    exact ih _ _ _ mem hg hok
  | read_at a n k ih =>
    intro hregs nregs mem hg hok
    simp only [run_handles, run_native, syn_ptr.index, haddr mem _ _ (hg a)] at hok ⊢
    exact ih _ _ _ mem hg hok
  | write a v k ih =>
    intro hregs nregs mem hg hok
    simp only [run_handles, run_native, syn_ptr.arrow, haddr mem _ _ (hg a)] at hok ⊢
    exact ih _ _ _ hg hok
  | write_at a n v k ih =>
    intro hregs nregs mem hg hok
    simp only [run_handles, run_native, syn_ptr.index, haddr mem _ _ (hg a)] at hok ⊢
    exact ih _ _ _ hg hok

theorem initial_variables_good {α : Type} (good : α → Nat → Prop) (f : Nat → α → α)
    (first last : α) (lo hi : Nat) (hf : ∀ r, good (f r first) lo) (hl : ∀ r, good (f r last) hi) :
    ∀ r, good (f r (if r = 1 then last else first)) (if r = 1 then hi else lo) := by
  intro r
  by_cases e : r = 1
  · simp only [e, if_true]
    exact hl 1
  · simp only [e, if_false]
    exact hf r

theorem sort_consistent_wrapper (E : Nat) (st : storage_model_base) (loc : Nat → Nat)
    (tmp ret l1 l2 : Nat) (first last : syn_ptr wrapper_addressing_model)
    (h1 : first.m_addrmodel.m_addr ≤ last.m_addrmodel.m_addr)
    (h2 : last.m_addrmodel.m_addr < 2 ^ 64)
    (h3 : last.m_addrmodel.m_addr - first.m_addrmodel.m_addr < 2 ^ 63) :
    sort_consistent E st loc tmp ret l1 l2 first last := by
  intro alg mem hok
  have hinc : ∀ (h : syn_ptr wrapper_addressing_model) (p : Nat) (d t : Int),
      (h.m_addrmodel.m_addr = p ∧ first.m_addrmodel.m_addr ≤ p ∧
        p ≤ last.m_addrmodel.m_addr) → d % 2 ^ 64 = t % 2 ^ 64 →
      (first.m_addrmodel.m_addr : Int) ≤ p + t → (p : Int) + t ≤ last.m_addrmodel.m_addr →
      ((⟨addressing_model.increment h.m_addrmodel d⟩ :
          syn_ptr wrapper_addressing_model).m_addrmodel.m_addr = ptr_add_diff p t ∧
        first.m_addrmodel.m_addr ≤ ptr_add_diff p t ∧
        ptr_add_diff p t ≤ last.m_addrmodel.m_addr) := by
    intro h p d t hg hd hlo hhi
    have hr := ptr_add_diff_in_range first.m_addrmodel.m_addr last.m_addrmodel.m_addr p t h2
      hlo hhi
    refine ⟨?_, hr.2⟩
    show ptr_add_diff h.m_addrmodel.m_addr d = ptr_add_diff p t
    rw [hg.1]
    unfold ptr_add_diff to_size_t
    omega
  have hdec : ∀ (h : syn_ptr wrapper_addressing_model) (p : Nat) (d t : Int),
      (h.m_addrmodel.m_addr = p ∧ first.m_addrmodel.m_addr ≤ p ∧
        p ≤ last.m_addrmodel.m_addr) → d % 2 ^ 64 = t % 2 ^ 64 →
      (first.m_addrmodel.m_addr : Int) ≤ p - t → (p : Int) - t ≤ last.m_addrmodel.m_addr →
      ((⟨addressing_model.decrement h.m_addrmodel d⟩ :
          syn_ptr wrapper_addressing_model).m_addrmodel.m_addr = ptr_add_diff p (-t) ∧
        first.m_addrmodel.m_addr ≤ ptr_add_diff p (-t) ∧
        ptr_add_diff p (-t) ≤ last.m_addrmodel.m_addr) := by
    intro h p d t hg hd hlo hhi
    have hr := ptr_add_diff_in_range first.m_addrmodel.m_addr last.m_addrmodel.m_addr p (-t) h2
      (by omega) (by omega)
    refine ⟨?_, hr.2⟩
    show ptr_add_diff h.m_addrmodel.m_addr (-d) = ptr_add_diff p (-t)
    rw [hg.1]
    unfold ptr_add_diff to_size_t
    omega
  exact run_handles_eq_run_native E st first.m_addrmodel.m_addr last.m_addrmodel.m_addr loc
    tmp ret l1 l2
    (fun (h : syn_ptr wrapper_addressing_model) (p : Nat) =>
      h.m_addrmodel.m_addr = p ∧ first.m_addrmodel.m_addr ≤ p ∧ p ≤ last.m_addrmodel.m_addr)
    (fun _ => True) h3 (fun _ => trivial) trivial trivial trivial trivial
    (fun h p hg => hg.2) (fun mem h p hg => hg.1) (fun L _ h p hg => hg) hinc hdec
    (fun _ _ _ => rfl) (fun _ _ _ => rfl) (fun _ _ _ => rfl) alg _ _ mem
    (initial_variables_good
      (fun (h : syn_ptr wrapper_addressing_model) (p : Nat) =>
        h.m_addrmodel.m_addr = p ∧ first.m_addrmodel.m_addr ≤ p ∧ p ≤ last.m_addrmodel.m_addr)
      (fun r h => syn_ptr.copy (loc r) h) first last first.m_addrmodel.m_addr
      last.m_addrmodel.m_addr
      (fun _ => ⟨rfl, Nat.le_refl _, h1⟩) (fun _ => ⟨rfl, h1, Nat.le_refl _⟩)) hok

theorem sort_consistent_xl (E : Nat) (st : storage_model_base) (loc : Nat → Nat)
    (tmp ret l1 l2 : Nat) (first last : syn_ptr based_2d_xl_addressing_model)
    (h1 : syn_ptr.to_native st first ≤ syn_ptr.to_native st last)
    (h3 : syn_ptr.to_native st last - syn_ptr.to_native st first < 2 ^ 63) :
    sort_consistent E st loc tmp ret l1 l2 first last := by
  have h2 : syn_ptr.to_native st last < 2 ^ 64 := Nat.mod_lt _ (by norm_num)
  intro alg mem hok
  have hinc : ∀ (h : syn_ptr based_2d_xl_addressing_model) (p : Nat) (d t : Int),
      (syn_ptr.to_native st h = p ∧ syn_ptr.to_native st first ≤ p ∧
        p ≤ syn_ptr.to_native st last) → d % 2 ^ 64 = t % 2 ^ 64 →
      (syn_ptr.to_native st first : Int) ≤ p + t → (p : Int) + t ≤ syn_ptr.to_native st last →
      (syn_ptr.to_native st (⟨addressing_model.increment h.m_addrmodel d⟩ :
          syn_ptr based_2d_xl_addressing_model) = ptr_add_diff p t ∧
        syn_ptr.to_native st first ≤ ptr_add_diff p t ∧
        ptr_add_diff p t ≤ syn_ptr.to_native st last) := by
    intro h p d t hg hd hlo hhi
    have hr := ptr_add_diff_in_range (syn_ptr.to_native st first) (syn_ptr.to_native st last)
      p t h2 hlo hhi
    refine ⟨?_, hr.2⟩
    have e := hg.1
    show ptr_add (st.segment_address h.m_addrmodel.m_segment)
      (to_size_t ((h.m_addrmodel.m_offset : Int) + d)) = ptr_add_diff p t
    rw [← e]
    show _ = ptr_add_diff (ptr_add (st.segment_address h.m_addrmodel.m_segment)
      h.m_addrmodel.m_offset) t
    unfold ptr_add_diff ptr_add to_size_t
    omega
  have hdec : ∀ (h : syn_ptr based_2d_xl_addressing_model) (p : Nat) (d t : Int),
      (syn_ptr.to_native st h = p ∧ syn_ptr.to_native st first ≤ p ∧
        p ≤ syn_ptr.to_native st last) → d % 2 ^ 64 = t % 2 ^ 64 →
      (syn_ptr.to_native st first : Int) ≤ p - t → (p : Int) - t ≤ syn_ptr.to_native st last →
      (syn_ptr.to_native st (⟨addressing_model.decrement h.m_addrmodel d⟩ :
          syn_ptr based_2d_xl_addressing_model) = ptr_add_diff p (-t) ∧
        syn_ptr.to_native st first ≤ ptr_add_diff p (-t) ∧
        ptr_add_diff p (-t) ≤ syn_ptr.to_native st last) := by
    intro h p d t hg hd hlo hhi
    have hr := ptr_add_diff_in_range (syn_ptr.to_native st first) (syn_ptr.to_native st last)
      p (-t) h2 (by omega) (by omega)
    refine ⟨?_, hr.2⟩
    have e := hg.1
    show ptr_add (st.segment_address h.m_addrmodel.m_segment)
      (to_size_t ((h.m_addrmodel.m_offset : Int) - d)) = ptr_add_diff p (-t)
    rw [← e]
    show _ = ptr_add_diff (ptr_add (st.segment_address h.m_addrmodel.m_segment)
      h.m_addrmodel.m_offset) (-t)
    unfold ptr_add_diff ptr_add to_size_t
    omega
  exact run_handles_eq_run_native E st (syn_ptr.to_native st first)
    (syn_ptr.to_native st last) loc tmp ret l1 l2
    (fun (h : syn_ptr based_2d_xl_addressing_model) (p : Nat) =>
      syn_ptr.to_native st h = p ∧ syn_ptr.to_native st first ≤ p ∧
        p ≤ syn_ptr.to_native st last)
    (fun _ => True) h3 (fun _ => trivial) trivial trivial trivial trivial
    (fun h p hg => hg.2) (fun mem h p hg => hg.1) (fun L _ h p hg => hg) hinc hdec
    (fun _ _ _ => rfl) (fun _ _ _ => rfl) (fun _ _ _ => rfl) alg _ _ mem
    (initial_variables_good
      (fun (h : syn_ptr based_2d_xl_addressing_model) (p : Nat) =>
        syn_ptr.to_native st h = p ∧ syn_ptr.to_native st first ≤ p ∧
          p ≤ syn_ptr.to_native st last)
      (fun r h => syn_ptr.copy (loc r) h) first last (syn_ptr.to_native st first)
      (syn_ptr.to_native st last)
      (fun _ => ⟨rfl, Nat.le_refl _, h1⟩) (fun _ => ⟨rfl, h1, Nat.le_refl _⟩)) hok

theorem offset_increment_not_null (f : offset_addressing_model) (d t : Int)
    (hd : d % 2 ^ 64 = t % 2 ^ 64) (hn : f.m_offset ≠ offset_addressing_model.null_offset)
    (h : ptr_add_diff f.address t ≠ offset_addressing_model.reserved f.self) :
    (f.increment d).m_offset ≠ offset_addressing_model.null_offset := by
  have h1 := wrap_ptrdiff_spec (f.m_offset + d)
  simp only [offset_addressing_model.address, offset_addressing_model.increment,
    offset_addressing_model.reserved, offset_addressing_model.null_offset, ptr_add_diff,
    to_size_t] at h hn ⊢
  rw [if_neg hn] at h
  intro hc
  rw [hc] at h1
  omega

theorem sort_consistent_msk (E : Nat) (st : storage_model_base) (loc : Nat → Nat)
    (tmp ret l1 l2 : Nat) (first last : syn_ptr based_2d_msk_addressing_model)
    (hw1 : first.m_addrmodel.m_addr < 2 ^ 64) (hw2 : last.m_addrmodel.m_addr < 2 ^ 64)
    (hseg : first.m_addrmodel.segment = last.m_addrmodel.segment)
    (hoff : first.m_addrmodel.offset ≤ last.m_addrmodel.offset)
    (hsp : st.segment_address first.m_addrmodel.segment + last.m_addrmodel.offset < 2 ^ 64) :
    sort_consistent E st loc tmp ret l1 l2 first last := by
  simp only [based_2d_msk_addressing_model.segment, based_2d_msk_addressing_model.m_segment,
    based_2d_msk_addressing_model.offset, and_offset_mask] at hseg hoff hsp
  have elo : syn_ptr.to_native st first
      = st.segment_address (first.m_addrmodel.m_addr / 2 ^ 48 % 2 ^ 16)
        + first.m_addrmodel.m_addr % 2 ^ 48 := by
    show ptr_add (st.segment_address (first.m_addrmodel.m_addr / 2 ^ 48 % 2 ^ 16)) (_ &&& _) = _
    rw [and_offset_mask]
    exact Nat.mod_eq_of_lt (by omega)
  have ehi : syn_ptr.to_native st last
      = st.segment_address (first.m_addrmodel.m_addr / 2 ^ 48 % 2 ^ 16)
        + last.m_addrmodel.m_addr % 2 ^ 48 := by
    show ptr_add (st.segment_address (last.m_addrmodel.m_addr / 2 ^ 48 % 2 ^ 16)) (_ &&& _) = _
    rw [and_offset_mask, ← hseg]
    exact Nat.mod_eq_of_lt (by omega)
  intro alg mem hok
  generalize syn_ptr.to_native st first = lo at elo hok ⊢
  generalize syn_ptr.to_native st last = hi at ehi hok ⊢
  generalize hbase : st.segment_address (first.m_addrmodel.m_addr / 2 ^ 48 % 2 ^ 16) = base
    at elo ehi hsp
  generalize hsg : first.m_addrmodel.m_addr / 2 ^ 48 % 2 ^ 16 = seg at hbase hseg
  have hsegl : seg < 2 ^ 16 := by omega
  have haddr : ∀ (mem : Nat → Nat) (h : syn_ptr based_2d_msk_addressing_model) (p : Nat),
      (h.m_addrmodel.m_addr = seg * 2 ^ 48 + (p - base) ∧ lo ≤ p ∧ p ≤ hi) →
      addressing_model.address { st with memory := mem } h.m_addrmodel = p := by
    intro mem h p hg
    show ptr_add (st.segment_address (h.m_addrmodel.m_addr / 2 ^ 48 % 2 ^ 16))
      (h.m_addrmodel.m_addr &&& based_2d_msk_addressing_model.offset_mask) = p
    have e1 : h.m_addrmodel.m_addr / 2 ^ 48 % 2 ^ 16 = seg := by omega
    have e2 : h.m_addrmodel.m_addr % 2 ^ 48 = p - base := by omega
    rw [and_offset_mask, e1, e2, hbase]
    unfold ptr_add
    omega
  have hinc : ∀ (h : syn_ptr based_2d_msk_addressing_model) (p : Nat) (d t : Int),
      (h.m_addrmodel.m_addr = seg * 2 ^ 48 + (p - base) ∧ lo ≤ p ∧ p ≤ hi) →
      d % 2 ^ 64 = t % 2 ^ 64 → (lo : Int) ≤ p + t → (p : Int) + t ≤ hi →
      ((⟨addressing_model.increment h.m_addrmodel d⟩ :
          syn_ptr based_2d_msk_addressing_model).m_addrmodel.m_addr
          = seg * 2 ^ 48 + (ptr_add_diff p t - base) ∧
        lo ≤ ptr_add_diff p t ∧ ptr_add_diff p t ≤ hi) := by
    intro h p d t hg hd hlo hhi
    have hr := ptr_add_diff_in_range lo hi p t (by omega) hlo hhi
    refine ⟨?_, hr.2⟩
    show to_size_t ((h.m_addrmodel.m_addr : Int) + d) = _
    rw [hg.1]
    unfold to_size_t
    omega
  have hdec : ∀ (h : syn_ptr based_2d_msk_addressing_model) (p : Nat) (d t : Int),
      (h.m_addrmodel.m_addr = seg * 2 ^ 48 + (p - base) ∧ lo ≤ p ∧ p ≤ hi) →
      d % 2 ^ 64 = t % 2 ^ 64 → (lo : Int) ≤ p - t → (p : Int) - t ≤ hi →
      ((⟨addressing_model.decrement h.m_addrmodel d⟩ :
          syn_ptr based_2d_msk_addressing_model).m_addrmodel.m_addr
          = seg * 2 ^ 48 + (ptr_add_diff p (-t) - base) ∧
        lo ≤ ptr_add_diff p (-t) ∧ ptr_add_diff p (-t) ≤ hi) := by
    intro h p d t hg hd hlo hhi
    have hr := ptr_add_diff_in_range lo hi p (-t) (by omega) (by omega) (by omega)
    refine ⟨?_, hr.2⟩
    show to_size_t ((h.m_addrmodel.m_addr : Int) - d) = _
    rw [hg.1]
    unfold to_size_t
    omega
  exact run_handles_eq_run_native E st lo hi loc tmp ret l1 l2
    (fun (h : syn_ptr based_2d_msk_addressing_model) (p : Nat) =>
      h.m_addrmodel.m_addr = seg * 2 ^ 48 + (p - base) ∧ lo ≤ p ∧ p ≤ hi)
    (fun _ => True) (by omega) (fun _ => trivial) trivial trivial trivial trivial
    (fun h p hg => hg.2) haddr (fun L _ h p hg => hg) hinc hdec
    (fun _ _ _ => rfl) (fun _ _ _ => rfl) (fun _ _ _ => rfl) alg _ _ mem
    (initial_variables_good
      (fun (h : syn_ptr based_2d_msk_addressing_model) (p : Nat) =>
        h.m_addrmodel.m_addr = seg * 2 ^ 48 + (p - base) ∧ lo ≤ p ∧ p ≤ hi)
      (fun r h => syn_ptr.copy (loc r) h) first last lo hi
      (fun _ => ⟨by show first.m_addrmodel.m_addr = _; omega, Nat.le_refl _, by omega⟩)
      (fun _ => ⟨by show last.m_addrmodel.m_addr = _; omega, by omega, Nat.le_refl _⟩)) hok

theorem offset_address_lt (f : offset_addressing_model) : f.address < 2 ^ 64 := by
  unfold offset_addressing_model.address
  split_ifs
  · norm_num
  · exact Nat.mod_lt _ (by norm_num)

theorem sort_consistent_offset (E : Nat) (st : storage_model_base) (loc : Nat → Nat)
    (tmp ret l1 l2 : Nat) (first last : syn_ptr offset_addressing_model)
    (hn1 : first.m_addrmodel.m_offset ≠ offset_addressing_model.null_offset)
    (hn2 : last.m_addrmodel.m_offset ≠ offset_addressing_model.null_offset)
    (h1 : first.m_addrmodel.address ≤ last.m_addrmodel.address)
    (h3 : last.m_addrmodel.address - first.m_addrmodel.address < 2 ^ 63)
    (hL : ∀ L, (L = tmp ∨ L = ret ∨ L = l1 ∨ L = l2 ∨ ∃ r, L = loc r) →
      offset_addressing_model.reserved L < first.m_addrmodel.address ∨
        last.m_addrmodel.address < offset_addressing_model.reserved L) :
    sort_consistent E st loc tmp ret l1 l2 first last := by
  have h2 := offset_address_lt last.m_addrmodel
  intro alg mem hok
  have hcopy : ∀ L, (offset_addressing_model.reserved L < first.m_addrmodel.address ∨
        last.m_addrmodel.address < offset_addressing_model.reserved L) →
      ∀ (h : syn_ptr offset_addressing_model) (p : Nat),
      (h.m_addrmodel.address = p ∧
        h.m_addrmodel.m_offset ≠ offset_addressing_model.null_offset ∧
        (offset_addressing_model.reserved h.m_addrmodel.self < first.m_addrmodel.address ∨
          last.m_addrmodel.address < offset_addressing_model.reserved h.m_addrmodel.self) ∧
        first.m_addrmodel.address ≤ p ∧ p ≤ last.m_addrmodel.address) →
      ((syn_ptr.copy L h).m_addrmodel.address = p ∧
        (syn_ptr.copy L h).m_addrmodel.m_offset ≠ offset_addressing_model.null_offset ∧
        (offset_addressing_model.reserved (syn_ptr.copy L h).m_addrmodel.self
            < first.m_addrmodel.address ∨
          last.m_addrmodel.address
            < offset_addressing_model.reserved (syn_ptr.copy L h).m_addrmodel.self) ∧
        first.m_addrmodel.address ≤ p ∧ p ≤ last.m_addrmodel.address) := by
    intro L hok h p hg
    have hne : h.m_addrmodel.address ≠ offset_addressing_model.reserved L := by
      rw [hg.1]
      omega
    refine ⟨?_, ?_, hok, hg.2.2.2⟩
    · show (offset_addressing_model.copy_ctor L h.m_addrmodel).address = p
      rw [offset_copy_ctor_address L _ hne]
      exact hg.1
    · show (offset_addressing_model.copy_ctor L h.m_addrmodel).m_offset ≠ _
      exact fun hc => hg.2.1 ((offset_copy_ctor_null_iff L _ hne).mp hc)
  have hinc : ∀ (h : syn_ptr offset_addressing_model) (p : Nat) (d t : Int),
      (h.m_addrmodel.address = p ∧
        h.m_addrmodel.m_offset ≠ offset_addressing_model.null_offset ∧
        (offset_addressing_model.reserved h.m_addrmodel.self < first.m_addrmodel.address ∨
          last.m_addrmodel.address < offset_addressing_model.reserved h.m_addrmodel.self) ∧
        first.m_addrmodel.address ≤ p ∧ p ≤ last.m_addrmodel.address) →
      d % 2 ^ 64 = t % 2 ^ 64 → (first.m_addrmodel.address : Int) ≤ p + t →
      (p : Int) + t ≤ last.m_addrmodel.address →
      ((h.m_addrmodel.increment d).address = ptr_add_diff p t ∧
        (h.m_addrmodel.increment d).m_offset ≠ offset_addressing_model.null_offset ∧
        (offset_addressing_model.reserved (h.m_addrmodel.increment d).self
            < first.m_addrmodel.address ∨
          last.m_addrmodel.address
            < offset_addressing_model.reserved (h.m_addrmodel.increment d).self) ∧
        first.m_addrmodel.address ≤ ptr_add_diff p t ∧
        ptr_add_diff p t ≤ last.m_addrmodel.address) := by
    intro h p d t hg hd hlo hhi
    have hr := ptr_add_diff_in_range first.m_addrmodel.address last.m_addrmodel.address p t h2
      hlo hhi
    have hself : (h.m_addrmodel.increment d).self = h.m_addrmodel.self := rfl
    have hne : ptr_add_diff h.m_addrmodel.address t
        ≠ offset_addressing_model.reserved h.m_addrmodel.self := by
      rw [hg.1]
      have := hg.2.2.1
      omega
    refine ⟨?_, offset_increment_not_null _ d t hd hg.2.1 hne, ?_, hr.2⟩
    · rw [offset_increment_address _ d t hd hg.2.1 hne, hg.1]
    · rw [hself]
      exact hg.2.2.1
  have hdec : ∀ (h : syn_ptr offset_addressing_model) (p : Nat) (d t : Int),
      (h.m_addrmodel.address = p ∧
        h.m_addrmodel.m_offset ≠ offset_addressing_model.null_offset ∧
        (offset_addressing_model.reserved h.m_addrmodel.self < first.m_addrmodel.address ∨
          last.m_addrmodel.address < offset_addressing_model.reserved h.m_addrmodel.self) ∧
        first.m_addrmodel.address ≤ p ∧ p ≤ last.m_addrmodel.address) →
      d % 2 ^ 64 = t % 2 ^ 64 → (first.m_addrmodel.address : Int) ≤ p - t →
      (p : Int) - t ≤ last.m_addrmodel.address →
      ((h.m_addrmodel.decrement d).address = ptr_add_diff p (-t) ∧
        (h.m_addrmodel.decrement d).m_offset ≠ offset_addressing_model.null_offset ∧
        (offset_addressing_model.reserved (h.m_addrmodel.decrement d).self
            < first.m_addrmodel.address ∨
          last.m_addrmodel.address
            < offset_addressing_model.reserved (h.m_addrmodel.decrement d).self) ∧
        first.m_addrmodel.address ≤ ptr_add_diff p (-t) ∧
        ptr_add_diff p (-t) ≤ last.m_addrmodel.address) := by
    intro h p d t hg hd hlo hhi
    have e : h.m_addrmodel.decrement d = h.m_addrmodel.increment (-d) := by
      simp only [offset_addressing_model.decrement, offset_addressing_model.increment,
        sub_eq_add_neg]
    rw [e]
    exact hinc h p (-d) (-t) hg (by omega) (by omega) (by omega)
  exact run_handles_eq_run_native E st first.m_addrmodel.address last.m_addrmodel.address loc
    tmp ret l1 l2
    (fun (h : syn_ptr offset_addressing_model) (p : Nat) =>
      h.m_addrmodel.address = p ∧
        h.m_addrmodel.m_offset ≠ offset_addressing_model.null_offset ∧
        (offset_addressing_model.reserved h.m_addrmodel.self < first.m_addrmodel.address ∨
          last.m_addrmodel.address < offset_addressing_model.reserved h.m_addrmodel.self) ∧
        first.m_addrmodel.address ≤ p ∧ p ≤ last.m_addrmodel.address)
    (fun L => offset_addressing_model.reserved L < first.m_addrmodel.address ∨
      last.m_addrmodel.address < offset_addressing_model.reserved L)
    h3 (fun r => hL _ (Or.inr (Or.inr (Or.inr (Or.inr ⟨r, rfl⟩)))))
    (hL _ (Or.inl rfl)) (hL _ (Or.inr (Or.inl rfl))) (hL _ (Or.inr (Or.inr (Or.inl rfl))))
    (hL _ (Or.inr (Or.inr (Or.inr (Or.inl rfl)))))
    (fun h p hg => hg.2.2.2) (fun mem h p hg => hg.1) hcopy hinc hdec
    (fun _ _ _ => rfl) (fun _ _ _ => rfl) (fun _ _ _ => rfl) alg _ _ mem
    (initial_variables_good
      (fun (h : syn_ptr offset_addressing_model) (p : Nat) =>
        h.m_addrmodel.address = p ∧
          h.m_addrmodel.m_offset ≠ offset_addressing_model.null_offset ∧
          (offset_addressing_model.reserved h.m_addrmodel.self < first.m_addrmodel.address ∨
            last.m_addrmodel.address < offset_addressing_model.reserved h.m_addrmodel.self) ∧
          first.m_addrmodel.address ≤ p ∧ p ≤ last.m_addrmodel.address)
      (fun r h => syn_ptr.copy (loc r) h) first last first.m_addrmodel.address
      last.m_addrmodel.address
      (fun r => by
        have hr := hL (loc r) (Or.inr (Or.inr (Or.inr (Or.inr ⟨r, rfl⟩))))
        have hne : first.m_addrmodel.address ≠ offset_addressing_model.reserved (loc r) := by
          omega
        exact ⟨offset_copy_ctor_address (loc r) _ hne,
          fun hc => hn1 ((offset_copy_ctor_null_iff (loc r) _ hne).mp hc), hr,
          Nat.le_refl _, h1⟩)
      (fun r => by
        have hr := hL (loc r) (Or.inr (Or.inr (Or.inr (Or.inr ⟨r, rfl⟩))))
        have hne : last.m_addrmodel.address ≠ offset_addressing_model.reserved (loc r) := by
          omega
        exact ⟨offset_copy_ctor_address (loc r) _ hne,
          fun hc => hn2 ((offset_copy_ctor_null_iff (loc r) _ hne).mp hc), hr,
          h1, Nat.le_refl _⟩)) hok

/-- C7. Order consistency: in each of the four addressing models, `h1 < h2` holds iff
`h1.address() < h2.address()` and `h1 == h2` iff the addresses are equal; `operator <` is
irreflexive and transitive, and two handles are unordered exactly when they are equal; so a
comparison sort on handles arranges them as the same sort on their native pointers. And an
algorithm over random access iterators, such as the `std::sort` of `do_pointer_sort_test`, that
is run on the handles `first` and `last` of a range of elements of size `E` leaves the memory
that it leaves when it is run on the native pointers `first.address()` and `last.address()`,
whenever the run on the native pointers keeps to the array: it forms no pointer outside
`[first, last]`, and it subtracts a pointer only from one that is not below it, as in
`last - first`. The range lies in one segment for `based_2d_msk` handles and spans less than
`2 ^ 63` bytes. For the offset model the handles designate addresses of an arena and the
variables, temporaries and by-value parameters of the operators are stored outside of it, at
`loc r`, `tmp`, `ret`, `l1` and `l2`: no handle designates the address that such an object
reserves for null. -/
theorem handle_order_consistent (st : storage_model_base) (l1 l2 : Nat)
    (ws : List (syn_ptr wrapper_addressing_model))
    (ms : List (syn_ptr based_2d_msk_addressing_model))
    (xs : List (syn_ptr based_2d_xl_addressing_model))
    (fs : List (syn_ptr offset_addressing_model))
    (E : Nat) (loc : Nat → Nat) (tmp ret : Nat)
    (wfirst wlast : syn_ptr wrapper_addressing_model)
    (mfirst mlast : syn_ptr based_2d_msk_addressing_model)
    (xfirst xlast : syn_ptr based_2d_xl_addressing_model)
    (ffirst flast : syn_ptr offset_addressing_model)
    (hfs : ∀ f ∈ fs, f.m_addrmodel.address ≠ offset_addressing_model.reserved l1 ∧
      f.m_addrmodel.address ≠ offset_addressing_model.reserved l2)
    (hw : wfirst.m_addrmodel.m_addr ≤ wlast.m_addrmodel.m_addr ∧
      wlast.m_addrmodel.m_addr < 2 ^ 64 ∧
      wlast.m_addrmodel.m_addr - wfirst.m_addrmodel.m_addr < 2 ^ 63)
    (hm : mfirst.m_addrmodel.m_addr < 2 ^ 64 ∧ mlast.m_addrmodel.m_addr < 2 ^ 64 ∧
      mfirst.m_addrmodel.segment = mlast.m_addrmodel.segment ∧
      mfirst.m_addrmodel.offset ≤ mlast.m_addrmodel.offset ∧
      st.segment_address mfirst.m_addrmodel.segment + mlast.m_addrmodel.offset < 2 ^ 64)
    (hx : syn_ptr.to_native st xfirst ≤ syn_ptr.to_native st xlast ∧
      syn_ptr.to_native st xlast - syn_ptr.to_native st xfirst < 2 ^ 63)
    (hf : ffirst.m_addrmodel.m_offset ≠ offset_addressing_model.null_offset ∧
      flast.m_addrmodel.m_offset ≠ offset_addressing_model.null_offset ∧
      ffirst.m_addrmodel.address ≤ flast.m_addrmodel.address ∧
      flast.m_addrmodel.address - ffirst.m_addrmodel.address < 2 ^ 63 ∧
      ∀ L, (L = tmp ∨ L = ret ∨ L = l1 ∨ L = l2 ∨ ∃ r, L = loc r) →
        offset_addressing_model.reserved L < ffirst.m_addrmodel.address ∨
          flast.m_addrmodel.address < offset_addressing_model.reserved L) :
    (order_consistent st l1 l2 ws ∧ sort_consistent E st loc tmp ret l1 l2 wfirst wlast) ∧
      (order_consistent st l1 l2 ms ∧ sort_consistent E st loc tmp ret l1 l2 mfirst mlast) ∧
      (order_consistent st l1 l2 xs ∧ sort_consistent E st loc tmp ret l1 l2 xfirst xlast) ∧
      (order_consistent st l1 l2 fs ∧ sort_consistent E st loc tmp ret l1 l2 ffirst flast) := by
  refine ⟨⟨?_, ?_⟩, ⟨?_, ?_⟩, ⟨?_, ?_⟩, ⟨?_, ?_⟩⟩
  · exact order_consistent_of st l1 l2 ws (fun _ _ _ _ => rfl) (fun _ _ _ _ => rfl)
  · exact sort_consistent_wrapper E st loc tmp ret l1 l2 wfirst wlast hw.1 hw.2.1 hw.2.2
  · exact order_consistent_of st l1 l2 ms (fun _ _ _ _ => rfl) (fun _ _ _ _ => rfl)
  · exact sort_consistent_msk E st loc tmp ret l1 l2 mfirst mlast hm.1 hm.2.1 hm.2.2.1
      hm.2.2.2.1 hm.2.2.2.2
  · exact order_consistent_of st l1 l2 xs (fun _ _ _ _ => rfl) (fun _ _ _ _ => rfl)
  · exact sort_consistent_xl E st loc tmp ret l1 l2 xfirst xlast hx.1 hx.2
  · apply order_consistent_of st l1 l2 fs
    · intro a ha b hb
      show decide ((offset_addressing_model.copy_ctor l1 a.m_addrmodel).address
        < (offset_addressing_model.copy_ctor l2 b.m_addrmodel).address) = _
      rw [offset_copy_ctor_address l1 _ (hfs a ha).1, offset_copy_ctor_address l2 _ (hfs b hb).2]
      rfl
    · intro a ha b hb
      show ((offset_addressing_model.copy_ctor l1 a.m_addrmodel).address
        == (offset_addressing_model.copy_ctor l2 b.m_addrmodel).address) = _
      rw [offset_copy_ctor_address l1 _ (hfs a ha).1, offset_copy_ctor_address l2 _ (hfs b hb).2]
      rfl
  · exact sort_consistent_offset E st loc tmp ret l1 l2 ffirst flast hf.1 hf.2.1 hf.2.2.1
      hf.2.2.2.1 hf.2.2.2.2

theorem handle_order_consistent_witness :
    order_consistent example_registry 16 32
        [(⟨based_2d_msk_addressing_model.ctor 2 68⟩ : syn_ptr based_2d_msk_addressing_model),
          ⟨based_2d_msk_addressing_model.ctor 2 64⟩] ∧
      order_consistent example_registry 16 32
        [(⟨⟨8192, 68⟩⟩ : syn_ptr offset_addressing_model), ⟨⟨8200, 56⟩⟩] ∧
      (run_native 4 8256 8268 (insertion_sort (fun x y => decide (x.headD 0 < y.headD 0)))
        (fun r => if r = 1 then 8268 else 8256)
        (store_bytes (fun _ => 0) 8256 [9, 0, 0, 0, 3, 0, 0, 0, 7, 0, 0, 0])).2 = true ∧
      load_bytes (run_native 4 8256 8268
        (insertion_sort (fun x y => decide (x.headD 0 < y.headD 0)))
        (fun r => if r = 1 then 8268 else 8256)
        (store_bytes (fun _ => 0) 8256 [9, 0, 0, 0, 3, 0, 0, 0, 7, 0, 0, 0])).1 8256 12
        = [3, 0, 0, 0, 7, 0, 0, 0, 9, 0, 0, 0] ∧
      run_handles 4 example_registry (fun r => 100000 + 16 * (r % 1024)) 200 216 16 32
          (insertion_sort (fun x y => decide (x.headD 0 < y.headD 0)))
          (fun r => syn_ptr.copy (100000 + 16 * (r % 1024))
            (if r = 1 then (⟨based_2d_msk_addressing_model.ctor 2 76⟩ :
              syn_ptr based_2d_msk_addressing_model)
            else ⟨based_2d_msk_addressing_model.ctor 2 64⟩))
          (store_bytes (fun _ => 0) 8256 [9, 0, 0, 0, 3, 0, 0, 0, 7, 0, 0, 0])
        = (run_native 4 8256 8268 (insertion_sort (fun x y => decide (x.headD 0 < y.headD 0)))
            (fun r => if r = 1 then 8268 else 8256)
            (store_bytes (fun _ => 0) 8256 [9, 0, 0, 0, 3, 0, 0, 0, 7, 0, 0, 0])).1 ∧
      run_handles 4 example_registry (fun r => 100000 + 16 * (r % 1024)) 200 216 16 32
          (insertion_sort (fun x y => decide (x.headD 0 < y.headD 0)))
          (fun r => syn_ptr.copy (100000 + 16 * (r % 1024))
            (if r = 1 then (⟨⟨64, 8204⟩⟩ : syn_ptr offset_addressing_model)
            else ⟨⟨48, 8208⟩⟩))
          (store_bytes (fun _ => 0) 8256 [9, 0, 0, 0, 3, 0, 0, 0, 7, 0, 0, 0])
        = (run_native 4 8256 8268 (insertion_sort (fun x y => decide (x.headD 0 < y.headD 0)))
            (fun r => if r = 1 then 8268 else 8256)
            (store_bytes (fun _ => 0) 8256 [9, 0, 0, 0, 3, 0, 0, 0, 7, 0, 0, 0])).1 :=
  have h := handle_order_consistent example_registry 16 32
    [(⟨⟨8260⟩⟩ : syn_ptr wrapper_addressing_model), ⟨⟨8256⟩⟩]
    [(⟨based_2d_msk_addressing_model.ctor 2 68⟩ : syn_ptr based_2d_msk_addressing_model),
      ⟨based_2d_msk_addressing_model.ctor 2 64⟩]
    [(⟨based_2d_xl_addressing_model.ctor 2 68⟩ : syn_ptr based_2d_xl_addressing_model),
      ⟨based_2d_xl_addressing_model.ctor 2 64⟩]
    [(⟨⟨8192, 68⟩⟩ : syn_ptr offset_addressing_model), ⟨⟨8200, 56⟩⟩]
    4 (fun r => 100000 + 16 * (r % 1024)) 200 216
    ⟨⟨8256⟩⟩ ⟨⟨8268⟩⟩
    ⟨based_2d_msk_addressing_model.ctor 2 64⟩ ⟨based_2d_msk_addressing_model.ctor 2 76⟩
    ⟨based_2d_xl_addressing_model.ctor 2 64⟩ ⟨based_2d_xl_addressing_model.ctor 2 76⟩
    ⟨⟨48, 8208⟩⟩ ⟨⟨64, 8204⟩⟩
    (by decide) (by decide) (by decide) (by decide)
    ⟨by decide, by decide, by decide, by decide, fun L hL => by
      have e : (⟨⟨64, 8204⟩⟩ : syn_ptr offset_addressing_model).m_addrmodel.address = 8268 := by
        decide
      rw [e]
      rcases hL with e | e | e | e | ⟨r, e⟩
      · subst e; exact Or.inl (by decide)
      · subst e; exact Or.inl (by decide)
      · subst e; exact Or.inl (by decide)
      · subst e; exact Or.inl (by decide)
      · subst e
        refine Or.inr ?_
        simp only [offset_addressing_model.reserved, offset_addressing_model.null_offset,
          to_size_t]
        omega⟩
  ⟨h.2.1.1, h.2.2.2.1, by decide, by decide,
    h.2.1.2 (insertion_sort (fun x y => decide (x.headD 0 < y.headD 0)))
      (store_bytes (fun _ => 0) 8256 [9, 0, 0, 0, 3, 0, 0, 0, 7, 0, 0, 0]) (by decide),
    h.2.2.2.2 (insertion_sort (fun x y => decide (x.headD 0 < y.headD 0)))
      (store_bytes (fun _ => 0) 8256 [9, 0, 0, 0, 3, 0, 0, 0, 7, 0, 0, 0]) (by decide)⟩

/-! ### The bump allocator -/

theorem allocate_handle {AM : Type} [addressing_model AM] (st : storage_model_base)
    (fresh : Nat → Nat × Nat) (s : monotonic_allocation_strategy) (n tmp ret : Nat) :
    (monotonic_allocation_strategy.allocate st fresh s n tmp ret).2.2
      = (syn_ptr.of_model ret (addressing_model.segment_pointer
          (monotonic_allocation_strategy.allocate_chunk st fresh s n).1 tmp
          (monotonic_allocation_strategy.allocate_chunk st fresh s n).2.2.1
          (monotonic_allocation_strategy.allocate_chunk st fresh s n).2.2.2) : syn_ptr AM) := rfl

theorem of_model_msk (this : Nat) (x : based_2d_msk_addressing_model) :
    syn_ptr.of_model this x = ⟨x⟩ := rfl

theorem of_model_xl (this : Nat) (x : based_2d_xl_addressing_model) :
    syn_ptr.of_model this x = ⟨x⟩ := rfl

theorem segment_pointer_msk (st : storage_model_base) (this segment offset : Nat) :
    (addressing_model.segment_pointer st this segment offset : based_2d_msk_addressing_model)
      = based_2d_msk_addressing_model.ctor segment offset := rfl

theorem segment_pointer_xl (st : storage_model_base) (this segment offset : Nat) :
    (addressing_model.segment_pointer st this segment offset : based_2d_xl_addressing_model)
      = based_2d_xl_addressing_model.ctor segment offset := rfl

theorem allocate_chunk_cursor (st : storage_model_base) (fresh : Nat → Nat × Nat)
    (s : monotonic_allocation_strategy) (n : Nat) :
    (monotonic_allocation_strategy.allocate_chunk st fresh s n).2
      = (monotonic_allocation_strategy.allocate_chunk (storage_model_base.initial (fun _ => 0))
          (fun _ => (0, 0)) s n).2 := by
  unfold monotonic_allocation_strategy.allocate_chunk
  dsimp only
  split_ifs <;> rfl

/-- C8. Allocator bump scenario: on a fresh strategy, whatever the registry state and the
addresses returned by `new`, `allocate(100)` hands `(first_segment_index, 64)` to
`segment_pointer` and leaves the cursor at offset `176` of the first segment; `allocate(S)`
with `S = max_segment_size() = 2 ^ 27` right afterwards moves the cursor to the next segment
id, hands `(first_segment_index + 1, 64)` to `segment_pointer` and leaves the cursor offset at
`64 + round_up(S, 16)`. The handles returned in the `based_2d_msk` and `based_2d_xl` models have
these segments and offsets. -/
theorem allocate_bump_scenario (st : storage_model_base) (fresh1 fresh2 : Nat → Nat × Nat)
    (tmp ret : Nat) :
    let r1 := monotonic_allocation_strategy.allocate_chunk st fresh1
      monotonic_allocation_strategy.initial 100
    let r2 := monotonic_allocation_strategy.allocate_chunk r1.1 fresh2 r1.2.1 max_segment_size
    max_segment_size = 2 ^ 27 ∧
    r1.2.2 = (first_segment_index, 64) ∧
    r1.2.1.sm_curr_segment = first_segment_index ∧ r1.2.1.sm_curr_offset = 176 ∧
    r2.2.2 = (first_segment_index + 1, 64) ∧
    r2.2.1.sm_curr_segment = first_segment_index + 1 ∧
    r2.2.1.sm_curr_offset
      = 64 + to_size_t (monotonic_allocation_strategy.round_up (to_ptrdiff_t max_segment_size) 16) ∧
    r2.2.1.sm_curr_offset = 64 + 2 ^ 27 ∧
    (let h1 : syn_ptr based_2d_msk_addressing_model :=
        (monotonic_allocation_strategy.allocate st fresh1
          monotonic_allocation_strategy.initial 100 tmp ret).2.2
      let h2 : syn_ptr based_2d_msk_addressing_model :=
        (monotonic_allocation_strategy.allocate r1.1 fresh2 r1.2.1 max_segment_size tmp ret).2.2
      h1.m_addrmodel.segment = first_segment_index ∧ h1.m_addrmodel.offset = 64 ∧
      h2.m_addrmodel.segment = first_segment_index + 1 ∧ h2.m_addrmodel.offset = 64) ∧
    (let h1 : syn_ptr based_2d_xl_addressing_model :=
        (monotonic_allocation_strategy.allocate st fresh1
          monotonic_allocation_strategy.initial 100 tmp ret).2.2
      let h2 : syn_ptr based_2d_xl_addressing_model :=
        (monotonic_allocation_strategy.allocate r1.1 fresh2 r1.2.1 max_segment_size tmp ret).2.2
      h1.m_addrmodel.segment = first_segment_index ∧ h1.m_addrmodel.offset = 64 ∧
      h2.m_addrmodel.segment = first_segment_index + 1 ∧ h2.m_addrmodel.offset = 64) := by
  have h1 : ∀ (r : storage_model_base) (fresh : Nat → Nat × Nat),
      (monotonic_allocation_strategy.allocate_chunk r fresh
        monotonic_allocation_strategy.initial 100).2 = (⟨2, 176, true⟩, 2, 64) := by
    intro r fresh
    rw [allocate_chunk_cursor]
    decide
  have h2 : ∀ (r : storage_model_base) (fresh : Nat → Nat × Nat),
      (monotonic_allocation_strategy.allocate_chunk r fresh ⟨2, 176, true⟩ max_segment_size).2
        = (⟨3, 134217792, true⟩, 3, 64) := by
    intro r fresh
    rw [allocate_chunk_cursor]
    decide
  intro r1 r2
  have e1 : r1.2 = (⟨2, 176, true⟩, 2, 64) := h1 st fresh1
  have er2 : r2 = monotonic_allocation_strategy.allocate_chunk r1.1 fresh2 r1.2.1
    max_segment_size := rfl
  clear_value r2 r1
  obtain ⟨st1, c1⟩ := r1
  simp only at e1
  subst e1
  have e2 : r2.2 = (⟨3, 134217792, true⟩, 3, 64) := by rw [er2]; exact h2 st1 fresh2
  obtain ⟨st2, c2⟩ := r2
  simp only at e2
  subst e2
  refine ⟨by decide, ?_, ?_, ?_, ?_, ?_, ?_, ?_, ?_, ?_⟩
  · dsimp only; decide
  · dsimp only; decide
  · dsimp only
  · dsimp only; decide
  · dsimp only; decide
  · dsimp only; decide
  · dsimp only; decide
  · simp only [allocate_handle, h1, h2, of_model_msk, segment_pointer_msk]
    decide
  · simp only [allocate_handle, h1, h2, of_model_xl, segment_pointer_xl]
    decide

/-! ### Null handles -/

/-- C9, as the claim states it, fails: the default constructors of `syn_ptr` and of the wrapper,
`based_2d_msk` and `based_2d_xl` addressing models are defaulted and initialise nothing, so a
default-constructed handle whose storage held the word `5` (`based_2d_msk`, wrapper) or the
words `(64, 2)` (`based_2d_xl`, in the example registry) does not satisfy `equals(nullptr)`. -/
theorem default_construction_counterexample :
    syn_ptr.equals_null example_registry
        (syn_ptr.of_default 16 ⟨5⟩ : syn_ptr wrapper_addressing_model) = false ∧
      syn_ptr.equals_null example_registry
        (syn_ptr.of_default 16 ⟨5⟩ : syn_ptr based_2d_msk_addressing_model) = false ∧
      syn_ptr.equals_null example_registry
        (syn_ptr.of_default 16 ⟨64, 2⟩ : syn_ptr based_2d_xl_addressing_model) = false := by
  decide

/-- C9, amended. Null semantics: in every reachable registry state and in each of the four
addressing models, a handle constructed from `nullptr` and a handle assigned `nullptr` satisfy
`equals(nullptr)`; so does a default-constructed handle of the offset model, whose constructor
stores `null_offset`. The defaulted constructors of the three other models leave the handle
with what its storage held: the handle satisfies `equals(nullptr)` exactly when that is an
encoding of null, as it is on zero-filled storage (a value-initialised handle). -/
theorem null_handle_equals_null (st : storage_model_base) (hst : reachable st) (this : Nat)
    (w : syn_ptr wrapper_addressing_model) (m : syn_ptr based_2d_msk_addressing_model)
    (x : syn_ptr based_2d_xl_addressing_model) (f : syn_ptr offset_addressing_model)
    (pw : wrapper_addressing_model) (pm : based_2d_msk_addressing_model)
    (px : based_2d_xl_addressing_model) (pf : offset_addressing_model) :
    (syn_ptr.equals_null st (syn_ptr.of_null this : syn_ptr wrapper_addressing_model) = true ∧
      syn_ptr.equals_null st (syn_ptr.assign_null w) = true ∧
      (syn_ptr.of_default this pw : syn_ptr wrapper_addressing_model) = ⟨pw⟩ ∧
      (syn_ptr.equals_null st (syn_ptr.of_default this pw : syn_ptr wrapper_addressing_model)
        = true ↔ pw.m_addr = 0) ∧
      syn_ptr.equals_null st
        (syn_ptr.of_default this ⟨0⟩ : syn_ptr wrapper_addressing_model) = true) ∧
    (syn_ptr.equals_null st (syn_ptr.of_null this : syn_ptr based_2d_msk_addressing_model)
        = true ∧
      syn_ptr.equals_null st (syn_ptr.assign_null m) = true ∧
      (syn_ptr.of_default this pm : syn_ptr based_2d_msk_addressing_model) = ⟨pm⟩ ∧
      (syn_ptr.equals_null st (syn_ptr.of_default this pm : syn_ptr based_2d_msk_addressing_model)
        = true ↔ pm.m_addr = 0) ∧
      syn_ptr.equals_null st
        (syn_ptr.of_default this ⟨0⟩ : syn_ptr based_2d_msk_addressing_model) = true) ∧
    (syn_ptr.equals_null st (syn_ptr.of_null this : syn_ptr based_2d_xl_addressing_model)
        = true ∧
      syn_ptr.equals_null st (syn_ptr.assign_null x) = true ∧
      (syn_ptr.of_default this px : syn_ptr based_2d_xl_addressing_model) = ⟨px⟩ ∧
      (syn_ptr.equals_null st (syn_ptr.of_default this px : syn_ptr based_2d_xl_addressing_model)
        = true ↔ based_2d_xl_addressing_model.address st px = 0) ∧
      syn_ptr.equals_null st
        (syn_ptr.of_default this ⟨0, 0⟩ : syn_ptr based_2d_xl_addressing_model) = true) ∧
    (syn_ptr.equals_null st (syn_ptr.of_null this : syn_ptr offset_addressing_model) = true ∧
      syn_ptr.equals_null st (syn_ptr.assign_null f) = true ∧
      syn_ptr.equals_null st
        (syn_ptr.of_default this pf : syn_ptr offset_addressing_model) = true) := by
  have h0 := ((reachable_invariant st hst).outside 0 (Or.inl (by decide))).1
  have hxl : based_2d_xl_addressing_model.equals_null st ⟨0, 0⟩ = true := by
    simp [based_2d_xl_addressing_model.equals_null, based_2d_xl_addressing_model.address,
      storage_model_base.segment_address, ptr_add, h0]
  refine ⟨⟨rfl, rfl, rfl, ?_, rfl⟩, ⟨rfl, rfl, rfl, ?_, rfl⟩, ⟨hxl, hxl, rfl, ?_, hxl⟩,
    ⟨rfl, rfl, rfl⟩⟩
  · show (pw.m_addr == 0) = true ↔ _
    simp
  · show (pm.m_addr == 0) = true ↔ _
    simp
  · show (based_2d_xl_addressing_model.address st px == 0) = true ↔ _
    simp

theorem null_handle_equals_null_witness :
    reachable example_registry ∧
      syn_ptr.equals_null example_registry
        (syn_ptr.of_null 16 : syn_ptr based_2d_xl_addressing_model) = true ∧
      syn_ptr.equals_null example_registry
        (syn_ptr.assign_null (⟨⟨48, 8208⟩⟩ : syn_ptr offset_addressing_model)) = true ∧
      syn_ptr.equals_null example_registry
        (syn_ptr.of_default 16 ⟨0⟩ : syn_ptr based_2d_msk_addressing_model) = true ∧
      syn_ptr.equals_null example_registry
        (syn_ptr.of_default 16 ⟨16, 7⟩ : syn_ptr offset_addressing_model) = true :=
  have h := null_handle_equals_null example_registry example_registry_reachable 16 ⟨⟨8256⟩⟩
    ⟨based_2d_msk_addressing_model.ctor 2 64⟩ ⟨based_2d_xl_addressing_model.ctor 2 64⟩
    ⟨⟨48, 8208⟩⟩ ⟨5⟩ ⟨5⟩ ⟨64, 2⟩ ⟨16, 7⟩
  ⟨example_registry_reachable, h.2.2.1.1, h.2.2.2.2.1, h.2.1.2.2.2.2, h.2.2.2.2.2⟩

/-- C10. No valid (segment, offset) pair decodes to null: in every reachable registry state,
for every segment `s` of `[first_segment_index, last_segment_index]` and every offset
`o < segment_size(s)` (so `s` is live), the `based_2d_msk` and the `based_2d_xl` handle built
from `(s, o)` have `equals(nullptr) == false` and an `address()` that is not null. -/
theorem valid_pair_is_not_null (st : storage_model_base) (hst : reachable st) (s o : Nat)
    (hs : first_segment_index ≤ s ∧ s ≤ last_segment_index) (ho : o < st.segment_size s) :
    (based_2d_msk_addressing_model.ctor s o).equals_null = false ∧
      based_2d_msk_addressing_model.address st (based_2d_msk_addressing_model.ctor s o) ≠ 0 ∧
      based_2d_xl_addressing_model.equals_null st (based_2d_xl_addressing_model.ctor s o)
        = false ∧
      based_2d_xl_addressing_model.address st (based_2d_xl_addressing_model.ctor s o) ≠ 0 := by
  have hinv := reachable_invariant st hst
  have hsz := hinv.size_le s
  have hsp := hinv.in_space s
  have hnz := hinv.null_size s
  simp only [first_segment_index, last_segment_index, max_segments] at hs
  simp only [storage_model_base.segment_size, max_size] at ho hsz
  have haux := address_resolves_at_access_time_aux st s o (by omega) (by omega)
  have hne : ptr_add (st.segment_address s) o ≠ 0 := by
    simp only [ptr_add, storage_model_base.segment_address]
    omega
  refine ⟨?_, by rw [haux.1]; exact hne, ?_, by rw [haux.2]; exact hne⟩
  · simp only [based_2d_msk_addressing_model.equals_null, based_2d_msk_addressing_model.ctor,
      based_2d_msk_addressing_model.set_m_segment, beq_eq_false_iff_ne, ne_eq]
    omega
  · simp only [based_2d_xl_addressing_model.equals_null, haux.2, beq_eq_false_iff_ne, ne_eq]
    exact hne

theorem valid_pair_is_not_null_witness :
    (based_2d_msk_addressing_model.ctor 2 64).equals_null = false ∧
      based_2d_msk_addressing_model.address example_registry
        (based_2d_msk_addressing_model.ctor 2 64) ≠ 0 ∧
      based_2d_xl_addressing_model.equals_null example_registry
        (based_2d_xl_addressing_model.ctor 2 64) = false ∧
      based_2d_xl_addressing_model.address example_registry
        (based_2d_xl_addressing_model.ctor 2 64) ≠ 0 :=
  valid_pair_is_not_null example_registry example_registry_reachable 2 64 (by decide) (by decide)

/-! ### The null sentinel of the offset model -/

theorem offset_to_ptr_spec (a p : Nat) (hp0 : p ≠ 0) (hp : p < 2 ^ 64) :
    (offset_addressing_model.offset_to_ptr a p = offset_addressing_model.null_offset ↔
        p = offset_addressing_model.reserved a) ∧
      to_size_t ((a : Int) + offset_addressing_model.offset_to_ptr a p) = p := by
  have h1 := wrap_ptrdiff_spec ((p : Int) - (a : Int))
  simp only [offset_addressing_model.offset_to_ptr, if_neg hp0,
    offset_addressing_model.offset_between, offset_addressing_model.null_offset,
    offset_addressing_model.reserved, to_size_t]
  constructor
  · constructor
    · intro hc
      rw [hc] at h1
      omega
    · intro hc
      omega
  · omega

/-- C11, as the claim states it, fails: an `offset_addressing_model` stored at address `16` and
constructed from, assigned from (`operator =`), or `assign_from` the non-null address `17` holds
`null_offset`; its `address()` is null and `equals(nullptr)` is `true`. -/
theorem offset_sentinel_counterexample :
    (offset_addressing_model.ctor 16 17).address = 0 ∧
      (offset_addressing_model.ctor 16 17).equals_null = true ∧
      (offset_addressing_model.assign_ptr ⟨16, 5⟩ 17).address = 0 ∧
      (offset_addressing_model.assign_ptr ⟨16, 5⟩ 17).equals_null = true ∧
      (offset_addressing_model.assign_from ⟨16, 5⟩ 17).address = 0 ∧
      (offset_addressing_model.assign_from ⟨16, 5⟩ 17).equals_null = true := by
  decide

/-- C11, amended. For every storage location `a` of the handle and every non-null native
address `p`, an `offset_addressing_model` located at `a` that is constructed from `p`, assigned
`p`, or on which `assign_from(p)` is called satisfies `address() == p` and
`equals(nullptr) == false` exactly when `p` is not the address at distance `null_offset` (one
byte) from `a`; for that one address the handle is null. -/
theorem offset_sentinel_collision_only_at_reserved (a p : Nat) (m : Int) (hp0 : p ≠ 0)
    (hp : p < 2 ^ 64) :
    (((offset_addressing_model.ctor a p).address = p ∧
        (offset_addressing_model.ctor a p).equals_null = false) ↔
        p ≠ offset_addressing_model.reserved a) ∧
      (((offset_addressing_model.assign_ptr ⟨a, m⟩ p).address = p ∧
        (offset_addressing_model.assign_ptr ⟨a, m⟩ p).equals_null = false) ↔
        p ≠ offset_addressing_model.reserved a) ∧
      (((offset_addressing_model.assign_from ⟨a, m⟩ p).address = p ∧
        (offset_addressing_model.assign_from ⟨a, m⟩ p).equals_null = false) ↔
        p ≠ offset_addressing_model.reserved a) ∧
      (p = offset_addressing_model.reserved a →
        (offset_addressing_model.ctor a p).address = 0 ∧
          (offset_addressing_model.ctor a p).equals_null = true) := by
  obtain ⟨h1, h2⟩ := offset_to_ptr_spec a p hp0 hp
  have key : ∀ x : offset_addressing_model, x.self = a →
      x.m_offset = offset_addressing_model.offset_to_ptr a p →
      ((x.address = p ∧ x.equals_null = false) ↔ p ≠ offset_addressing_model.reserved a) := by
    intro x hxs hxo
    simp only [offset_addressing_model.address, offset_addressing_model.equals_null, hxs, hxo,
      beq_eq_false_iff_ne, ne_eq]
    by_cases hc : offset_addressing_model.offset_to_ptr a p = offset_addressing_model.null_offset
    · simp only [hc, if_true, not_true_eq_false, and_false, false_iff, not_not]
      exact h1.mp hc
    · simp only [hc, if_false, not_false_eq_true, and_true]
      have h3 : p ≠ offset_addressing_model.reserved a := fun e => hc (h1.mpr e)
      simp only [h3, not_false_eq_true, iff_true]
      unfold to_size_t at h2 ⊢
      omega
  refine ⟨key _ rfl rfl, key _ rfl rfl, key _ rfl rfl, fun e => ?_⟩
  have hc := h1.mpr e
  simp only [offset_addressing_model.address, offset_addressing_model.equals_null,
    offset_addressing_model.ctor, hc, if_true, beq_self_eq_true, and_self]

theorem offset_sentinel_collision_only_at_reserved_witness :
    (offset_addressing_model.ctor 16 8256).address = 8256 ∧
      (offset_addressing_model.ctor 16 8256).equals_null = false :=
  ((offset_sentinel_collision_only_at_reserved 16 8256 5 (by decide) (by decide)).1).mpr
    (by decide)

/-! ### What `assign_from` encodes -/

theorem msk_assign_from_loop_skip (st : storage_model_base) (x : based_2d_msk_addressing_model)
    (p : Nat) (pre rest : List Nat)
    (hpre : ∀ j ∈ pre, ¬ (st.segment_address j ≠ 0 ∧ st.segment_address j ≤ p ∧
      p < ptr_add (st.segment_address j) (st.segment_size j))) :
    based_2d_msk_addressing_model.assign_from_loop st x p (pre ++ rest)
      = based_2d_msk_addressing_model.assign_from_loop st x p rest := by
  induction pre with
  | nil => rfl
  | cons j pre ih =>
    have hj := hpre j (List.mem_cons_self j pre)
    have ih2 := ih (fun k hk => hpre k (List.mem_cons_of_mem j hk))
    simp only [List.cons_append, based_2d_msk_addressing_model.assign_from_loop]
    by_cases h0 : st.segment_address j ≠ 0
    · rw [if_pos h0, if_neg (fun hc => hj ⟨h0, hc⟩)]
      exact ih2
    · rw [if_neg h0]
      exact ih2

theorem xl_assign_from_loop_skip (st : storage_model_base) (x : based_2d_xl_addressing_model)
    (p : Nat) (pre rest : List Nat)
    (hpre : ∀ j ∈ pre, ¬ (st.segment_address j ≠ 0 ∧ st.segment_address j ≤ p ∧
      p < ptr_add (st.segment_address j) (st.segment_size j))) :
    based_2d_xl_addressing_model.assign_from_loop st x p (pre ++ rest)
      = based_2d_xl_addressing_model.assign_from_loop st x p rest := by
  induction pre with
  | nil => rfl
  | cons j pre ih =>
    have hj := hpre j (List.mem_cons_self j pre)
    have ih2 := ih (fun k hk => hpre k (List.mem_cons_of_mem j hk))
    simp only [List.cons_append, based_2d_xl_addressing_model.assign_from_loop]
    by_cases h0 : st.segment_address j ≠ 0
    · rw [if_pos h0, if_neg (fun hc => hj ⟨h0, hc⟩)]
      exact ih2
    · rw [if_neg h0]
      exact ih2

theorem assign_from_loop_found (st : storage_model_base) (hinv : registry_invariant st)
    (x : based_2d_msk_addressing_model) (y : based_2d_xl_addressing_model) (p i : Nat)
    (pre post : List Nat) (hi : i < 2 ^ 16)
    (hpre : ∀ j ∈ pre, ¬ (st.segment_address j ≤ p ∧
      p < st.segment_address j + st.segment_size j))
    (hp : st.segment_address i ≤ p ∧ p < st.segment_address i + st.segment_size i) :
    (∃ z, based_2d_msk_addressing_model.assign_from_loop st x p (pre ++ i :: post) = some z ∧
        z.segment = i ∧ z.offset = p - st.segment_address i) ∧
      (∃ z, based_2d_xl_addressing_model.assign_from_loop st y p (pre ++ i :: post) = some z ∧
        z.segment = i ∧ z.offset = p - st.segment_address i) := by
  have hsz := hinv.size_le i
  have hsp := hinv.in_space i
  have hnz := hinv.null_size i
  simp only [storage_model_base.segment_address, storage_model_base.segment_size, max_size] at *
  have hpre2 : ∀ j ∈ pre, ¬ (st.segment_address j ≠ 0 ∧ st.segment_address j ≤ p ∧
      p < ptr_add (st.segment_address j) (st.segment_size j)) := by
    intro j hj hc
    have hjs := hinv.in_space j
    apply hpre j hj
    simp only [storage_model_base.segment_address, storage_model_base.segment_size,
      ptr_add] at hc ⊢
    omega
  have h0 : st.sm_segment_ptrs i ≠ 0 := by
    intro hc
    have := hnz hc
    omega
  have h2 : st.sm_segment_ptrs i ≤ p ∧
      p < ptr_add (st.sm_segment_ptrs i) (st.sm_segment_size i) := by
    unfold ptr_add
    omega
  have hd := to_size_t_ptr_diff p (st.sm_segment_ptrs i) hp.1 (by omega)
  constructor
  · refine ⟨_, by
      rw [msk_assign_from_loop_skip st x p pre _ hpre2]
      simp only [based_2d_msk_addressing_model.assign_from_loop,
        storage_model_base.segment_address, storage_model_base.segment_size]
      rw [if_pos h0, if_pos h2], ?_, ?_⟩
    · simp only [based_2d_msk_addressing_model.segment,
        based_2d_msk_addressing_model.set_m_segment, based_2d_msk_addressing_model.m_segment, hd]
      omega
    · simp only [based_2d_msk_addressing_model.offset,
        based_2d_msk_addressing_model.set_m_segment, and_offset_mask, hd]
      omega
  · refine ⟨_, by
      rw [xl_assign_from_loop_skip st y p pre _ hpre2]
      simp only [based_2d_xl_addressing_model.assign_from_loop,
        storage_model_base.segment_address, storage_model_base.segment_size]
      rw [if_pos h0, if_pos h2], ?_, ?_⟩
    · rfl
    · simp only [based_2d_xl_addressing_model.offset, hd]

/-- C12. Encoding of `assign_from` inside a segment: in every reachable registry state, when the
native address `p` lies inside a live segment, there is an index `i` of
`[first_segment_index, last_segment_index]` whose range
`[segment_address(i), segment_address(i) + segment_size(i))` contains `p` while the range of
no lower index does, and after `assign_from(p)` both the `based_2d_msk` and the `based_2d_xl`
handle have `segment() == i` and `offset() == p - segment_address(i)`, which is below
`segment_size(i)`. -/
theorem assign_from_encodes_lowest_segment (st : storage_model_base) (hst : reachable st)
    (p s : Nat) (hs : first_segment_index ≤ s ∧ s ≤ last_segment_index)
    (hlive : st.segment_address s ≠ 0)
    (hp : st.segment_address s ≤ p ∧ p < st.segment_address s + st.segment_size s)
    (x : based_2d_msk_addressing_model) (y : based_2d_xl_addressing_model) :
    ∃ i, (first_segment_index ≤ i ∧ i ≤ last_segment_index) ∧
      (st.segment_address i ≤ p ∧ p < st.segment_address i + st.segment_size i) ∧
      (∀ j, first_segment_index ≤ j → j < i →
        ¬ (st.segment_address j ≤ p ∧ p < st.segment_address j + st.segment_size j)) ∧
      (based_2d_msk_addressing_model.assign_from st x p).segment = i ∧
      (based_2d_msk_addressing_model.assign_from st x p).offset = p - st.segment_address i ∧
      (based_2d_xl_addressing_model.assign_from st y p).segment = i ∧
      (based_2d_xl_addressing_model.assign_from st y p).offset = p - st.segment_address i ∧
      p - st.segment_address i < st.segment_size i := by
  have hinv := reachable_invariant st hst
  have hfound : ∀ (i : Nat) (pre post : List Nat), segment_indices = pre ++ i :: post →
      i < 2 ^ 16 →
      (∀ j ∈ pre, ¬ (st.segment_address j ≤ p ∧ p < st.segment_address j + st.segment_size j)) →
      (st.segment_address i ≤ p ∧ p < st.segment_address i + st.segment_size i) →
      (based_2d_msk_addressing_model.assign_from st x p).segment = i ∧
      (based_2d_msk_addressing_model.assign_from st x p).offset = p - st.segment_address i ∧
      (based_2d_xl_addressing_model.assign_from st y p).segment = i ∧
      (based_2d_xl_addressing_model.assign_from st y p).offset = p - st.segment_address i ∧
      p - st.segment_address i < st.segment_size i := by
    intro i pre post hl hi hpre hpi
    obtain ⟨⟨z, hz, hz1, hz2⟩, ⟨w, hw, hw1, hw2⟩⟩ :=
      assign_from_loop_found st hinv x y p i pre post hi hpre hpi
    simp only [based_2d_msk_addressing_model.assign_from,
      based_2d_xl_addressing_model.assign_from, hl, hz, hw]
    exact ⟨hz1, hz2, hw1, hw2, by omega⟩
  simp only [first_segment_index, last_segment_index, max_segments] at hs ⊢
  by_cases h2 : st.segment_address 2 ≤ p ∧ p < st.segment_address 2 + st.segment_size 2
  · refine ⟨2, by omega, h2, fun j h1 h3 => by omega, ?_⟩
    exact hfound 2 [] [3, 4] segment_indices_eq (by norm_num) (by simp) h2
  · by_cases h3 : st.segment_address 3 ≤ p ∧ p < st.segment_address 3 + st.segment_size 3
    · refine ⟨3, by omega, h3, fun j h1 h4 => ?_, ?_⟩
      · have : j = 2 := by omega
        subst this
        exact h2
      · exact hfound 3 [2] [4] segment_indices_eq (by norm_num) (by simpa using h2) h3
    · have h4 : st.segment_address 4 ≤ p ∧ p < st.segment_address 4 + st.segment_size 4 := by
        obtain ⟨hs1, hs2⟩ := hs
        interval_cases s
        · exact absurd hp h2
        · exact absurd hp h3
        · exact hp
      refine ⟨4, by omega, h4, fun j h1 h5 => ?_, ?_⟩
      · have : j = 2 ∨ j = 3 := by omega
        rcases this with e | e
        · subst e; exact h2
        · subst e; exact h3
      · refine hfound 4 [2, 3] [] segment_indices_eq (by norm_num) (fun j hj => ?_) h4
        simp only [List.mem_cons, List.mem_singleton, List.not_mem_nil, or_false] at hj
        rcases hj with e | e
        · subst e; exact h2
        · subst e; exact h3

theorem assign_from_encodes_lowest_segment_witness :
    ∃ i, (first_segment_index ≤ i ∧ i ≤ last_segment_index) ∧
      (example_registry.segment_address i ≤ 8262 ∧
        8262 < example_registry.segment_address i + example_registry.segment_size i) ∧
      (∀ j, first_segment_index ≤ j → j < i →
        ¬ (example_registry.segment_address j ≤ 8262 ∧
          8262 < example_registry.segment_address j + example_registry.segment_size j)) ∧
      (based_2d_msk_addressing_model.assign_from example_registry ⟨0⟩ 8262).segment = i ∧
      (based_2d_msk_addressing_model.assign_from example_registry ⟨0⟩ 8262).offset
        = 8262 - example_registry.segment_address i ∧
      (based_2d_xl_addressing_model.assign_from example_registry ⟨0, 0⟩ 8262).segment = i ∧
      (based_2d_xl_addressing_model.assign_from example_registry ⟨0, 0⟩ 8262).offset
        = 8262 - example_registry.segment_address i ∧
      8262 - example_registry.segment_address i < example_registry.segment_size i :=
  assign_from_encodes_lowest_segment example_registry example_registry_reachable 8262 2
    (by decide) (by decide) (by decide) ⟨0⟩ ⟨0, 0⟩

theorem assign_from_loop_none (st : storage_model_base) (x : based_2d_msk_addressing_model)
    (y : based_2d_xl_addressing_model) (p : Nat) (l : List Nat)
    (hl : ∀ i ∈ l, ¬ (st.segment_address i ≠ 0 ∧ st.segment_address i ≤ p ∧
      p < st.segment_address i + st.segment_size i)) :
    based_2d_msk_addressing_model.assign_from_loop st x p l = none ∧
      based_2d_xl_addressing_model.assign_from_loop st y p l = none := by
  have hl2 : ∀ j ∈ l, ¬ (st.segment_address j ≠ 0 ∧ st.segment_address j ≤ p ∧
      p < ptr_add (st.segment_address j) (st.segment_size j)) := by
    intro j hj hc
    apply hl j hj
    have hmod : ptr_add (st.segment_address j) (st.segment_size j)
        ≤ st.segment_address j + st.segment_size j := Nat.mod_le _ _
    exact ⟨hc.1, hc.2.1, Nat.lt_of_lt_of_le hc.2.2 hmod⟩
  have h1 := msk_assign_from_loop_skip st x p l [] hl2
  have h2 := xl_assign_from_loop_skip st y p l [] hl2
  rw [List.append_nil] at h1 h2
  exact ⟨h1, h2⟩

/-- C13, as the claim states it, fails: in the example registry the native address `2 ^ 48` lies
in no live segment, and after `assign_from(2 ^ 48)` the `based_2d_msk` handle has
`segment() == 1` and `offset() == 0`, not `segment() == 0` and `offset() == 2 ^ 48`. -/
theorem assign_from_fallback_counterexample :
    (∀ i ∈ segment_indices, ¬ (example_registry.segment_address i ≠ 0 ∧
        example_registry.segment_address i ≤ 281474976710656 ∧
        281474976710656 < example_registry.segment_address i
          + example_registry.segment_size i)) ∧
      (based_2d_msk_addressing_model.assign_from example_registry ⟨0⟩ 281474976710656).segment
        = 1 ∧
      (based_2d_msk_addressing_model.assign_from example_registry ⟨0⟩ 281474976710656).offset
        = 0 := by
  decide

/-- C13, amended. In every registry state, for every native address `p` that lies in no live
segment, `assign_from(p)` takes the fallback path: the `based_2d_xl` handle has `segment() == 0`
and `offset() == p`; the `based_2d_msk` handle holds the word `p`, so `segment()` is
`p / 2 ^ 48` and `offset()` is `p % 2 ^ 48`, which are `0` and `p` when `p < 2 ^ 48`, the
address space that the class comment of the model assumes. -/
theorem assign_from_fallback (st : storage_model_base) (p : Nat) (hp : p < 2 ^ 64)
    (hout : ∀ i, first_segment_index ≤ i ∧ i ≤ last_segment_index →
      ¬ (st.segment_address i ≠ 0 ∧ st.segment_address i ≤ p ∧
        p < st.segment_address i + st.segment_size i))
    (x : based_2d_msk_addressing_model) (y : based_2d_xl_addressing_model) :
    ((based_2d_xl_addressing_model.assign_from st y p).segment = 0 ∧
      (based_2d_xl_addressing_model.assign_from st y p).offset = p) ∧
    ((based_2d_msk_addressing_model.assign_from st x p).segment = p / 2 ^ 48 ∧
      (based_2d_msk_addressing_model.assign_from st x p).offset = p % 2 ^ 48) ∧
    (p < 2 ^ 48 →
      (based_2d_msk_addressing_model.assign_from st x p).segment = 0 ∧
      (based_2d_msk_addressing_model.assign_from st x p).offset = p) := by
  obtain ⟨h1, h2⟩ := assign_from_loop_none st x y p segment_indices
    (fun i hi => hout i ((mem_segment_indices i).mp hi))
  have hd := to_size_t_ptr_diff p 0 (Nat.zero_le p) hp
  simp only [Nat.sub_zero] at hd
  have hm : (based_2d_msk_addressing_model.assign_from st x p).segment = p / 2 ^ 48 ∧
      (based_2d_msk_addressing_model.assign_from st x p).offset = p % 2 ^ 48 := by
    simp only [based_2d_msk_addressing_model.assign_from, h1, hd,
      based_2d_msk_addressing_model.segment, based_2d_msk_addressing_model.m_segment,
      based_2d_msk_addressing_model.offset, and_offset_mask, and_true]
    omega
  refine ⟨?_, hm, fun hp48 => ?_⟩
  · simp only [based_2d_xl_addressing_model.assign_from, h2, hd,
      based_2d_xl_addressing_model.segment, based_2d_xl_addressing_model.offset, and_self]
  · rw [hm.1, hm.2]
    omega

theorem assign_from_fallback_witness :
    (based_2d_xl_addressing_model.assign_from example_registry ⟨0, 0⟩ 100000).segment = 0 ∧
      (based_2d_xl_addressing_model.assign_from example_registry ⟨0, 0⟩ 100000).offset
        = 100000 ∧
      (based_2d_msk_addressing_model.assign_from example_registry ⟨0⟩ 100000).segment = 0 ∧
      (based_2d_msk_addressing_model.assign_from example_registry ⟨0⟩ 100000).offset = 100000 :=
  have h := assign_from_fallback example_registry 100000 (by norm_num)
    (fun i hi =>
      (by decide : ∀ j ∈ segment_indices, ¬ (example_registry.segment_address j ≠ 0 ∧
        example_registry.segment_address j ≤ 100000 ∧
        100000 < example_registry.segment_address j + example_registry.segment_size j))
        i ((mem_segment_indices i).mpr hi)) ⟨0⟩ ⟨0, 0⟩
  ⟨h.1.1, h.1.2, (h.2.2 (by norm_num)).1, (h.2.2 (by norm_num)).2⟩

/-! ### The segment component under `increment` and `decrement` -/

/-- C14, as the claim states it, fails: the `based_2d_msk` handle built from segment `2` and
offset `0` has `segment() == 1` after `decrement(1)` and after `increment(-1)`. -/
theorem segment_after_increment_counterexample :
    (based_2d_msk_addressing_model.ctor 2 0).segment = 2 ∧
      ((based_2d_msk_addressing_model.ctor 2 0).decrement 1).segment = 1 ∧
      ((based_2d_msk_addressing_model.ctor 2 0).increment (-1)).segment = 1 := by
  decide

/-- C14, amended. For every `based_2d_xl` handle and every signed byte delta, `segment()` is
the same after `increment(delta)` and after `decrement(delta)`. For a `based_2d_msk` handle
`segment()` is the same after `increment(delta)` when `offset() + delta` stays in
`[0, 2 ^ 48)`, and after `decrement(delta)` when `offset() - delta` does; `offset()` then
moves by `delta`. Outside of that range the packed word carries into the segment bits. -/
theorem segment_after_increment (x : based_2d_xl_addressing_model)
    (m : based_2d_msk_addressing_model) (delta : Int) :
    ((x.increment delta).segment = x.segment ∧ (x.decrement delta).segment = x.segment) ∧
    (0 ≤ (m.offset : Int) + delta ∧ (m.offset : Int) + delta < 2 ^ 48 →
      (m.increment delta).segment = m.segment ∧
      ((m.increment delta).offset : Int) = (m.offset : Int) + delta) ∧
    (0 ≤ (m.offset : Int) - delta ∧ (m.offset : Int) - delta < 2 ^ 48 →
      (m.decrement delta).segment = m.segment ∧
      ((m.decrement delta).offset : Int) = (m.offset : Int) - delta) := by
  refine ⟨⟨rfl, rfl⟩, fun h => ?_, fun h => ?_⟩
  · simp only [based_2d_msk_addressing_model.offset, and_offset_mask,
      based_2d_msk_addressing_model.segment, based_2d_msk_addressing_model.m_segment,
      based_2d_msk_addressing_model.increment, to_size_t] at h ⊢
    omega
  · simp only [based_2d_msk_addressing_model.offset, and_offset_mask,
      based_2d_msk_addressing_model.segment, based_2d_msk_addressing_model.m_segment,
      based_2d_msk_addressing_model.decrement, to_size_t] at h ⊢
    omega

theorem segment_after_increment_witness :
    ((based_2d_msk_addressing_model.ctor 2 64).increment 16).segment = 2 ∧
      ((based_2d_msk_addressing_model.ctor 2 64).decrement 16).segment = 2 :=
  have h := segment_after_increment (based_2d_xl_addressing_model.ctor 2 64)
    (based_2d_msk_addressing_model.ctor 2 64) 16
  ⟨(h.2.1 (by decide)).1.trans (by decide), (h.2.2 (by decide)).1.trans (by decide)⟩

/-! ### The packed word of `based_2d_msk_addressing_model` -/

/-- C15. Packed 48/16 layout: for every segment id `seg < 2 ^ 16` and every offset
`off < 2 ^ 48`, the `based_2d_msk` handle constructed from `(seg, off)` holds the 64-bit word
`seg * 2 ^ 48 + off`, `segment()` is `seg` and `offset()` is `off`; `offset()` is the word
masked with `0x0000FFFFFFFFFFFF`, that is its low 48 bits, and `segment()` is its high 16-bit
word. -/
theorem packed_layout (seg off : Nat) (hseg : seg < 2 ^ 16) (hoff : off < 2 ^ 48) :
    (based_2d_msk_addressing_model.ctor seg off).m_addr = seg * 2 ^ 48 + off ∧
      (based_2d_msk_addressing_model.ctor seg off).segment = seg ∧
      (based_2d_msk_addressing_model.ctor seg off).offset = off ∧
      (based_2d_msk_addressing_model.ctor seg off).offset
        = (based_2d_msk_addressing_model.ctor seg off).m_addr &&& 0x0000FFFFFFFFFFFF ∧
      (based_2d_msk_addressing_model.ctor seg off).offset
        = (based_2d_msk_addressing_model.ctor seg off).m_addr % 2 ^ 48 ∧
      (based_2d_msk_addressing_model.ctor seg off).segment
        = (based_2d_msk_addressing_model.ctor seg off).m_addr / 2 ^ 48 ∧
      (based_2d_msk_addressing_model.ctor seg off).m_addr < 2 ^ 64 := by
  have hw : (based_2d_msk_addressing_model.ctor seg off).m_addr = seg * 2 ^ 48 + off := by
    simp only [based_2d_msk_addressing_model.ctor, based_2d_msk_addressing_model.set_m_segment]
    omega
  refine ⟨hw, ?_, ?_, rfl, ?_, ?_, ?_⟩
  · simp only [based_2d_msk_addressing_model.segment, based_2d_msk_addressing_model.m_segment, hw]
    omega
  · simp only [based_2d_msk_addressing_model.offset, and_offset_mask, hw]
    omega
  · simp only [based_2d_msk_addressing_model.offset, and_offset_mask]
  · simp only [based_2d_msk_addressing_model.segment, based_2d_msk_addressing_model.m_segment, hw]
    omega
  · rw [hw]
    omega

theorem packed_layout_witness :
    (based_2d_msk_addressing_model.ctor 2 64).m_addr = 2 * 2 ^ 48 + 64 ∧
      (based_2d_msk_addressing_model.ctor 2 64).segment = 2 ∧
      (based_2d_msk_addressing_model.ctor 2 64).offset = 64 :=
  have h := packed_layout 2 64 (by norm_num) (by norm_num)
  ⟨h.1, h.2.1, h.2.2.1⟩


/-! ### `allocate_segment` and `deallocate_segment` -/

theorem example_new_pair :
    new_pair (storage_model_base.initial (fun _ => 0)) 2 128 4096 8192 := by
  simp [new_pair, new_block, ranges_disjoint, storage_model_base.initial]

/-- C19. `allocate_segment(id, size)` returns the registry unchanged when `id` is outside
`[first_segment_index, last_segment_index]`, when `size > max_segment_size()`, or when segment
`id` already has a buffer. Otherwise, with the two blocks that `new` returns, segment `id` has
afterwards a non-null primary buffer and a non-null shadow buffer, every one of the `size`
bytes of each is zero, `segment_size(id) == size`, the table entries of every other segment and
the ready flag are as before, and so are the bytes of every buffer the registry owned. -/
theorem allocate_segment_contract (st : storage_model_base) (id size new_shadow new_primary : Nat)
    (hnew : new_pair st id size new_shadow new_primary) :
    ((id < first_segment_index ∨ last_segment_index < id ∨ max_segment_size < size ∨
        st.segment_address id ≠ 0) →
      st.allocate_segment id size new_shadow new_primary = st) ∧
    (¬ (id < first_segment_index ∨ last_segment_index < id ∨ max_segment_size < size ∨
        st.segment_address id ≠ 0) →
      (st.allocate_segment id size new_shadow new_primary).segment_address id ≠ 0 ∧
      (st.allocate_segment id size new_shadow new_primary).sm_shadow_ptrs id ≠ 0 ∧
      (∀ o, o < size →
        (st.allocate_segment id size new_shadow new_primary).memory
          ((st.allocate_segment id size new_shadow new_primary).segment_address id + o) = 0 ∧
        (st.allocate_segment id size new_shadow new_primary).memory
          ((st.allocate_segment id size new_shadow new_primary).sm_shadow_ptrs id + o) = 0) ∧
      (st.allocate_segment id size new_shadow new_primary).segment_size id = size ∧
      (∀ j, j ≠ id →
        (st.allocate_segment id size new_shadow new_primary).sm_segment_ptrs j
          = st.sm_segment_ptrs j ∧
        (st.allocate_segment id size new_shadow new_primary).sm_shadow_ptrs j
          = st.sm_shadow_ptrs j ∧
        (st.allocate_segment id size new_shadow new_primary).sm_segment_size j
          = st.sm_segment_size j) ∧
      (st.allocate_segment id size new_shadow new_primary).sm_ready = st.sm_ready ∧
      (∀ j o, o < st.sm_segment_size j →
        (st.allocate_segment id size new_shadow new_primary).memory (st.sm_segment_ptrs j + o)
          = st.memory (st.sm_segment_ptrs j + o) ∧
        (st.allocate_segment id size new_shadow new_primary).memory (st.sm_shadow_ptrs j + o)
          = st.memory (st.sm_shadow_ptrs j + o))) := by
  constructor
  · intro h
    have hg : ¬ (id ≥ first_segment_index ∧ id ≤ last_segment_index ∧ size ≤ max_size ∧
        st.sm_segment_ptrs id = 0) := by
      simp only [max_segment_size, storage_model_base.segment_address] at h
      intro hc
      rcases h with h | h | h | h
      · omega
      · omega
      · omega
      · exact h hc.2.2.2
    simp only [storage_model_base.allocate_segment, if_neg hg]
  · intro h
    have hg : id ≥ first_segment_index ∧ id ≤ last_segment_index ∧ size ≤ max_size ∧
        st.sm_segment_ptrs id = 0 := by
      simp only [max_segment_size, storage_model_base.segment_address] at h
      refine ⟨?_, ?_, ?_, ?_⟩
      · omega
      · omega
      · omega
      · by_contra hc
        exact h (Or.inr (Or.inr (Or.inr hc)))
    obtain ⟨hs, hp, -, -⟩ := hnew hg
    simp only [storage_model_base.allocate_segment, if_pos hg,
      storage_model_base.segment_address, storage_model_base.segment_size,
      Function.update_same, memset]
    refine ⟨hp.1, hs.1, ?_, trivial, ?_, trivial, ?_⟩
    · intro o ho
      constructor
      · rw [if_pos (by omega)]
      · by_cases hc : new_primary ≤ new_shadow + o ∧ new_shadow + o < new_primary + size
        · rw [if_pos hc]
        · rw [if_neg hc, if_pos (by omega)]
    · intro j hj
      simp only [Function.update_noteq hj, and_self]
    · intro j o ho
      have h1 := (hs.2.2 j).1
      have h2 := (hs.2.2 j).2
      have h3 := (hp.2.2 j).1
      have h4 := (hp.2.2 j).2
      simp only [ranges_disjoint] at h1 h2 h3 h4
      constructor
      · rw [if_neg (by omega), if_neg (by omega)]
      · rw [if_neg (by omega), if_neg (by omega)]

theorem allocate_segment_contract_witness :
    new_pair (storage_model_base.initial (fun _ => 0)) 2 128 4096 8192 ∧
      ((storage_model_base.initial (fun _ => 0)).allocate_segment 2 128 4096 8192).segment_address
        2 ≠ 0 ∧
      ((storage_model_base.initial (fun _ => 0)).allocate_segment 2 128 4096 8192).segment_size 2
        = 128 :=
  have h := (allocate_segment_contract (storage_model_base.initial (fun _ => 0)) 2 128 4096 8192
    example_new_pair).2 (by decide)
  ⟨example_new_pair, h.1, h.2.2.2.1⟩

theorem deallocate_segment_noop (st : storage_model_base) (id : Nat)
    (h : st.sm_segment_ptrs id = 0) : st.deallocate_segment id = st := by
  simp only [storage_model_base.deallocate_segment, h, ne_eq, not_true_eq_false, if_false]

theorem deallocate_segment_ptr (st : storage_model_base) (id : Nat) :
    (st.deallocate_segment id).sm_segment_ptrs id = 0 := by
  by_cases h : st.sm_segment_ptrs id = 0
  · rw [deallocate_segment_noop st id h, h]
  · simp only [storage_model_base.deallocate_segment, ne_eq, h, not_false_eq_true, if_true,
      Function.update_same]

/-- C20. In every reachable registry state and for every `id` in
`[first_segment_index, last_segment_index]`, after `deallocate_segment(id)` the primary pointer
and the shadow pointer of segment `id` are null and `segment_size(id) == 0`; the table entries
of every other segment, the ready flag and the memory are as before; a second call leaves the
registry unchanged, and so does a call on a segment that has no buffer. -/
theorem deallocate_segment_contract (st : storage_model_base) (hst : reachable st) (id : Nat) :
    first_segment_index ≤ id ∧ id ≤ last_segment_index →
      ((st.deallocate_segment id).segment_address id = 0 ∧
        (st.deallocate_segment id).sm_shadow_ptrs id = 0 ∧
        (st.deallocate_segment id).segment_size id = 0) ∧
      (∀ j, j ≠ id →
        (st.deallocate_segment id).sm_segment_ptrs j = st.sm_segment_ptrs j ∧
        (st.deallocate_segment id).sm_shadow_ptrs j = st.sm_shadow_ptrs j ∧
        (st.deallocate_segment id).sm_segment_size j = st.sm_segment_size j) ∧
      (st.deallocate_segment id).sm_ready = st.sm_ready ∧
      (st.deallocate_segment id).memory = st.memory ∧
      (st.deallocate_segment id).deallocate_segment id = st.deallocate_segment id ∧
      (st.segment_address id = 0 → st.deallocate_segment id = st) := by
  intro _
  have hinv := reachable_invariant st hst
  refine ⟨?_, ?_, ?_, ?_, deallocate_segment_noop _ id (deallocate_segment_ptr st id),
    deallocate_segment_noop st id⟩
  · by_cases h : st.sm_segment_ptrs id = 0
    · rw [deallocate_segment_noop st id h]
      exact ⟨h, (hinv.null_iff id).mp h, hinv.null_size id h⟩
    · simp only [storage_model_base.deallocate_segment, ne_eq, h, not_false_eq_true, if_true,
        storage_model_base.segment_address, storage_model_base.segment_size,
        Function.update_same, and_self]
  · intro j hj
    by_cases h : st.sm_segment_ptrs id = 0
    · rw [deallocate_segment_noop st id h]
      exact ⟨rfl, rfl, rfl⟩
    · simp only [storage_model_base.deallocate_segment, ne_eq, h, not_false_eq_true, if_true,
        Function.update_noteq hj, and_self]
  · by_cases h : st.sm_segment_ptrs id = 0
    · rw [deallocate_segment_noop st id h]
    · simp only [storage_model_base.deallocate_segment, ne_eq, h, not_false_eq_true, if_true]
  · by_cases h : st.sm_segment_ptrs id = 0
    · rw [deallocate_segment_noop st id h]
    · simp only [storage_model_base.deallocate_segment, ne_eq, h, not_false_eq_true, if_true]

theorem deallocate_segment_contract_witness :
    reachable example_registry ∧
      (example_registry.deallocate_segment 2).segment_address 2 = 0 ∧
      (example_registry.deallocate_segment 2).sm_shadow_ptrs 2 = 0 ∧
      (example_registry.deallocate_segment 2).segment_size 2 = 0 ∧
      (example_registry.deallocate_segment 2).deallocate_segment 2
        = example_registry.deallocate_segment 2 :=
  have h := deallocate_segment_contract example_registry example_registry_reachable 2
    (by decide)
  ⟨example_registry_reachable, h.1.1, h.1.2.1, h.1.2.2, h.2.2.2.2.1⟩


/-! ### Conversions between pointer types -/

theorem is_convertible_refl (T : elem_type) : is_convertible T T = true := by
  obtain ⟨c, q⟩ := T
  cases c <;> cases q <;> rfl

/-- C16. Implicit conversion matrix: for all element types `U` and `T` among `void`, `base`,
`user`, `derived`, `unrelated` and their `const`-qualified forms, `syn_ptr<U, AM>` converts
implicitly to `syn_ptr<T, AM>` iff `U*` converts implicitly to `T*`, a native `U*` converts
implicitly to `syn_ptr<T, AM>` iff `U*` converts implicitly to `T*`, and `syn_ptr<T, AM>`
converts implicitly to a native `U*` iff `T*` converts implicitly to `U*`. The declarations
that decide it do not depend on the addressing model `AM`. Every assertion of
`run_pointer_cast_tests` that involves a handle type holds. -/
theorem implicit_conversion_matrix :
    (∀ U T : elem_type,
      implicitly_convertible (.handle U) (.handle T) = is_convertible U T ∧
      implicitly_convertible (.native U) (.handle T) = is_convertible U T ∧
      implicitly_convertible (.handle T) (.native U) = is_convertible T U) ∧
    (∀ b ∈ run_pointer_cast_tests, b = true) := by
  constructor
  · rintro ⟨c1, q1⟩ ⟨c2, q2⟩
    cases c1 <;> cases c2 <;> cases q1 <;> cases q2 <;> decide
  · decide

/-- C17, as the claim states it, fails: neither `user*` converts to `unrelated*` nor
`unrelated*` to `user*`, and yet `static_cast<syn_ptr<unrelated, AM>>(h)` and
`static_cast<unrelated*>(h)` are well-formed for a handle `h` of type `syn_ptr<user, AM>`: the
two `explicit` conversion operators are enabled by
`enable_if_not_convertible_t<user, unrelated>`. -/
theorem unrelated_cast_counterexample :
    is_convertible ⟨.user, false⟩ ⟨.unrelated, false⟩ = false ∧
      is_convertible ⟨.unrelated, false⟩ ⟨.user, false⟩ = false ∧
      enable_if_not_convertible_t ⟨.user, false⟩ ⟨.unrelated, false⟩ = true ∧
      static_cast_from_handle ⟨.user, false⟩ (.handle ⟨.unrelated, false⟩) = true ∧
      static_cast_from_handle ⟨.user, false⟩ (.native ⟨.unrelated, false⟩) = true := by
  decide

/-- C17, amended. For element types `T` and `U` where neither `T*` nor `U*` converts to the
other, there is no implicit conversion from `syn_ptr<T, AM>` to `syn_ptr<U, AM>` or to a native
`U*`, but the explicit conversion (`static_cast`) to either is well-formed: the `explicit`
conversion operators are enabled whenever `T*` does not convert implicitly to `U*`. -/
theorem unrelated_handles_convert_by_cast_only (T U : elem_type)
    (h1 : is_convertible T U = false) (h2 : is_convertible U T = false) :
    implicitly_convertible (.handle T) (.handle U) = false ∧
      implicitly_convertible (.handle T) (.native U) = false ∧
      static_cast_from_handle T (.handle U) = true ∧
      static_cast_from_handle T (.native U) = true := by
  obtain ⟨c1, q1⟩ := T
  obtain ⟨c2, q2⟩ := U
  clear h2
  revert h1
  cases c1 <;> cases c2 <;> cases q1 <;> cases q2 <;> decide

theorem unrelated_handles_convert_by_cast_only_witness :
    implicitly_convertible (.handle ⟨.derived, true⟩) (.handle ⟨.unrelated, true⟩) = false ∧
      implicitly_convertible (.handle ⟨.derived, true⟩) (.native ⟨.unrelated, true⟩) = false ∧
      static_cast_from_handle ⟨.derived, true⟩ (.handle ⟨.unrelated, true⟩) = true ∧
      static_cast_from_handle ⟨.derived, true⟩ (.native ⟨.unrelated, true⟩) = true :=
  unrelated_handles_convert_by_cast_only ⟨.derived, true⟩ ⟨.unrelated, true⟩
    (by decide) (by decide)


/-! ### Erasure to `syn_ptr<void, AM>` and recovery -/

theorem erase_recover_offset (h : offset_addressing_model) (v prm ret dst : Nat)
    (hv : h.address ≠ offset_addressing_model.reserved v)
    (hprm : h.address ≠ offset_addressing_model.reserved prm)
    (hret : h.address ≠ offset_addressing_model.reserved ret)
    (hdst : h.address ≠ offset_addressing_model.reserved dst) :
    (syn_ptr.erase_recover (⟨h⟩ : syn_ptr offset_addressing_model) v prm ret
      dst).m_addrmodel.address = h.address := by
  have e1 := offset_copy_ctor_address v h hv
  have e2 := offset_copy_ctor_address prm (offset_addressing_model.copy_ctor v h)
    (by rw [e1]; exact hprm)
  have e3 := offset_copy_ctor_address ret
    (offset_addressing_model.copy_ctor prm (offset_addressing_model.copy_ctor v h))
    (by rw [e2, e1]; exact hret)
  have e4 := offset_copy_ctor_address dst
    (offset_addressing_model.copy_ctor ret
      (offset_addressing_model.copy_ctor prm (offset_addressing_model.copy_ctor v h)))
    (by rw [e3, e2, e1]; exact hdst)
  show (offset_addressing_model.copy_ctor dst
    (offset_addressing_model.copy_ctor ret
      (offset_addressing_model.copy_ctor prm (offset_addressing_model.copy_ctor v h)))).address
    = h.address
  rw [e4, e3, e2, e1]

/-- C18, as the claim states it, fails: in the offset model the handle `h` stored at address
`48` that designates address `17` is not null; converted to a `syn_ptr<void, AM>` stored at
address `16`, it has the offset `1`, the encoding of null, and the handle cast back from it has
`address() == 0` and does not equal `h`. -/
theorem erase_recover_counterexample :
    syn_ptr.to_native example_registry (⟨⟨48, -31⟩⟩ : syn_ptr offset_addressing_model) = 17 ∧
      syn_ptr.equals_null example_registry (⟨⟨48, -31⟩⟩ : syn_ptr offset_addressing_model)
        = false ∧
      syn_ptr.to_native example_registry
        (syn_ptr.erase_recover (⟨⟨48, -31⟩⟩ : syn_ptr offset_addressing_model) 16 64 80 96)
        = 0 ∧
      syn_ptr.equals example_registry
        (syn_ptr.erase_recover (⟨⟨48, -31⟩⟩ : syn_ptr offset_addressing_model) 16 64 80 96)
        ⟨⟨48, -31⟩⟩ = false := by
  decide

/-- C18, amended. Converting a handle `h` implicitly to `syn_ptr<void, AM>` and casting the
result back explicitly to `syn_ptr<T, AM>` yields a handle that equals `h` and has the same
`address()`: for every `h` in the wrapper, the `based_2d_msk` and the `based_2d_xl` model, where
the result has the representation of `h`; in the offset model when the address of `h` is not
the address that one of the handles and parameters of the conversion, stored at `v`, `prm`,
`ret` and `dst`, reserves for null. -/
theorem erase_recover_preserves_address (st : storage_model_base) (v prm ret dst : Nat)
    (w : syn_ptr wrapper_addressing_model) (m : syn_ptr based_2d_msk_addressing_model)
    (x : syn_ptr based_2d_xl_addressing_model) (f : syn_ptr offset_addressing_model) :
    (w.erase_recover v prm ret dst = w ∧
      syn_ptr.equals st (w.erase_recover v prm ret dst) w = true ∧
      syn_ptr.to_native st (w.erase_recover v prm ret dst) = syn_ptr.to_native st w) ∧
    (m.erase_recover v prm ret dst = m ∧
      syn_ptr.equals st (m.erase_recover v prm ret dst) m = true ∧
      syn_ptr.to_native st (m.erase_recover v prm ret dst) = syn_ptr.to_native st m) ∧
    (x.erase_recover v prm ret dst = x ∧
      syn_ptr.equals st (x.erase_recover v prm ret dst) x = true ∧
      syn_ptr.to_native st (x.erase_recover v prm ret dst) = syn_ptr.to_native st x) ∧
    (f.m_addrmodel.address ≠ offset_addressing_model.reserved v ∧
      f.m_addrmodel.address ≠ offset_addressing_model.reserved prm ∧
      f.m_addrmodel.address ≠ offset_addressing_model.reserved ret ∧
      f.m_addrmodel.address ≠ offset_addressing_model.reserved dst →
      syn_ptr.equals st (f.erase_recover v prm ret dst) f = true ∧
      syn_ptr.to_native st (f.erase_recover v prm ret dst) = syn_ptr.to_native st f) := by
  have hw : w.erase_recover v prm ret dst = w := rfl
  have hm : m.erase_recover v prm ret dst = m := rfl
  have hx : x.erase_recover v prm ret dst = x := rfl
  refine ⟨⟨hw, ?_, by rw [hw]⟩, ⟨hm, ?_, by rw [hm]⟩, ⟨hx, ?_, by rw [hx]⟩, ?_⟩
  · rw [hw]
    show (w.m_addrmodel.equals w.m_addrmodel) = true
    simp [wrapper_addressing_model.equals]
  · rw [hm]
    show (based_2d_msk_addressing_model.equals st m.m_addrmodel m.m_addrmodel) = true
    simp [based_2d_msk_addressing_model.equals]
  · rw [hx]
    show (based_2d_xl_addressing_model.equals st x.m_addrmodel x.m_addrmodel) = true
    simp [based_2d_xl_addressing_model.equals]
  · rintro ⟨hv, hprm, hret, hdst⟩
    have e := erase_recover_offset f.m_addrmodel v prm ret dst hv hprm hret hdst
    constructor
    · show ((syn_ptr.erase_recover f v prm ret dst).m_addrmodel.address
        == f.m_addrmodel.address) = true
      rw [e]
      exact beq_self_eq_true _
    · exact e

theorem erase_recover_preserves_address_witness :
    syn_ptr.to_native example_registry
        (syn_ptr.erase_recover (⟨⟨48, 8208⟩⟩ : syn_ptr offset_addressing_model) 16 64 80 96)
        = 8256 ∧
      syn_ptr.equals example_registry
        (syn_ptr.erase_recover (⟨⟨48, 8208⟩⟩ : syn_ptr offset_addressing_model) 16 64 80 96)
        ⟨⟨48, 8208⟩⟩ = true :=
  have h := (erase_recover_preserves_address example_registry 16 64 80 96 ⟨⟨8256⟩⟩
    ⟨based_2d_msk_addressing_model.ctor 2 64⟩ ⟨based_2d_xl_addressing_model.ctor 2 64⟩
    ⟨⟨48, 8208⟩⟩).2.2.2 (by decide)
  ⟨h.2.trans (by decide), h.1⟩


/-! ### Segment ids outside of the valid range -/

theorem allocate_segment_outside (st : storage_model_base) (id size new_shadow new_primary : Nat)
    (hid : id < first_segment_index ∨ last_segment_index < id) :
    st.allocate_segment id size new_shadow new_primary = st ∧
      allocate_segment_subscripts st id size = [] := by
  have hg : ¬ (id ≥ first_segment_index ∧ id ≤ last_segment_index ∧ size ≤ max_size ∧
      st.sm_segment_ptrs id = 0) := by
    intro hc
    omega
  have hg2 : ¬ (id ≥ first_segment_index ∧ id ≤ last_segment_index ∧ size ≤ max_size) := by
    intro hc
    omega
  simp only [storage_model_base.allocate_segment, if_neg hg, allocate_segment_subscripts,
    if_neg hg2, and_self]

theorem deallocate_segment_outside (st : storage_model_base) (hst : reachable st) (id : Nat)
    (hid : id < first_segment_index ∨ last_segment_index < id) :
    st.deallocate_segment id = st ∧ deallocate_segment_subscripts st id = [id] := by
  have h0 := ((reachable_invariant st hst).outside id hid).1
  simp only [storage_model_base.deallocate_segment, deallocate_segment_subscripts, h0, ne_eq,
    not_true_eq_false, if_false, and_self]

/-- C21, the code at the failing input: the tables have `max_segments + 2 = 5` slots, so the
valid subscripts are `0 .. 4`. `allocate_segment(5, size)` indexes no table, its range test
comes first. `deallocate_segment(5)` has no range test: its condition reads
`sm_segment_ptrs[5]`, one slot past the end of the table. -/
theorem deallocate_segment_reads_past_table :
    table_slots = 5 ∧ last_segment_index < 5 ∧
      allocate_segment_subscripts example_registry 5 128 = [] ∧
      deallocate_segment_subscripts example_registry 5 = [5] ∧
      ¬ (∀ i ∈ deallocate_segment_subscripts example_registry 5, i < table_slots) := by
  decide


/-! ### `init_segments` -/

theorem init_segments_initial (mem : Nat → Nat) (fresh : Nat → Nat × Nat) :
    (storage_model_base.initial mem).init_segments fresh =
      { sm_segment_ptrs := Function.update (Function.update (Function.update (fun _ => 0)
          2 (fresh 2).2) 3 (fresh 3).2) 4 (fresh 4).2
        sm_segment_size := Function.update (Function.update (Function.update (fun _ => 0)
          2 max_size) 3 max_size) 4 max_size
        sm_shadow_ptrs := Function.update (Function.update (Function.update (fun _ => 0)
          2 (fresh 2).1) 3 (fresh 3).1) 4 (fresh 4).1
        sm_ready := true
        memory := memset (memset (memset (memset (memset (memset mem
          (fresh 2).1 0 max_size) (fresh 2).2 0 max_size)
          (fresh 3).1 0 max_size) (fresh 3).2 0 max_size)
          (fresh 4).1 0 max_size) (fresh 4).2 0 max_size } := by
  simp [storage_model_base.init_segments, storage_model_base.initial, segment_indices_eq,
    allocate_all, storage_model_base.allocate_segment, first_segment_index, last_segment_index,
    max_segments]

theorem update_segment_indices {α : Type} (v2 v3 v4 d : α) :
    (Function.update (Function.update (Function.update (fun _ => d) 2 v2) 3 v3) 4 v4 :
        Nat → α) 2 = v2 ∧
      (Function.update (Function.update (Function.update (fun _ => d) 2 v2) 3 v3) 4 v4 :
        Nat → α) 3 = v3 ∧
      (Function.update (Function.update (Function.update (fun _ => d) 2 v2) 3 v3) 4 v4 :
        Nat → α) 4 = v4 :=
  ⟨by rw [Function.update_noteq (by decide), Function.update_noteq (by decide),
      Function.update_same],
    by rw [Function.update_noteq (by decide), Function.update_same],
    by rw [Function.update_same]⟩

/-- C22. `init_segments()` allocates every segment exactly once: starting from the initial
registry (no segment, not ready), with non-null blocks returned by `new`, after
`init_segments()` every `id` in `[first_segment_index, last_segment_index]` is live, its primary
and shadow buffers are the blocks that `new` returned for it, `segment_size(id)` is
`max_segment_size()` and every byte of both buffers is zero; the ready flag is set, and a second
`init_segments()` returns the registry unchanged, whatever `new` would return. -/
theorem init_segments_allocates_once (mem : Nat → Nat) (fresh : Nat → Nat × Nat)
    (hfresh : ∀ id, first_segment_index ≤ id ∧ id ≤ last_segment_index →
      (fresh id).1 ≠ 0 ∧ (fresh id).2 ≠ 0) :
    (storage_model_base.initial mem).sm_ready = false ∧
    (∀ id, (storage_model_base.initial mem).segment_address id = 0) ∧
    (∀ id, first_segment_index ≤ id ∧ id ≤ last_segment_index →
      ((storage_model_base.initial mem).init_segments fresh).segment_address id = (fresh id).2 ∧
      ((storage_model_base.initial mem).init_segments fresh).segment_address id ≠ 0 ∧
      ((storage_model_base.initial mem).init_segments fresh).sm_shadow_ptrs id = (fresh id).1 ∧
      ((storage_model_base.initial mem).init_segments fresh).sm_shadow_ptrs id ≠ 0 ∧
      ((storage_model_base.initial mem).init_segments fresh).segment_size id
        = max_segment_size ∧
      (∀ o, o < max_segment_size →
        ((storage_model_base.initial mem).init_segments fresh).memory
          (((storage_model_base.initial mem).init_segments fresh).segment_address id + o) = 0 ∧
        ((storage_model_base.initial mem).init_segments fresh).memory
          (((storage_model_base.initial mem).init_segments fresh).sm_shadow_ptrs id + o) = 0)) ∧
    ((storage_model_base.initial mem).init_segments fresh).sm_ready = true ∧
    (∀ fresh2, ((storage_model_base.initial mem).init_segments fresh).init_segments fresh2
      = (storage_model_base.initial mem).init_segments fresh) := by
  rw [init_segments_initial]
  refine ⟨rfl, fun _ => rfl, ?_, rfl, fun fresh2 => ?_⟩
  · intro id hid
    have hf := hfresh id hid
    simp only [first_segment_index, last_segment_index, max_segments] at hid
    have hcases : id = 2 ∨ id = 3 ∨ id = 4 := by omega
    have hp := update_segment_indices (fresh 2).2 (fresh 3).2 (fresh 4).2 0
    have hs := update_segment_indices (fresh 2).1 (fresh 3).1 (fresh 4).1 0
    have hz := update_segment_indices max_size max_size max_size 0
    simp only [storage_model_base.segment_address, storage_model_base.segment_size,
      max_segment_size]
    rcases hcases with e | e | e <;> subst e
    · rw [hp.1, hs.1, hz.1]
      refine ⟨rfl, hf.2, rfl, hf.1, rfl, fun o ho => ?_⟩
      simp only [memset]
      constructor <;> split_ifs <;> first | rfl | omega
    · rw [hp.2.1, hs.2.1, hz.2.1]
      refine ⟨rfl, hf.2, rfl, hf.1, rfl, fun o ho => ?_⟩
      simp only [memset]
      constructor <;> split_ifs <;> first | rfl | omega
    · rw [hp.2.2, hs.2.2, hz.2.2]
      refine ⟨rfl, hf.2, rfl, hf.1, rfl, fun o ho => ?_⟩
      simp only [memset]
      constructor <;> split_ifs <;> first | rfl | omega
  · simp only [storage_model_base.init_segments, Bool.not_true, Bool.false_eq_true, if_false]

theorem init_segments_allocates_once_witness :
    (∀ id, first_segment_index ≤ id ∧ id ≤ last_segment_index →
      ((storage_model_base.initial (fun _ => 7)).init_segments
        (fun i => (i * 2 ^ 28, i * 2 ^ 28 + 2 ^ 27))).segment_address id
        = (id * 2 ^ 28 + 2 ^ 27) ∧
      ((storage_model_base.initial (fun _ => 7)).init_segments
        (fun i => (i * 2 ^ 28, i * 2 ^ 28 + 2 ^ 27))).segment_size id = max_segment_size) ∧
      ((storage_model_base.initial (fun _ => 7)).init_segments
        (fun i => (i * 2 ^ 28, i * 2 ^ 28 + 2 ^ 27))).sm_ready = true :=
  have h := init_segments_allocates_once (fun _ => 7)
    (fun i => (i * 2 ^ 28, i * 2 ^ 28 + 2 ^ 27))
    (fun id hid => by
      simp only [first_segment_index] at hid
      constructor <;> simp only [ne_eq] <;> omega)
  ⟨fun id hid => ⟨(h.2.2.1 id hid).1, (h.2.2.1 id hid).2.2.2.2.1⟩, h.2.2.2.1⟩


/-! ### `reset_segments` of the registry -/

theorem reset_segment_tables (st : storage_model_base) (i : Nat) :
    (reset_segment st i).sm_segment_ptrs = st.sm_segment_ptrs ∧
      (reset_segment st i).sm_shadow_ptrs = st.sm_shadow_ptrs ∧
      (reset_segment st i).sm_segment_size = st.sm_segment_size ∧
      (reset_segment st i).sm_ready = st.sm_ready := by
  unfold storage_model_base.reset_segment
  split_ifs <;> exact ⟨rfl, rfl, rfl, rfl⟩

theorem reset_segment_zero (st : storage_model_base) (i a : Nat) (h : st.memory a = 0) :
    (reset_segment st i).memory a = 0 := by
  unfold storage_model_base.reset_segment
  split_ifs
  · simp only [memset]
    split_ifs <;> first | rfl | exact h
  · exact h

theorem reset_segment_fills (st : storage_model_base) (i o : Nat)
    (hl : st.sm_segment_ptrs i ≠ 0) (ho : o < st.sm_segment_size i) :
    (reset_segment st i).memory (st.sm_segment_ptrs i + o) = 0 ∧
      (reset_segment st i).memory (st.sm_shadow_ptrs i + o) = 0 := by
  unfold storage_model_base.reset_segment
  rw [if_pos hl]
  simp only [memset]
  constructor <;> split_ifs <;> first | rfl | omega

theorem reset_segments_eq (st : storage_model_base) :
    st.reset_segments = reset_segment (reset_segment (reset_segment st 2) 3) 4 := by
  simp [storage_model_base.reset_segments, segment_indices_eq]

/-- C23. Registry `reset_segments()` zero-fills and keeps the allocation status: in every
registry state, after the call, for every live segment `id` of
`[first_segment_index, last_segment_index]` every byte of the primary and of the shadow buffer
at an offset in `[0, segment_size(id))` is zero, and for every `id` the primary pointer, the
shadow pointer and `segment_size(id)`, and the ready flag, are the same as before the call. -/
theorem reset_segments_zero_fills (st : storage_model_base) :
    (∀ id, first_segment_index ≤ id ∧ id ≤ last_segment_index → st.segment_address id ≠ 0 →
      ∀ o, o < st.segment_size id →
        st.reset_segments.memory (st.reset_segments.segment_address id + o) = 0 ∧
        st.reset_segments.memory (st.reset_segments.sm_shadow_ptrs id + o) = 0) ∧
    (∀ id, st.reset_segments.segment_address id = st.segment_address id ∧
      st.reset_segments.sm_shadow_ptrs id = st.sm_shadow_ptrs id ∧
      st.reset_segments.segment_size id = st.segment_size id) ∧
    st.reset_segments.sm_ready = st.sm_ready := by
  have t2 := reset_segment_tables st 2
  have t3 := reset_segment_tables (reset_segment st 2) 3
  have t4 := reset_segment_tables (reset_segment (reset_segment st 2) 3) 4
  have hp : st.reset_segments.sm_segment_ptrs = st.sm_segment_ptrs := by
    rw [reset_segments_eq, t4.1, t3.1, t2.1]
  have hs : st.reset_segments.sm_shadow_ptrs = st.sm_shadow_ptrs := by
    rw [reset_segments_eq, t4.2.1, t3.2.1, t2.2.1]
  have hz : st.reset_segments.sm_segment_size = st.sm_segment_size := by
    rw [reset_segments_eq, t4.2.2.1, t3.2.2.1, t2.2.2.1]
  have hr : st.reset_segments.sm_ready = st.sm_ready := by
    rw [reset_segments_eq, t4.2.2.2, t3.2.2.2, t2.2.2.2]
  refine ⟨?_, fun id => ?_, hr⟩
  swap
  · simp only [storage_model_base.segment_address, storage_model_base.segment_size, hp, hs, hz,
      and_self]
  simp only [storage_model_base.segment_address, storage_model_base.segment_size, hp, hs]
  intro id hid hl o ho
  simp only [first_segment_index, last_segment_index, max_segments] at hid
  have hcases : id = 2 ∨ id = 3 ∨ id = 4 := by omega
  rw [reset_segments_eq]
  rcases hcases with e | e | e <;> subst e
  · have h := reset_segment_fills st 2 o hl ho
    exact ⟨reset_segment_zero _ 4 _ (reset_segment_zero _ 3 _ h.1),
      reset_segment_zero _ 4 _ (reset_segment_zero _ 3 _ h.2)⟩
  · have h := reset_segment_fills (reset_segment st 2) 3 o (by rw [t2.1]; exact hl)
      (by rw [t2.2.2.1]; exact ho)
    rw [t2.1, t2.2.1] at h
    exact ⟨reset_segment_zero _ 4 _ h.1, reset_segment_zero _ 4 _ h.2⟩
  · have h := reset_segment_fills (reset_segment (reset_segment st 2) 3) 4 o
      (by rw [t3.1, t2.1]; exact hl) (by rw [t3.2.2.1, t2.2.2.1]; exact ho)
    rw [t3.1, t2.1, t3.2.1, t2.2.1] at h
    exact h

theorem reset_segments_zero_fills_witness :
    ({ example_registry with memory := fun _ => 7 } : storage_model_base).memory 8200 = 7 ∧
      ({ example_registry with memory := fun _ => 7 } : storage_model_base).reset_segments.memory
        (8192 + 8) = 0 ∧
      ({ example_registry with memory := fun _ => 7 } : storage_model_base).reset_segments.memory
        (4096 + 8) = 0 :=
  have h := (reset_segments_zero_fills { example_registry with memory := fun _ => 7 }).1 2
    (by decide) (by decide) 8 (by decide)
  ⟨rfl, h.1, h.2⟩


/-! ### `reset_segments` of the allocation strategy -/

theorem allocate_chunk_at_start (st st0 : storage_model_base) (fresh fresh0 : Nat → Nat × Nat)
    (s : monotonic_allocation_strategy) (n : Nat)
    (h1 : s.sm_curr_segment = first_segment_index) (h2 : s.sm_curr_offset = 64) :
    (monotonic_allocation_strategy.allocate_chunk st fresh s n).2
      = (monotonic_allocation_strategy.allocate_chunk st0 fresh0
          monotonic_allocation_strategy.initial n).2 := by
  obtain ⟨seg, off, ini⟩ := s
  simp only at h1 h2
  subst h1 h2
  rw [allocate_chunk_cursor st, allocate_chunk_cursor st0]
  cases ini
  · simp only [monotonic_allocation_strategy.allocate_chunk,
      monotonic_allocation_strategy.initial, Bool.not_false, if_true]
  · simp only [monotonic_allocation_strategy.allocate_chunk,
      monotonic_allocation_strategy.initial, Bool.not_false, Bool.not_true, Bool.false_eq_true,
      if_true, if_false]
    split_ifs <;> rfl

/-- C24. Strategy reset: after `monotonic_allocation_strategy::reset_segments()` the cursor is
at `(first_segment_index, 64)`; for every request size `n`, the next `allocate(n)` hands to
`segment_pointer` the same `(segment, offset)` pair, and leaves the same cursor, as the first
`allocate(n)` on a fresh strategy, whatever the two registry states are; the `based_2d_msk` and
the `based_2d_xl` handles returned by the two calls are equal, with the same `segment()` and
`offset()`. -/
theorem reset_segments_restarts_cursor (st st0 : storage_model_base)
    (fresh fresh0 : Nat → Nat × Nat) (s : monotonic_allocation_strategy) (n tmp ret : Nat) :
    (monotonic_allocation_strategy.reset_segments st s).2.sm_curr_segment
      = first_segment_index ∧
    (monotonic_allocation_strategy.reset_segments st s).2.sm_curr_offset = 64 ∧
    (monotonic_allocation_strategy.allocate_chunk
        (monotonic_allocation_strategy.reset_segments st s).1 fresh
        (monotonic_allocation_strategy.reset_segments st s).2 n).2
      = (monotonic_allocation_strategy.allocate_chunk st0 fresh0
          monotonic_allocation_strategy.initial n).2 ∧
    ((monotonic_allocation_strategy.allocate
        (monotonic_allocation_strategy.reset_segments st s).1 fresh
        (monotonic_allocation_strategy.reset_segments st s).2 n tmp ret).2.2
      = ((monotonic_allocation_strategy.allocate st0 fresh0
          monotonic_allocation_strategy.initial n tmp ret).2.2 :
            syn_ptr based_2d_msk_addressing_model)) ∧
    ((monotonic_allocation_strategy.allocate
        (monotonic_allocation_strategy.reset_segments st s).1 fresh
        (monotonic_allocation_strategy.reset_segments st s).2 n tmp ret).2.2
      = ((monotonic_allocation_strategy.allocate st0 fresh0
          monotonic_allocation_strategy.initial n tmp ret).2.2 :
            syn_ptr based_2d_xl_addressing_model)) := by
  have h := allocate_chunk_at_start (monotonic_allocation_strategy.reset_segments st s).1 st0
    fresh fresh0 (monotonic_allocation_strategy.reset_segments st s).2 n rfl rfl
  refine ⟨rfl, rfl, h, ?_, ?_⟩
  · simp only [allocate_handle, of_model_msk, segment_pointer_msk, h]
  · simp only [allocate_handle, of_model_xl, segment_pointer_xl, h]


/-! ### The cursor of the allocation strategy -/

/-- C25, as the claim states it, fails: the first `allocate(0)` on a fresh strategy leaves
the cursor at `(2, 64)`; `allocate(2 ^ 64 - 48)` then computes the chunk size `2 ^ 64 - 48`, the
sum `64 + (2 ^ 64 - 48)` wraps to `16`, which is not above `max_segment_size()`, and the cursor
is left at `(2, 16)`: same segment, offset moved backwards from `64` to `16`. -/
theorem allocate_cursor_counterexample :
    (monotonic_allocation_strategy.allocate_chunk example_registry (fun _ => (0, 0))
        monotonic_allocation_strategy.initial 0).2.1 = ⟨2, 64, true⟩ ∧
      to_size_t (monotonic_allocation_strategy.round_up (to_ptrdiff_t 18446744073709551568) 16)
        = 18446744073709551568 ∧
      (monotonic_allocation_strategy.allocate_chunk example_registry (fun _ => (0, 0))
        ⟨2, 64, true⟩ 18446744073709551568).2.1 = ⟨2, 16, true⟩ ∧
      (monotonic_allocation_strategy.allocate_chunk example_registry (fun _ => (0, 0))
        ⟨2, 64, true⟩ 18446744073709551568).2.2 = (2, 64) := by
  decide

/-- C25, amended. For every cursor state of an initialized strategy and every request size
`n`, with `c = round_up(n, 16)` as a `size_type`, `allocate(n)` either keeps the current segment
id and adds `c` to the cursor offset, or increases the segment id by one and sets the cursor
offset to `64 + c` (in `size_type` arithmetic). In the first case the cursor offset does not
decrease exactly when the sum of the cursor offset and `c` does not wrap around `2 ^ 64`; so for
every `n` for which that sum does not wrap, the cursor offset does not move backwards within a
segment. -/
theorem allocate_cursor_step (st : storage_model_base) (fresh : Nat → Nat × Nat)
    (s : monotonic_allocation_strategy) (n : Nat) (hinit : s.sm_initialized = true) :
    (((monotonic_allocation_strategy.allocate_chunk st fresh s n).2.1.sm_curr_segment
          = s.sm_curr_segment ∧
        (monotonic_allocation_strategy.allocate_chunk st fresh s n).2.1.sm_curr_offset
          = (s.sm_curr_offset
              + to_size_t (monotonic_allocation_strategy.round_up (to_ptrdiff_t n) 16)) % 2 ^ 64 ∧
        (s.sm_curr_offset
            ≤ (monotonic_allocation_strategy.allocate_chunk st fresh s n).2.1.sm_curr_offset ↔
          s.sm_curr_offset
            + to_size_t (monotonic_allocation_strategy.round_up (to_ptrdiff_t n) 16) < 2 ^ 64)) ∨
      ((monotonic_allocation_strategy.allocate_chunk st fresh s n).2.1.sm_curr_segment
          = (s.sm_curr_segment + 1) % 2 ^ 64 ∧
        (monotonic_allocation_strategy.allocate_chunk st fresh s n).2.1.sm_curr_offset
          = (64 + to_size_t (monotonic_allocation_strategy.round_up (to_ptrdiff_t n) 16))
              % 2 ^ 64)) ∧
    (s.sm_curr_offset
        + to_size_t (monotonic_allocation_strategy.round_up (to_ptrdiff_t n) 16) < 2 ^ 64 →
      ((monotonic_allocation_strategy.allocate_chunk st fresh s n).2.1.sm_curr_segment
          = s.sm_curr_segment ∧
        s.sm_curr_offset
          ≤ (monotonic_allocation_strategy.allocate_chunk st fresh s n).2.1.sm_curr_offset) ∨
      ((monotonic_allocation_strategy.allocate_chunk st fresh s n).2.1.sm_curr_segment
          = (s.sm_curr_segment + 1) % 2 ^ 64 ∧
        (monotonic_allocation_strategy.allocate_chunk st fresh s n).2.1.sm_curr_offset
          = (64 + to_size_t (monotonic_allocation_strategy.round_up (to_ptrdiff_t n) 16))
              % 2 ^ 64)) := by
  have hc := to_size_t_lt (monotonic_allocation_strategy.round_up (to_ptrdiff_t n) 16)
  obtain ⟨seg, off, ini⟩ := s
  simp only at hinit
  subst hinit
  simp only [monotonic_allocation_strategy.allocate_chunk, Bool.not_true, Bool.false_eq_true,
    if_false]
  generalize to_size_t (monotonic_allocation_strategy.round_up (to_ptrdiff_t n) 16) = c at hc ⊢
  split_ifs with h
  · exact ⟨Or.inr ⟨rfl, rfl⟩, fun _ => Or.inr ⟨rfl, rfl⟩⟩
  · refine ⟨Or.inl ⟨rfl, rfl, ?_⟩, fun hw => Or.inl ⟨rfl, ?_⟩⟩
    · dsimp only
      omega
    · dsimp only
      omega

theorem allocate_cursor_step_witness :
    (monotonic_allocation_strategy.allocate_chunk example_registry (fun _ => (0, 0))
        ⟨2, 176, true⟩ 100).2.1.sm_curr_segment = 2 ∧
      176 ≤ (monotonic_allocation_strategy.allocate_chunk example_registry (fun _ => (0, 0))
        ⟨2, 176, true⟩ 100).2.1.sm_curr_offset :=
  have h := (allocate_cursor_step example_registry (fun _ => (0, 0)) ⟨2, 176, true⟩ 100 rfl).2
    (by decide)
  h.elim (fun h1 => h1) (fun h2 => absurd h2.1 (by decide))


/-! ### A constructor that fails in `allocate<T, HT>` -/

/-- C26, as the claim states it, fails: in the example registry, with the cursor at `(2, 64)`
and `sizeof(T) == 8`, `allocate<T, HT>` with a constructor that throws propagates the failure
and leaves the cursor at `(2, 80)`, where the allocation of the chunk put it, not back at
`(2, 64)`. -/
theorem failed_construction_counterexample :
    (@allocate based_2d_msk_addressing_model _ 8 (fun mem _ => (mem, false)) example_registry
        (fun _ => (0, 0)) ⟨2, 64, true⟩ 16 32 48 64 80).2.2 = none ∧
      (@allocate based_2d_msk_addressing_model _ 8 (fun mem _ => (mem, false)) example_registry
        (fun _ => (0, 0)) ⟨2, 64, true⟩ 16 32 48 64 80).2.1 = ⟨2, 80, true⟩ ∧
      (@allocate based_2d_msk_addressing_model _ 8 (fun mem _ => (mem, false)) example_registry
        (fun _ => (0, 0)) ⟨2, 64, true⟩ 16 32 48 64 80).2.1
        ≠ (⟨2, 64, true⟩ : monotonic_allocation_strategy) := by
  decide

/-- C26, amended. When `allocate<T, HT>(args...)` has obtained a chunk and the constructor of
`T` then fails, the function calls `deallocate` on the handle of the chunk and propagates the
failure, returning no handle. `deallocate` of the allocation strategy does nothing: the cursor
is left where the allocation of the chunk put it, and the chunk is not made available again. -/
theorem failed_construction_keeps_cursor {AM : Type} [addressing_model AM] (E : Nat)
    (construct : (Nat → Nat) → Nat → (Nat → Nat) × Bool) (st : storage_model_base)
    (fresh : Nat → Nat × Nat) (s : monotonic_allocation_strategy) (tmp ret prm cst dst : Nat)
    (hfail : (construct (@rhx_allocator.allocate AM _ E st fresh s 1 tmp ret prm cst dst).1.memory
      (syn_ptr.to_native (@rhx_allocator.allocate AM _ E st fresh s 1 tmp ret prm cst dst).1
        (@rhx_allocator.allocate AM _ E st fresh s 1 tmp ret prm cst dst).2.2)).2 = false) :
    (@allocate AM _ E construct st fresh s tmp ret prm cst dst).2.2 = none ∧
      (@allocate AM _ E construct st fresh s tmp ret prm cst dst).2.1
        = rhx_allocator.deallocate
          (@rhx_allocator.allocate AM _ E st fresh s 1 tmp ret prm cst dst).2.1
          (@rhx_allocator.allocate AM _ E st fresh s 1 tmp ret prm cst dst).2.2 ∧
      (@allocate AM _ E construct st fresh s tmp ret prm cst dst).2.1
        = (monotonic_allocation_strategy.allocate_chunk st fresh s (1 * E % 2 ^ 64)).2.1 ∧
      (∀ (c : monotonic_allocation_strategy) (p : syn_ptr AM),
        rhx_allocator.deallocate c p = c) := by
  refine ⟨?_, ?_, ?_, fun _ _ => rfl⟩
  · simp only [allocate, hfail, Bool.false_eq_true, if_false]
  · simp only [allocate, hfail, Bool.false_eq_true, if_false]
  · simp only [allocate, hfail, Bool.false_eq_true, if_false]
    rfl

theorem failed_construction_keeps_cursor_witness :
    (@allocate based_2d_xl_addressing_model _ 8 (fun mem _ => (mem, false)) example_registry
        (fun _ => (0, 0)) ⟨2, 64, true⟩ 16 32 48 64 80).2.2 = none ∧
      (@allocate based_2d_xl_addressing_model _ 8 (fun mem _ => (mem, false)) example_registry
        (fun _ => (0, 0)) ⟨2, 64, true⟩ 16 32 48 64 80).2.1
        = (monotonic_allocation_strategy.allocate_chunk example_registry (fun _ => (0, 0))
            ⟨2, 64, true⟩ (1 * 8 % 2 ^ 64)).2.1 :=
  have h := @failed_construction_keeps_cursor based_2d_xl_addressing_model _ 8
    (fun mem _ => (mem, false)) example_registry (fun _ => (0, 0)) ⟨2, 64, true⟩ 16 32 48 64 80
    rfl
  ⟨h.1, h.2.2.1⟩


/-! ### Copies of an `offset_addressing_model` -/

theorem offset_copy_ctor_collision (b : Nat) (x : offset_addressing_model)
    (hn : x.m_offset ≠ offset_addressing_model.null_offset)
    (h : x.address = offset_addressing_model.reserved b) :
    (offset_addressing_model.copy_ctor b x).m_offset = offset_addressing_model.null_offset := by
  have h1 := wrap_ptrdiff_spec ((x.self : Int) - (b : Int))
  have h2 := wrap_ptrdiff_spec (wrap_ptrdiff ((x.self : Int) - (b : Int)) + x.m_offset)
  simp only [offset_addressing_model.address, offset_addressing_model.copy_ctor,
    offset_addressing_model.offset_to, offset_addressing_model.offset_between,
    offset_addressing_model.reserved, offset_addressing_model.null_offset, to_size_t] at h hn ⊢
  rw [if_neg hn] at h ⊢
  omega

/-- C27, as the claim states it, fails: the handle `x` stored at address `48` that designates
address `17` is not null; its copy constructed at address `16`, and the handle at `16` to
which it is assigned, hold the offset `1`, the encoding of null: `address()` is null, not
`17`. -/
theorem offset_copy_counterexample :
    (⟨48, -31⟩ : offset_addressing_model).address = 17 ∧
      (⟨48, -31⟩ : offset_addressing_model).equals_null = false ∧
      (offset_addressing_model.copy_ctor 16 ⟨48, -31⟩).address = 0 ∧
      (offset_addressing_model.copy_ctor 16 ⟨48, -31⟩).equals_null = true ∧
      (offset_addressing_model.assign ⟨16, 5⟩ ⟨48, -31⟩).address = 0 ∧
      (offset_addressing_model.assign ⟨16, 5⟩ ⟨48, -31⟩).equals_null = true := by
  decide

/-- C27, amended. For every `offset_addressing_model` `x` and every storage location `b`, the
handle `y` at `b` that is copy-constructed or move-constructed from `x`, or to which `x` is
assigned, is null when `x` is null; when `x` is not null, `y.address() == x.address()` and `y`
is not null exactly when the address of `x` is not the address at distance `null_offset` (one
byte) from `b`; for that one address `y` is null. -/
theorem offset_copy_preserves_target (x : offset_addressing_model) (b : Nat) (m : Int) :
    offset_addressing_model.assign ⟨b, m⟩ x = offset_addressing_model.copy_ctor b x ∧
    (x.equals_null = true →
      (offset_addressing_model.copy_ctor b x).equals_null = true ∧
      (offset_addressing_model.copy_ctor b x).address = x.address) ∧
    (x.equals_null = false →
      (((offset_addressing_model.copy_ctor b x).address = x.address ∧
        (offset_addressing_model.copy_ctor b x).equals_null = false) ↔
        x.address ≠ offset_addressing_model.reserved b)) ∧
    (x.equals_null = false → x.address = offset_addressing_model.reserved b →
      (offset_addressing_model.copy_ctor b x).equals_null = true ∧
      (offset_addressing_model.copy_ctor b x).address = 0) := by
  refine ⟨rfl, fun hx => ?_, fun hx => ?_, fun hx hc => ?_⟩
  · simp only [offset_addressing_model.equals_null, beq_iff_eq] at hx
    simp only [offset_addressing_model.equals_null, offset_addressing_model.address,
      offset_addressing_model.copy_ctor, offset_addressing_model.offset_to, hx, if_true,
      beq_self_eq_true, and_self]
  · simp only [offset_addressing_model.equals_null, beq_eq_false_iff_ne, ne_eq] at hx ⊢
    constructor
    · rintro ⟨_, hy⟩ hc
      exact hy (offset_copy_ctor_collision b x hx hc)
    · intro hc
      exact ⟨offset_copy_ctor_address b x hc,
        fun hy => hx ((offset_copy_ctor_null_iff b x hc).mp hy)⟩
  · simp only [offset_addressing_model.equals_null, beq_eq_false_iff_ne, ne_eq] at hx
    have hy := offset_copy_ctor_collision b x hx hc
    simp only [offset_addressing_model.equals_null, offset_addressing_model.address, hy,
      beq_self_eq_true, if_true, and_self]

theorem offset_copy_preserves_target_witness :
    (offset_addressing_model.copy_ctor 16 ⟨48, 8208⟩).address = 8256 ∧
      (offset_addressing_model.copy_ctor 16 ⟨48, 8208⟩).equals_null = false ∧
      (offset_addressing_model.assign ⟨16, 5⟩ ⟨48, 8208⟩).address = 8256 :=
  have h := offset_copy_preserves_target ⟨48, 8208⟩ 16 5
  have h2 := (h.2.2.1 (by decide)).mpr (by decide)
  ⟨h2.1.trans (by decide), h2.2, (congrArg offset_addressing_model.address h.1).trans
    (h2.1.trans (by decide))⟩


/-! ### Self-relative handles in a block that is copied byte for byte -/

theorem load_bytes_memcpy (mem : Nat → Nat) (src dst n p k : Nat) (h1 : src ≤ p)
    (h2 : p + k ≤ src + n) :
    load_bytes (memcpy mem dst src n) (dst + (p - src)) k = load_bytes mem p k := by
  unfold load_bytes
  apply List.map_congr_left
  intro j hj
  rw [List.mem_range] at hj
  rw [memcpy_inside _ _ _ _ _ (by omega)]
  congr 1
  omega

theorem offset_address_displaced (a : Nat) (m d : Int)
    (hm : m ≠ offset_addressing_model.null_offset) :
    (⟨ptr_add_diff a d, m⟩ : offset_addressing_model).address
      = ptr_add_diff (⟨a, m⟩ : offset_addressing_model).address d := by
  simp only [offset_addressing_model.address, if_neg hm, ptr_add_diff, to_size_t]
  omega

/-- C28. Self-relative handles survive a bitwise move of their block. If an
`offset_addressing_model` stored at location `a` designates `p`, the handle with the same
offset stored at `a + d` designates `p + d`, for every displacement `d` (in 64-bit pointer
arithmetic), and a null handle stays null. Hence, when a block `[src, src + n)` is copied with
`memcpy` to `dst`, a handle stored in the block at `a` is found at `dst + (a - src)` with the
same offset; it is null if the original is, and otherwise, when the `k` bytes of its target
lie in the block, it designates the corresponding address `dst + (p - src)` inside the copy,
where the same `k` bytes are read. -/
theorem offset_handle_survives_memcpy (decode : List Nat → Int) (mem : Nat → Nat)
    (src dst n a : Nat) (ha : src ≤ a ∧ a + 8 ≤ src + n) (hdst : dst + n < 2 ^ 64) :
    (∀ (b : Nat) (m d : Int), m ≠ offset_addressing_model.null_offset →
      (⟨ptr_add_diff b d, m⟩ : offset_addressing_model).address
        = ptr_add_diff (⟨b, m⟩ : offset_addressing_model).address d) ∧
    (∀ b c : Nat, (⟨b, offset_addressing_model.null_offset⟩ : offset_addressing_model).address
        = 0 ∧
      (⟨c, offset_addressing_model.null_offset⟩ : offset_addressing_model).equals_null
        = true) ∧
    (offset_addressing_model.load decode (memcpy mem dst src n) (dst + (a - src))).m_offset
      = (offset_addressing_model.load decode mem a).m_offset ∧
    ((offset_addressing_model.load decode mem a).equals_null = true →
      (offset_addressing_model.load decode (memcpy mem dst src n) (dst + (a - src))).equals_null
        = true ∧
      (offset_addressing_model.load decode (memcpy mem dst src n) (dst + (a - src))).address
        = 0) ∧
    (∀ k, (offset_addressing_model.load decode mem a).equals_null = false →
      src ≤ (offset_addressing_model.load decode mem a).address →
      (offset_addressing_model.load decode mem a).address + k ≤ src + n →
      (offset_addressing_model.load decode (memcpy mem dst src n) (dst + (a - src))).address
        = dst + ((offset_addressing_model.load decode mem a).address - src) ∧
      load_bytes (memcpy mem dst src n)
          (offset_addressing_model.load decode (memcpy mem dst src n) (dst + (a - src))).address
          k
        = load_bytes mem (offset_addressing_model.load decode mem a).address k) := by
  have hload : offset_addressing_model.load decode (memcpy mem dst src n) (dst + (a - src))
      = ⟨dst + (a - src), (offset_addressing_model.load decode mem a).m_offset⟩ := by
    simp only [offset_addressing_model.load, load_bytes_memcpy mem src dst n a 8 ha.1 ha.2]
  refine ⟨offset_address_displaced, fun b c => ⟨?_, ?_⟩, ?_, fun hnull => ?_, fun k hn h1 h2 => ?_⟩
  · simp only [offset_addressing_model.address, if_true]
  · simp only [offset_addressing_model.equals_null, beq_self_eq_true]
  · rw [hload]
  · rw [hload]
    simp only [offset_addressing_model.equals_null, beq_iff_eq] at hnull ⊢
    simp only [offset_addressing_model.address, hnull, if_true, and_self]
  · have hm : (offset_addressing_model.load decode mem a).m_offset
        ≠ offset_addressing_model.null_offset := by
      simpa [offset_addressing_model.equals_null] using hn
    have haddr : (offset_addressing_model.load decode (memcpy mem dst src n)
        (dst + (a - src))).address
        = dst + ((offset_addressing_model.load decode mem a).address - src) := by
      rw [hload]
      have hself : (offset_addressing_model.load decode mem a).self = a := rfl
      simp only [offset_addressing_model.address, if_neg hm, hself, to_size_t] at h1 h2 ⊢
      omega
    rw [haddr]
    exact ⟨rfl, load_bytes_memcpy mem src dst n _ k h1 h2⟩


theorem offset_handle_survives_memcpy_witness :
    (offset_addressing_model.load (fun l => ((l.getD 0 0 : Nat) : Int))
        (fun x => if x = 96 then 16 else 5) 96).address = 112 ∧
      (offset_addressing_model.load (fun l => ((l.getD 0 0 : Nat) : Int))
        (memcpy (fun x => if x = 96 then 16 else 5) 1000 96 64) (1000 + (96 - 96))).address
        = 1016 ∧
      load_bytes (memcpy (fun x => if x = 96 then 16 else 5) 1000 96 64)
        (offset_addressing_model.load (fun l => ((l.getD 0 0 : Nat) : Int))
          (memcpy (fun x => if x = 96 then 16 else 5) 1000 96 64) (1000 + (96 - 96))).address 4
        = load_bytes (fun x => if x = 96 then 16 else 5)
          (offset_addressing_model.load (fun l => ((l.getD 0 0 : Nat) : Int))
            (fun x => if x = 96 then 16 else 5) 96).address 4 :=
  have h := (offset_handle_survives_memcpy (fun l => ((l.getD 0 0 : Nat) : Int))
    (fun x => if x = 96 then 16 else 5) 96 1000 64 96 (by decide) (by decide)).2.2.2.2 4
    (by decide) (by decide) (by decide)
  ⟨by decide, h.1.trans (by decide), h.2⟩


/-! ### Comparisons with null -/

/-- C29, as the claim states it, fails: in the example registry segment `3` has no buffer, so
the `based_2d_msk` handle `(3, 0)` has a null `address()`, while its word is not `0`:
`equals(nullptr)` is `false` and `greater_than(nullptr)` is `false` too. The offset handle
stored at `16` with offset `-16` designates address zero: its `address()` is null and neither
`equals(nullptr)` nor `greater_than(nullptr)` holds. -/
theorem null_comparison_counterexample :
    based_2d_msk_addressing_model.address example_registry
        (based_2d_msk_addressing_model.ctor 3 0) = 0 ∧
      (based_2d_msk_addressing_model.ctor 3 0).equals_null = false ∧
      based_2d_msk_addressing_model.greater_than_null example_registry
        (based_2d_msk_addressing_model.ctor 3 0) = false ∧
      (⟨16, -16⟩ : offset_addressing_model).address = 0 ∧
      (⟨16, -16⟩ : offset_addressing_model).equals_null = false ∧
      (⟨16, -16⟩ : offset_addressing_model).greater_than_null = false := by
  decide

/-- C29, amended. In every reachable registry state, `less_than(nullptr)` is `false` and
`greater_than(nullptr)` holds exactly when `address()` is not null, in each of the four models.
For every handle of the wrapper and of the `based_2d_xl` model, `equals(nullptr)` holds exactly
when `address()` is null, and exactly one of `equals(nullptr)` and `greater_than(nullptr)`
holds. In the `based_2d_msk` and the offset model `equals(nullptr)` tests the stored encoding
(`m_addr == 0`, `m_offset == null_offset`): it implies that `address()` is null, and the
converse, and with it that exactly one of the two comparisons holds, is true of every handle
whose `address()` is not null or whose encoding is the null one. -/
theorem null_comparison (st : storage_model_base) (hst : reachable st)
    (w : wrapper_addressing_model) (x : based_2d_xl_addressing_model)
    (m : based_2d_msk_addressing_model) (f : offset_addressing_model) :
    ((w.equals_null = true ↔ w.address = 0) ∧ w.less_than_null = false ∧
      (w.greater_than_null = true ↔ w.address ≠ 0) ∧
      w.equals_null = !w.greater_than_null) ∧
    ((x.equals_null st = true ↔ x.address st = 0) ∧ x.less_than_null = false ∧
      (x.greater_than_null st = true ↔ x.address st ≠ 0) ∧
      x.equals_null st = !x.greater_than_null st) ∧
    (m.less_than_null = false ∧ (m.greater_than_null st = true ↔ m.address st ≠ 0) ∧
      (m.equals_null = true ↔ m.m_addr = 0) ∧
      (m.equals_null = true → m.address st = 0) ∧
      (m.address st ≠ 0 ∨ m.m_addr = 0 →
        (m.equals_null = true ↔ m.address st = 0) ∧
        m.equals_null = !m.greater_than_null st)) ∧
    (f.less_than_null = false ∧ (f.greater_than_null = true ↔ f.address ≠ 0) ∧
      (f.equals_null = true ↔ f.m_offset = offset_addressing_model.null_offset) ∧
      (f.equals_null = true → f.address = 0) ∧
      (f.address ≠ 0 ∨ f.m_offset = offset_addressing_model.null_offset →
        (f.equals_null = true ↔ f.address = 0) ∧
        f.equals_null = !f.greater_than_null)) := by
  have h0 := ((reachable_invariant st hst).outside 0 (Or.inl (by decide))).1
  have hm : m.equals_null = true → m.address st = 0 := by
    intro h
    simp only [based_2d_msk_addressing_model.equals_null, beq_iff_eq] at h
    simp only [based_2d_msk_addressing_model.address, based_2d_msk_addressing_model.m_segment,
      storage_model_base.segment_address, h, and_offset_mask, ptr_add]
    simp [h0]
  have hf : f.equals_null = true → f.address = 0 := by
    intro h
    simp only [offset_addressing_model.equals_null, beq_iff_eq] at h
    simp only [offset_addressing_model.address, h, if_true]
  refine ⟨⟨?_, rfl, ?_, ?_⟩, ⟨?_, rfl, ?_, ?_⟩, ⟨rfl, ?_, ?_, hm, ?_⟩, ⟨rfl, ?_, ?_, hf, ?_⟩⟩
  · simp [wrapper_addressing_model.equals_null, wrapper_addressing_model.address]
  · simp [wrapper_addressing_model.greater_than_null, wrapper_addressing_model.address]
  · simp only [wrapper_addressing_model.equals_null, wrapper_addressing_model.greater_than_null]
    cases hc : (w.m_addr == 0) <;> simp [bne, hc]
  · simp [based_2d_xl_addressing_model.equals_null]
  · simp [based_2d_xl_addressing_model.greater_than_null]
  · simp only [based_2d_xl_addressing_model.equals_null,
      based_2d_xl_addressing_model.greater_than_null]
    cases hc : (x.address st == 0) <;> simp [bne, hc]
  · simp [based_2d_msk_addressing_model.greater_than_null]
  · simp [based_2d_msk_addressing_model.equals_null]
  · intro h
    have hiff : m.equals_null = true ↔ m.address st = 0 := by
      constructor
      · exact hm
      · intro ha
        rcases h with h | h
        · exact absurd ha h
        · simp [based_2d_msk_addressing_model.equals_null, h]
    refine ⟨hiff, ?_⟩
    simp only [based_2d_msk_addressing_model.greater_than_null]
    cases hc : (m.address st == 0)
    · have hne : ¬ m.address st = 0 := by simpa using hc
      have he : m.equals_null = false := by
        cases he : m.equals_null
        · rfl
        · exact absurd (hiff.mp he) hne
      simp [bne, hc, he]
    · have ha : m.address st = 0 := by simpa using hc
      simp [bne, hc, hiff.mpr ha]
  · simp [offset_addressing_model.greater_than_null]
  · simp [offset_addressing_model.equals_null]
  · intro h
    have hiff : f.equals_null = true ↔ f.address = 0 := by
      constructor
      · exact hf
      · intro ha
        rcases h with h | h
        · exact absurd ha h
        · simp [offset_addressing_model.equals_null, h]
    refine ⟨hiff, ?_⟩
    simp only [offset_addressing_model.greater_than_null]
    cases hc : (f.address == 0)
    · have hne : ¬ f.address = 0 := by simpa using hc
      have he : f.equals_null = false := by
        cases he : f.equals_null
        · rfl
        · exact absurd (hiff.mp he) hne
      simp [bne, hc, he]
    · have ha : f.address = 0 := by simpa using hc
      simp [bne, hc, hiff.mpr ha]

theorem null_comparison_witness :
    reachable example_registry ∧
      ((based_2d_msk_addressing_model.ctor 2 64).equals_null = true ↔
        based_2d_msk_addressing_model.address example_registry
          (based_2d_msk_addressing_model.ctor 2 64) = 0) ∧
      (based_2d_msk_addressing_model.ctor 2 64).equals_null
        = !based_2d_msk_addressing_model.greater_than_null example_registry
            (based_2d_msk_addressing_model.ctor 2 64) :=
  have h := (null_comparison example_registry example_registry_reachable ⟨8256⟩
    (based_2d_xl_addressing_model.ctor 2 64) (based_2d_msk_addressing_model.ctor 2 64)
    ⟨48, 8208⟩).2.2.1.2.2.2.2 (Or.inl (by decide))
  ⟨example_registry_reachable, h.1, h.2⟩


/-! ### Requests beyond the last segment -/

theorem allocate_chunks_cursor (fresh fresh0 : Nat → Nat × Nat) (ns : List Nat) :
    ∀ (st st0 : storage_model_base) (s : monotonic_allocation_strategy),
      (monotonic_allocation_strategy.allocate_chunks fresh st s ns).2
        = (monotonic_allocation_strategy.allocate_chunks fresh0 st0 s ns).2 := by
  induction ns with
  | nil => intro st st0 s; rfl
  | cons n rest ih =>
    intro st st0 s
    have h : (monotonic_allocation_strategy.allocate_chunk st fresh s n).2
        = (monotonic_allocation_strategy.allocate_chunk st0 fresh0 s n).2 := by
      rw [allocate_chunk_cursor st, allocate_chunk_cursor st0]
    simp only [monotonic_allocation_strategy.allocate_chunks]
    rw [ih (monotonic_allocation_strategy.allocate_chunk st fresh s n).1
      (monotonic_allocation_strategy.allocate_chunk st0 fresh0 s n).1, h]

/-- C30. The strategy runs off the end of the segment table: whatever the registry state and
the addresses returned by `new`, three requests of `max_segment_size()` bytes on a fresh
strategy hand the pairs `(3, 64)`, `(4, 64)` and `(5, 64)` to `segment_pointer` and leave the
cursor in segment `5`, which is greater than `last_segment_index()` and is not a slot of the
segment table; a fourth request hands `(6, 64)` to `segment_pointer`. No call reports a
failure: the `based_2d_msk` and the `based_2d_xl` handle returned by `allocate` for a cursor in
segment `4` have `segment() == 5`. -/
theorem allocate_runs_off_the_table (st : storage_model_base) (fresh : Nat → Nat × Nat)
    (tmp ret : Nat) :
    (monotonic_allocation_strategy.allocate_chunks fresh st
        monotonic_allocation_strategy.initial
        [max_segment_size, max_segment_size, max_segment_size]).2
      = (⟨5, 64 + max_segment_size, true⟩, [(3, 64), (4, 64), (5, 64)]) ∧
    last_segment_index < 5 ∧ table_slots ≤ 5 ∧
    (monotonic_allocation_strategy.allocate_chunks fresh st
        monotonic_allocation_strategy.initial
        [max_segment_size, max_segment_size, max_segment_size, max_segment_size]).2
      = (⟨6, 64 + max_segment_size, true⟩, [(3, 64), (4, 64), (5, 64), (6, 64)]) ∧
    ((monotonic_allocation_strategy.allocate st fresh ⟨4, 64 + max_segment_size, true⟩
        max_segment_size tmp ret).2.2 : syn_ptr based_2d_msk_addressing_model).m_addrmodel.segment
      = 5 ∧
    ((monotonic_allocation_strategy.allocate st fresh ⟨4, 64 + max_segment_size, true⟩
        max_segment_size tmp ret).2.2 : syn_ptr based_2d_xl_addressing_model).m_addrmodel.segment
      = 5 := by
  have h : (monotonic_allocation_strategy.allocate_chunk st fresh
      ⟨4, 64 + max_segment_size, true⟩ max_segment_size).2
      = (⟨5, 64 + max_segment_size, true⟩, 5, 64) := by
    rw [allocate_chunk_cursor]
    decide
  refine ⟨?_, by decide, by decide, ?_, ?_, ?_⟩
  · rw [allocate_chunks_cursor fresh (fun _ => (0, 0)) _ st
      (storage_model_base.initial (fun _ => 0))]
    decide
  · rw [allocate_chunks_cursor fresh (fun _ => (0, 0)) _ st
      (storage_model_base.initial (fun _ => 0))]
    decide
  · simp only [allocate_handle, of_model_msk, segment_pointer_msk, h]
    decide
  · simp only [allocate_handle, of_model_xl, segment_pointer_xl, h]
    decide


/-! ### The invariant of the segment registry -/

/-- C31. Segment registry invariant: in every state reachable from the initial state by
`allocate_segment`, `deallocate_segment`, `init_segments`, `reset_segments`, `swap_segments` and
`clear_segments` calls (and stores of the client into memory), with the blocks that `new`
returns, every segment has `segment_size(id) <= max_segment_size()`, the primary buffer of a
segment is null iff its shadow buffer is null, a segment without a buffer has size `0`, and the
ids `0` and `1`, below `first_segment_index() == 2`, have no buffer. -/
theorem registry_invariant_of_reachable (st : storage_model_base) (hst : reachable st) :
    (∀ id, st.segment_size id ≤ max_segment_size) ∧
    (∀ id, st.segment_address id = 0 ↔ st.sm_shadow_ptrs id = 0) ∧
    (∀ id, st.segment_address id = 0 → st.segment_size id = 0) ∧
    first_segment_index = 2 ∧
    (∀ id, id < first_segment_index →
      st.segment_address id = 0 ∧ st.sm_shadow_ptrs id = 0 ∧ st.segment_size id = 0) := by
  have h := reachable_invariant st hst
  exact ⟨h.size_le, h.null_iff, h.null_size, rfl, fun id hid => h.outside id (Or.inl hid)⟩

theorem registry_invariant_of_reachable_witness :
    reachable (example_registry.swap_segments.deallocate_segment 3) ∧
      (example_registry.swap_segments.deallocate_segment 3).segment_size 2
        ≤ max_segment_size ∧
      (example_registry.swap_segments.deallocate_segment 3).segment_address 1 = 0 :=
  have hr : reachable (example_registry.swap_segments.deallocate_segment 3) :=
    reachable.deallocate_segment _ 3 (reachable.swap_segments _ example_registry_reachable)
  have h := registry_invariant_of_reachable _ hr
  ⟨hr, h.1 2, (h.2.2.2.2 1 (by decide)).1⟩


/-! ### `round_up` -/

theorem round_up_nonneg (x : Int) (h0 : 0 ≤ x) (h1 : x ≤ 2 ^ 63 - 16) :
    monotonic_allocation_strategy.round_up x 16
      = if x % 16 ≠ 0 then x + 16 - x % 16 else x := by
  have ht : Int.tmod x 16 = x % 16 := Int.tmod_eq_emod h0 (by decide)
  unfold monotonic_allocation_strategy.round_up
  rw [ht]
  split_ifs with h
  · have hw := wrap_ptrdiff_spec (x + 16 - x % 16)
    omega
  · rfl

/-- C33. `round_up` rounds to the next 16-byte boundary: for every `n` with
`0 <= n <= 2 ^ 63 - 16`, `round_up(n, 16)` is a multiple of 16 with
`n <= round_up(n, 16) < n + 16`, no multiple of 16 that is at least `n` is smaller, and
`round_up(round_up(n, 16), 16) == round_up(n, 16)`. On an initialized strategy, when the chunk
fits in the current segment, `allocate(n)` hands the cursor position to `segment_pointer` and
advances the cursor offset by exactly `round_up(n, 16)`, in the same segment. -/
theorem round_up_next_boundary (n : Nat) (hn : n ≤ 2 ^ 63 - 16) :
    monotonic_allocation_strategy.round_up (n : Int) 16 % 16 = 0 ∧
    (n : Int) ≤ monotonic_allocation_strategy.round_up (n : Int) 16 ∧
    monotonic_allocation_strategy.round_up (n : Int) 16 < (n : Int) + 16 ∧
    (∀ y : Int, y % 16 = 0 → (n : Int) ≤ y →
      monotonic_allocation_strategy.round_up (n : Int) 16 ≤ y) ∧
    monotonic_allocation_strategy.round_up
        (monotonic_allocation_strategy.round_up (n : Int) 16) 16
      = monotonic_allocation_strategy.round_up (n : Int) 16 ∧
    (∀ (st : storage_model_base) (fresh : Nat → Nat × Nat) (s : monotonic_allocation_strategy),
      s.sm_initialized = true →
      s.sm_curr_offset + (monotonic_allocation_strategy.round_up (n : Int) 16).toNat
        ≤ max_segment_size →
      (monotonic_allocation_strategy.allocate_chunk st fresh s n).2.2
        = (s.sm_curr_segment, s.sm_curr_offset) ∧
      (monotonic_allocation_strategy.allocate_chunk st fresh s n).2.1.sm_curr_segment
        = s.sm_curr_segment ∧
      (monotonic_allocation_strategy.allocate_chunk st fresh s n).2.1.sm_curr_offset
        = s.sm_curr_offset + (monotonic_allocation_strategy.round_up (n : Int) 16).toNat) := by
  have h0 : (0 : Int) ≤ (n : Int) := Int.ofNat_nonneg n
  have h1 : (n : Int) ≤ 2 ^ 63 - 16 := by omega
  have hr := round_up_nonneg (n : Int) h0 h1
  have hmod : monotonic_allocation_strategy.round_up (n : Int) 16 % 16 = 0 := by
    rw [hr]
    split_ifs <;> omega
  have hidem : monotonic_allocation_strategy.round_up
      (monotonic_allocation_strategy.round_up (n : Int) 16) 16
      = monotonic_allocation_strategy.round_up (n : Int) 16 := by
    have hlo : (0 : Int) ≤ monotonic_allocation_strategy.round_up (n : Int) 16 := by
      rw [hr]
      split_ifs <;> omega
    have ht : Int.tmod (monotonic_allocation_strategy.round_up (n : Int) 16) 16 = 0 := by
      rw [Int.tmod_eq_emod hlo (by decide)]
      exact hmod
    generalize monotonic_allocation_strategy.round_up (n : Int) 16 = r at ht
    simp only [monotonic_allocation_strategy.round_up, ht, ne_eq, not_true_eq_false, if_false]
  refine ⟨hmod, ?_, ?_, ?_, hidem, ?_⟩
  · rw [hr]
    split_ifs <;> omega
  · rw [hr]
    split_ifs <;> omega
  · intro y hy hle
    rw [hr]
    split_ifs <;> omega
  · intro st fresh s hinit hfit
    have hp : to_ptrdiff_t n = (n : Int) := by
      unfold to_ptrdiff_t
      split_ifs <;> omega
    obtain ⟨seg, off, ini⟩ := s
    simp only at hinit hfit
    subst hinit
    simp only [monotonic_allocation_strategy.allocate_chunk, Bool.not_true, Bool.false_eq_true,
      if_false, hp]
    have hc : to_size_t (monotonic_allocation_strategy.round_up (n : Int) 16)
        = (monotonic_allocation_strategy.round_up (n : Int) 16).toNat := by
      have hlo : (0 : Int) ≤ monotonic_allocation_strategy.round_up (n : Int) 16 := by
        rw [hr]
        split_ifs <;> omega
      have hhi : monotonic_allocation_strategy.round_up (n : Int) 16 < 2 ^ 63 := by
        rw [hr]
        split_ifs <;> omega
      unfold to_size_t
      omega
    rw [hc]
    have hmax : max_segment_size = 2 ^ 27 := rfl
    rw [hmax] at hfit ⊢
    generalize (monotonic_allocation_strategy.round_up (n : Int) 16).toNat = c at hfit ⊢
    rw [if_neg (by omega)]
    refine ⟨rfl, rfl, ?_⟩
    dsimp only
    omega

theorem round_up_next_boundary_witness :
    monotonic_allocation_strategy.round_up ((100 : Nat) : Int) 16 = 112 ∧
      (monotonic_allocation_strategy.allocate_chunk example_registry (fun _ => (0, 0))
        ⟨2, 176, true⟩ 100).2.1.sm_curr_offset = 288 :=
  have h := round_up_next_boundary 100 (by norm_num)
  ⟨by decide,
    ((h.2.2.2.2.2 example_registry (fun _ => (0, 0)) ⟨2, 176, true⟩ rfl (by decide)).2.2).trans
      (by decide)⟩


/-! ### `operator !=` and `operator ==` -/

theorem op_ne_not_op_eq {AM : Type} [addressing_model AM] (st : storage_model_base)
    (l1 l2 : Nat) (p q : syn_ptr AM) (a : Nat) (k : Int) :
    syn_ptr.op_ne st l1 l2 p q = !(syn_ptr.op_eq st l1 l2 p q) ∧
      syn_ptr.op_ne_ptr st l1 p a = !(syn_ptr.op_eq_ptr st l1 p a) ∧
      syn_ptr.op_ne_int st l1 p 0 = !(syn_ptr.op_eq_int st l1 p 0) ∧
      (k ≠ 0 → syn_ptr.op_ne_int st l1 p k = false ∧ syn_ptr.op_eq_int st l1 p k = false) := by
  refine ⟨rfl, rfl, ?_, fun hk => ?_⟩
  · simp [syn_ptr.op_ne_int, syn_ptr.op_eq_int]
  · simp [syn_ptr.op_ne_int, syn_ptr.op_eq_int, hk]

/-- C39, the code at the failing input: for the `based_2d_msk` handle `p = (2, 64)` of the
example registry and the integer `k = 1`, `p != k` is `false` and `p == k` is `false` too, so
`(p != k) == !(p == k)` does not hold; the same for the null handle. With `k = 0` the two
operators are the negation of each other. -/
theorem int_inequality_is_not_negation :
    syn_ptr.op_ne_int example_registry 16
        (⟨based_2d_msk_addressing_model.ctor 2 64⟩ : syn_ptr based_2d_msk_addressing_model) 1
        = false ∧
      syn_ptr.op_eq_int example_registry 16
        (⟨based_2d_msk_addressing_model.ctor 2 64⟩ : syn_ptr based_2d_msk_addressing_model) 1
        = false ∧
      syn_ptr.op_ne_int example_registry 16
        (syn_ptr.of_null 32 : syn_ptr based_2d_msk_addressing_model) 1 = false ∧
      syn_ptr.op_eq_int example_registry 16
        (syn_ptr.of_null 32 : syn_ptr based_2d_msk_addressing_model) 1 = false ∧
      syn_ptr.op_ne_int example_registry 16
        (⟨based_2d_msk_addressing_model.ctor 2 64⟩ : syn_ptr based_2d_msk_addressing_model) 0
        = true ∧
      syn_ptr.op_eq_int example_registry 16
        (⟨based_2d_msk_addressing_model.ctor 2 64⟩ : syn_ptr based_2d_msk_addressing_model) 0
        = false := by
  decide


/-! ### The ready flag -/

theorem reachable_of_without_deallocate (st : storage_model_base)
    (h : reachable_without_deallocate st) : reachable st := by
  induction h with
  | initial mem => exact reachable.initial mem
  | allocate_segment st segment size ns np _ hn ih =>
    exact reachable.allocate_segment st segment size ns np ih hn
  | init_segments st fresh _ hn ih => exact reachable.init_segments st fresh ih hn
  | reset_segments st _ ih => exact reachable.reset_segments st ih
  | swap_segments st _ ih => exact reachable.swap_segments st ih
  | clear_segments st _ ih => exact reachable.clear_segments st ih
  | store st mem _ ih => exact reachable.store st mem ih

theorem allocate_segment_keeps_live (st : storage_model_base)
    (segment size new_shadow new_primary id : Nat) (h : st.sm_segment_ptrs id ≠ 0) :
    (st.allocate_segment segment size new_shadow new_primary).sm_segment_ptrs id ≠ 0 := by
  unfold storage_model_base.allocate_segment
  split_ifs with hg
  · have hne : id ≠ segment := fun e => h (e ▸ hg.2.2.2)
    simp only [Function.update_noteq hne]
    exact h
  · exact h

theorem allocate_segment_ready (st : storage_model_base)
    (segment size new_shadow new_primary : Nat) :
    (st.allocate_segment segment size new_shadow new_primary).sm_ready = st.sm_ready := by
  unfold storage_model_base.allocate_segment
  split_ifs <;> rfl

theorem allocate_segment_makes_live (st : storage_model_base) (id new_shadow new_primary : Nat)
    (hid : first_segment_index ≤ id ∧ id ≤ last_segment_index)
    (hn : new_pair st id max_size new_shadow new_primary) :
    (st.allocate_segment id max_size new_shadow new_primary).sm_segment_ptrs id ≠ 0 := by
  by_cases h0 : st.sm_segment_ptrs id = 0
  · have hg : id ≥ first_segment_index ∧ id ≤ last_segment_index ∧ max_size ≤ max_size ∧
        st.sm_segment_ptrs id = 0 := ⟨hid.1, hid.2, Nat.le_refl _, h0⟩
    have hnp := (hn hg).2.1.1
    simp only [storage_model_base.allocate_segment, if_pos hg, Function.update_same]
    exact hnp
  · exact allocate_segment_keeps_live st id max_size new_shadow new_primary id h0

theorem allocate_all_keeps_live (fresh : Nat → Nat × Nat) (l : List Nat) (id : Nat) :
    ∀ st : storage_model_base, st.sm_segment_ptrs id ≠ 0 →
      (allocate_all fresh st l).sm_segment_ptrs id ≠ 0 := by
  induction l with
  | nil => intro st h; exact h
  | cons i rest ih =>
    intro st h
    exact ih _ (allocate_segment_keeps_live st i max_size _ _ id h)

theorem allocate_all_makes_live (fresh : Nat → Nat × Nat) (l : List Nat)
    (hl : ∀ i ∈ l, first_segment_index ≤ i ∧ i ≤ last_segment_index) :
    ∀ st : storage_model_base, new_pairs fresh st l →
      ∀ id ∈ l, (allocate_all fresh st l).sm_segment_ptrs id ≠ 0 := by
  induction l with
  | nil => intro st _ id hid; simp at hid
  | cons i rest ih =>
    intro st hn id hid
    rcases List.mem_cons.mp hid with e | e
    · subst e
      exact allocate_all_keeps_live fresh rest id _
        (allocate_segment_makes_live st id _ _ (hl id (List.mem_cons_self _ _)) hn.1)
    · exact ih (fun j hj => hl j (List.mem_cons_of_mem _ hj)) _ hn.2 id e

theorem init_segments_makes_live (st : storage_model_base) (fresh : Nat → Nat × Nat)
    (hn : new_pairs fresh st segment_indices) (hready : st.sm_ready = false) (id : Nat)
    (hid : first_segment_index ≤ id ∧ id ≤ last_segment_index) :
    (st.init_segments fresh).sm_ready = true ∧
      (st.init_segments fresh).segment_address id ≠ 0 := by
  simp only [storage_model_base.init_segments, hready, Bool.not_false, if_true,
    storage_model_base.segment_address, true_and]
  exact allocate_all_makes_live fresh segment_indices
    (fun i hi => (mem_segment_indices i).mp hi) st hn id ((mem_segment_indices id).mpr hid)

theorem deallocate_segment_ready (st : storage_model_base) (segment : Nat) :
    (st.deallocate_segment segment).sm_ready = st.sm_ready := by
  unfold storage_model_base.deallocate_segment
  split_ifs <;> rfl

theorem clear_segments_ready (st : storage_model_base) : st.clear_segments.sm_ready = false := by
  simp only [storage_model_base.clear_segments, segment_indices_eq, List.foldl_cons,
    List.foldl_nil, deallocate_segment_ready]

theorem swap_segments_ready (st : storage_model_base) :
    st.swap_segments.sm_ready = st.sm_ready := by
  rw [swap_segments_eq]
  rfl

theorem reset_segments_tables (st : storage_model_base) :
    st.reset_segments.sm_segment_ptrs = st.sm_segment_ptrs ∧
      st.reset_segments.sm_ready = st.sm_ready := by
  have t2 := reset_segment_tables st 2
  have t3 := reset_segment_tables (reset_segment st 2) 3
  have t4 := reset_segment_tables (reset_segment (reset_segment st 2) 3) 4
  rw [reset_segments_eq, t4.1, t3.1, t2.1, t4.2.2.2, t3.2.2.2, t2.2.2.2]
  exact ⟨rfl, rfl⟩

theorem ready_implies_live_aux (st : storage_model_base) (h : reachable_without_deallocate st) :
    st.sm_ready = true →
      ∀ id, first_segment_index ≤ id ∧ id ≤ last_segment_index → st.sm_segment_ptrs id ≠ 0 := by
  induction h with
  | initial mem =>
    intro hr
    simp [storage_model_base.initial] at hr
  | allocate_segment st segment size ns np _ _ ih =>
    intro hr id hid
    rw [allocate_segment_ready] at hr
    exact allocate_segment_keeps_live st segment size ns np id (ih hr id hid)
  | init_segments st fresh _ hn ih =>
    intro hr id hid
    by_cases hready : st.sm_ready = true
    · have e : st.init_segments fresh = st := by
        simp only [storage_model_base.init_segments, hready, Bool.not_true,
          Bool.false_eq_true, if_false]
      rw [e]
      exact ih hready id hid
    · have hf : st.sm_ready = false := by simpa using hready
      exact (init_segments_makes_live st fresh hn hf id hid).2
  | reset_segments st _ ih =>
    intro hr id hid
    rw [(reset_segments_tables st).2] at hr
    rw [(reset_segments_tables st).1]
    exact ih hr id hid
  | swap_segments st hst ih =>
    intro hr id hid
    rw [swap_segments_ready] at hr
    rw [(swap_segments_tables st id hid).1]
    have hinv := reachable_invariant st (reachable_of_without_deallocate st hst)
    exact fun hc => ih hr id hid ((hinv.null_iff id).mpr hc)
  | clear_segments st _ _ =>
    intro hr
    rw [clear_segments_ready] at hr
    exact absurd hr (by decide)
  | store st mem _ ih =>
    intro hr id hid
    exact ih hr id hid


theorem example_new_pairs :
    new_pairs (fun i => (i * 2 ^ 28, i * 2 ^ 28 + 2 ^ 27))
      (storage_model_base.initial (fun _ => 0)) segment_indices := by
  rw [segment_indices_eq]
  simp [new_pairs, new_pair, new_block, ranges_disjoint, storage_model_base.allocate_segment,
    storage_model_base.initial, first_segment_index, last_segment_index, max_segments, max_size,
    Function.update_apply]
  refine ⟨⟨fun j => ?_, fun j => ?_⟩, fun j => ?_, fun j => ?_⟩ <;> constructor <;>
    split_ifs <;> omega


theorem example_all_segments_reachable :
    reachable_without_deallocate ((storage_model_base.initial (fun _ => 0)).init_segments
      (fun i => (i * 2 ^ 28, i * 2 ^ 28 + 2 ^ 27))) :=
  reachable_without_deallocate.init_segments _ _ (reachable_without_deallocate.initial _)
    example_new_pairs

/-- C38, as the claim states it, fails: from the initial registry, `init_segments()` followed
by `deallocate_segment(2)` gives a reachable state in which the ready flag is set and segment
`2` has no buffer; a further `init_segments()` finds the flag set and changes nothing, so
segment `2` has no buffer after that call either. -/
theorem ready_flag_counterexample :
    reachable (((storage_model_base.initial (fun _ => 0)).init_segments
      (fun i => (i * 2 ^ 28, i * 2 ^ 28 + 2 ^ 27))).deallocate_segment 2) ∧
    (first_segment_index ≤ 2 ∧ 2 ≤ last_segment_index) ∧
    (((storage_model_base.initial (fun _ => 0)).init_segments
      (fun i => (i * 2 ^ 28, i * 2 ^ 28 + 2 ^ 27))).deallocate_segment 2).sm_ready = true ∧
    (((storage_model_base.initial (fun _ => 0)).init_segments
      (fun i => (i * 2 ^ 28, i * 2 ^ 28 + 2 ^ 27))).deallocate_segment 2).segment_address 2
      = 0 ∧
    ((((storage_model_base.initial (fun _ => 0)).init_segments
      (fun i => (i * 2 ^ 28, i * 2 ^ 28 + 2 ^ 27))).deallocate_segment 2).init_segments
        (fun i => (i * 2 ^ 30, i * 2 ^ 30 + 2 ^ 27))).segment_address 2 = 0 := by
  refine ⟨reachable.deallocate_segment _ 2
    (reachable_of_without_deallocate _ example_all_segments_reachable), by decide, ?_, ?_, ?_⟩
  · rw [init_segments_initial]
    decide
  · rw [init_segments_initial]
    decide
  · rw [init_segments_initial]
    decide

/-- C38, amended. In every registry state reachable from the initial state by
`allocate_segment`, `init_segments`, `reset_segments`, `swap_segments` and `clear_segments`
calls, without a call of `deallocate_segment` from outside of the registry, if the ready flag
is set then every segment id in `[first_segment_index, last_segment_index]` is live; and in
every registry state, an `init_segments()` call that finds the ready flag clear sets it and
leaves every segment in range live. `deallocate_segment` releases a segment and leaves the
flag as it is. -/
theorem ready_implies_live (st : storage_model_base) (hst : reachable_without_deallocate st)
    (st2 : storage_model_base) (fresh : Nat → Nat × Nat)
    (hnew : new_pairs fresh st2 segment_indices) :
    (st.sm_ready = true →
      ∀ id, first_segment_index ≤ id ∧ id ≤ last_segment_index → st.segment_address id ≠ 0) ∧
    (st2.sm_ready = false →
      ∀ id, first_segment_index ≤ id ∧ id ≤ last_segment_index →
        (st2.init_segments fresh).sm_ready = true ∧
        (st2.init_segments fresh).segment_address id ≠ 0) ∧
    (∀ id, (st.deallocate_segment id).sm_ready = st.sm_ready) :=
  ⟨ready_implies_live_aux st hst,
    fun hr id hid => init_segments_makes_live st2 fresh hnew hr id hid,
    fun id => deallocate_segment_ready st id⟩

theorem ready_implies_live_witness :
    ((storage_model_base.initial (fun _ => 0)).init_segments
        (fun i => (i * 2 ^ 28, i * 2 ^ 28 + 2 ^ 27))).swap_segments.sm_ready = true ∧
      ((storage_model_base.initial (fun _ => 0)).init_segments
        (fun i => (i * 2 ^ 28, i * 2 ^ 28 + 2 ^ 27))).swap_segments.segment_address 3 ≠ 0 ∧
      ((storage_model_base.initial (fun _ => 0)).init_segments
        (fun i => (i * 2 ^ 28, i * 2 ^ 28 + 2 ^ 27))).segment_address 4 ≠ 0 :=
  have h := ready_implies_live _
    (reachable_without_deallocate.swap_segments _ example_all_segments_reachable)
    (storage_model_base.initial (fun _ => 0)) (fun i => (i * 2 ^ 28, i * 2 ^ 28 + 2 ^ 27))
    example_new_pairs
  have hr : ((storage_model_base.initial (fun _ => 0)).init_segments
      (fun i => (i * 2 ^ 28, i * 2 ^ 28 + 2 ^ 27))).swap_segments.sm_ready = true := by
    rw [swap_segments_ready, init_segments_initial]
  ⟨hr, h.1 hr 3 (by decide), (h.2.1 rfl 4 (by decide)).2⟩


/-! ### Indexing and pointer arithmetic -/

theorem load_store_bytes (mem : Nat → Nat) (a : Nat) (A : List Nat) :
    load_bytes (store_bytes mem a A) a A.length = A :=
  load_bytes_eq _ a A (fun j hj => store_bytes_inside mem a A j hj)

theorem indexing_consistent_of {AM : Type} [addressing_model AM] (E : Nat)
    (st : storage_model_base) (h : syn_ptr AM) (n tmp ret : Nat)
    (hadd : syn_ptr.to_native st (syn_ptr.add E h (n : Int) tmp ret)
      = ptr_add_diff (syn_ptr.to_native st h) ((n : Int) * (E : Int))) :
    indexing_consistent E st h n tmp ret := by
  have hc : ((n * E : Nat) : Int) = (n : Int) * (E : Int) := Nat.cast_mul n E
  have he : ptr_add_diff (syn_ptr.to_native st h) ((n : Int) * (E : Int))
      = ptr_add (syn_ptr.to_native st h) (n * E) := by
    unfold ptr_add_diff ptr_add to_size_t
    omega
  have h1 : syn_ptr.to_native st (syn_ptr.add E h (n : Int) tmp ret)
      = ptr_add (addressing_model.address st h.m_addrmodel) (n * E) := by
    rw [hadd, he]
    rfl
  refine ⟨h1.symm, h1, rfl, fun A => ?_⟩
  have h2 : syn_ptr.arrow st (syn_ptr.add E h (n : Int) tmp ret)
      = ptr_add (syn_ptr.to_native st h) (n * E) := h1
  rw [h2]
  exact load_store_bytes _ _ A

/-- C34. Indexing agrees with pointer arithmetic. In a reachable registry state, with
`E = sizeof(T)`, the element designated by `h[n]` is at the address of `h + n`, which is
`h.address() + n * E`, `*h` and `h.operator->()` designate `h.address()`, and data stored through
`*(h + n)` is read back through the native pointer `h.address() + n * E`:
* for every handle and index of the wrapper and the `based_2d_xl` model;
* for a `based_2d_msk` handle when its offset plus `n * E` stays inside its segment;
* for a handle of the offset model that designates offset `o` of a segment `s`, when
  `o + n * E` stays inside the segment and the temporary and the result of `operator +` are
  stored outside of the segment (the address they reserve for null is not one of the segment). -/
theorem indexing_agrees_with_arithmetic (st : storage_model_base) (hst : reachable st)
    (E n tmp ret s o : Nat) (w : wrapper_addressing_model) (x : based_2d_xl_addressing_model)
    (m : based_2d_msk_addressing_model) (f : offset_addressing_model) :
    indexing_consistent E st (⟨w⟩ : syn_ptr wrapper_addressing_model) n tmp ret ∧
    indexing_consistent E st (⟨x⟩ : syn_ptr based_2d_xl_addressing_model) n tmp ret ∧
    (m.offset + n * E ≤ st.segment_size m.segment →
      indexing_consistent E st (⟨m⟩ : syn_ptr based_2d_msk_addressing_model) n tmp ret) ∧
    (f.equals_null = false → f.address = st.segment_address s + o →
      o + n * E ≤ st.segment_size s →
      (offset_addressing_model.reserved tmp < st.segment_address s ∨
        st.segment_address s + st.segment_size s < offset_addressing_model.reserved tmp) →
      (offset_addressing_model.reserved ret < st.segment_address s ∨
        st.segment_address s + st.segment_size s < offset_addressing_model.reserved ret) →
      indexing_consistent E st (⟨f⟩ : syn_ptr offset_addressing_model) n tmp ret) := by
  have hinv := reachable_invariant st hst
  have hc : ((n * E : Nat) : Int) = (n : Int) * (E : Int) := Nat.cast_mul n E
  refine ⟨?_, ?_, fun hm => ?_, fun hnn ha ho htmp hret => ?_⟩
  · exact indexing_consistent_of E st _ n tmp ret (wrapper_add_address st w E n tmp ret)
  · exact indexing_consistent_of E st _ n tmp ret (xl_add_address st x E n tmp ret)
  · apply indexing_consistent_of E st _ n tmp ret
    apply msk_add_address st m E n tmp ret
    have hsz := hinv.size_le m.segment
    simp only [storage_model_base.segment_size, max_size] at hm hsz
    omega
  · apply indexing_consistent_of E st _ n tmp ret
    have hsp := (hinv.in_space s).1
    simp only [storage_model_base.segment_address, storage_model_base.segment_size]
      at ha ho htmp hret
    have hnn2 : f.m_offset ≠ offset_addressing_model.null_offset := by
      simpa [offset_addressing_model.equals_null] using hnn
    have he : ptr_add_diff f.address ((n : Int) * (E : Int))
        = st.sm_segment_ptrs s + o + n * E := by
      rw [ha]
      unfold ptr_add_diff to_size_t
      omega
    apply offset_add_address st f E n tmp ret hnn2
    · rw [ha]
      omega
    · rw [he]
      omega
    · rw [he]
      omega

theorem indexing_agrees_with_arithmetic_witness :
    reachable example_registry ∧
      indexing_consistent 4 example_registry
        (⟨based_2d_msk_addressing_model.ctor 2 64⟩ : syn_ptr based_2d_msk_addressing_model)
        3 16 32 ∧
      indexing_consistent 4 example_registry
        (⟨⟨48, 8208⟩⟩ : syn_ptr offset_addressing_model) 3 16 32 :=
  have h := indexing_agrees_with_arithmetic example_registry example_registry_reachable
    4 3 16 32 2 64 ⟨8256⟩ (based_2d_xl_addressing_model.ctor 2 64)
    (based_2d_msk_addressing_model.ctor 2 64) ⟨48, 8208⟩
  ⟨example_registry_reachable, h.2.2.1 (by decide),
    h.2.2.2 (by decide) (by decide) (by decide) (by decide) (by decide)⟩


/-! ### Sequences of `allocate` calls -/

theorem chunk_size_bounds (n : Nat) (hn : n ≤ max_segment_size) :
    n ≤ to_size_t (monotonic_allocation_strategy.round_up (to_ptrdiff_t n) 16) ∧
      to_size_t (monotonic_allocation_strategy.round_up (to_ptrdiff_t n) 16) % 16 = 0 ∧
      to_size_t (monotonic_allocation_strategy.round_up (to_ptrdiff_t n) 16)
        ≤ max_segment_size ∧
      (n ≤ max_segment_size - 64 →
        to_size_t (monotonic_allocation_strategy.round_up (to_ptrdiff_t n) 16)
          ≤ max_segment_size - 64) := by
  have hmax : max_segment_size = 2 ^ 27 := rfl
  rw [hmax] at hn ⊢
  have hp : to_ptrdiff_t n = (n : Int) := by
    unfold to_ptrdiff_t
    split_ifs <;> omega
  have hr := round_up_nonneg (n : Int) (Int.ofNat_nonneg n) (by omega)
  rw [hp, hr]
  unfold to_size_t
  split_ifs <;> omega

theorem next_cursor_initialized (g o : Nat) :
    monotonic_allocation_strategy.next_cursor ⟨g, o, true⟩ = (g, o) := rfl

theorem allocate_chunk_next_cursor (st : storage_model_base) (fresh : Nat → Nat × Nat)
    (s : monotonic_allocation_strategy) (n : Nat) :
    (monotonic_allocation_strategy.allocate_chunk st fresh s n).2
      = (monotonic_allocation_strategy.allocate_chunk st fresh
          ⟨(monotonic_allocation_strategy.next_cursor s).1,
            (monotonic_allocation_strategy.next_cursor s).2, true⟩ n).2 := by
  obtain ⟨g, o, ini⟩ := s
  cases ini
  · simp only [monotonic_allocation_strategy.allocate_chunk,
      monotonic_allocation_strategy.next_cursor, Bool.not_false, Bool.not_true,
      Bool.false_eq_true, if_true, if_false]
    split_ifs <;> rfl
  · rfl

theorem allocate_chunk_step (st : storage_model_base) (fresh : Nat → Nat × Nat)
    (s : monotonic_allocation_strategy) (n c : Nat)
    (hc : c = to_size_t (monotonic_allocation_strategy.round_up (to_ptrdiff_t n) 16))
    (hcb : c ≤ max_segment_size)
    (ho : (monotonic_allocation_strategy.next_cursor s).2 ≤ 64 + max_segment_size) :
    (monotonic_allocation_strategy.allocate_chunk st fresh s n).2
      = if (monotonic_allocation_strategy.next_cursor s).2 + c > max_segment_size then
          (⟨((monotonic_allocation_strategy.next_cursor s).1 + 1) % 2 ^ 64, 64 + c, true⟩,
            ((monotonic_allocation_strategy.next_cursor s).1 + 1) % 2 ^ 64, 64)
        else
          (⟨(monotonic_allocation_strategy.next_cursor s).1,
              (monotonic_allocation_strategy.next_cursor s).2 + c, true⟩,
            (monotonic_allocation_strategy.next_cursor s).1,
            (monotonic_allocation_strategy.next_cursor s).2) := by
  rw [allocate_chunk_next_cursor]
  generalize (monotonic_allocation_strategy.next_cursor s).1 = g at *
  generalize (monotonic_allocation_strategy.next_cursor s).2 = o at *
  have hmax : max_segment_size = 2 ^ 27 := rfl
  rw [hmax] at hcb ho
  simp only [monotonic_allocation_strategy.allocate_chunk, Bool.not_true, Bool.false_eq_true,
    if_false, ← hc]
  have e1 : (o + c) % 2 ^ 64 = o + c := Nat.mod_eq_of_lt (by omega)
  have e2 : (64 + c) % 2 ^ 64 = 64 + c := Nat.mod_eq_of_lt (by omega)
  rw [e1, e2]
  split_ifs <;> rfl


theorem allocate_chunk_facts (st : storage_model_base) (fresh : Nat → Nat × Nat)
    (s : monotonic_allocation_strategy) (n : Nat) (hn : n ≤ max_segment_size)
    (ho : (monotonic_allocation_strategy.next_cursor s).2 ≤ 64 + max_segment_size) :
    ∃ g1 o1 c, (monotonic_allocation_strategy.allocate_chunk st fresh s n).2
        = (⟨g1, o1 + c, true⟩, g1, o1) ∧
      c = to_size_t (monotonic_allocation_strategy.round_up (to_ptrdiff_t n) 16) ∧
      n ≤ c ∧ c % 16 = 0 ∧ c ≤ max_segment_size ∧
      ((g1 = (monotonic_allocation_strategy.next_cursor s).1 ∧
          o1 = (monotonic_allocation_strategy.next_cursor s).2 ∧ o1 + c ≤ max_segment_size) ∨
        (g1 = ((monotonic_allocation_strategy.next_cursor s).1 + 1) % 2 ^ 64 ∧ o1 = 64 ∧
          max_segment_size < (monotonic_allocation_strategy.next_cursor s).2 + c)) := by
  obtain ⟨h1, h2, h3, _⟩ := chunk_size_bounds n hn
  have hstep := allocate_chunk_step st fresh s n _ rfl h3 ho
  by_cases hgt : (monotonic_allocation_strategy.next_cursor s).2
      + to_size_t (monotonic_allocation_strategy.round_up (to_ptrdiff_t n) 16) > max_segment_size
  · rw [if_pos hgt] at hstep
    exact ⟨_, 64, _, hstep, rfl, h1, h2, h3, Or.inr ⟨rfl, rfl, hgt⟩⟩
  · rw [if_neg hgt] at hstep
    exact ⟨_, _, _, hstep, rfl, h1, h2, h3, Or.inl ⟨rfl, rfl, by omega⟩⟩

theorem run_calls_aligned {AM : Type} (fresh : Nat → Nat × Nat)
    (calls : List (monotonic_allocation_strategy.strategy_call AM)) :
    (∀ n, monotonic_allocation_strategy.strategy_call.allocate n ∈ calls →
        n ≤ max_segment_size) →
    ∀ (st : storage_model_base) (s : monotonic_allocation_strategy),
      (monotonic_allocation_strategy.next_cursor s).2 % 16 = 0 ∧
        64 ≤ (monotonic_allocation_strategy.next_cursor s).2 ∧
        (monotonic_allocation_strategy.next_cursor s).2 ≤ 64 + max_segment_size →
      ((monotonic_allocation_strategy.next_cursor
            (monotonic_allocation_strategy.run_calls fresh st s calls).2.1).2 % 16 = 0 ∧
          64 ≤ (monotonic_allocation_strategy.next_cursor
            (monotonic_allocation_strategy.run_calls fresh st s calls).2.1).2 ∧
          (monotonic_allocation_strategy.next_cursor
            (monotonic_allocation_strategy.run_calls fresh st s calls).2.1).2
            ≤ 64 + max_segment_size) ∧
        ∀ ch ∈ (monotonic_allocation_strategy.run_calls fresh st s calls).2.2,
          ch.2.1 % 16 = 0 ∧ 64 ≤ ch.2.1 := by
  induction calls with
  | nil =>
    intro _ st s hs
    exact ⟨hs, fun ch hch => by simp [monotonic_allocation_strategy.run_calls] at hch⟩
  | cons call rest ih =>
    intro hb st s hs
    have hb2 : ∀ n, monotonic_allocation_strategy.strategy_call.allocate n ∈ rest →
        n ≤ max_segment_size := fun n hn => hb n (List.mem_cons_of_mem _ hn)
    cases call with
    | allocate n =>
      obtain ⟨g1, o1, c, heq, -, -, hc16, hcmax, hcase⟩ :=
        allocate_chunk_facts st fresh s n (hb n (List.mem_cons_self _ _)) hs.2.2
      have ho1 : o1 % 16 = 0 ∧ 64 ≤ o1 := by
        rcases hcase with ⟨-, e, -⟩ | ⟨-, e, -⟩
        · rw [e]; exact ⟨hs.1, hs.2.1⟩
        · rw [e]; exact ⟨by decide, Nat.le_refl _⟩
      have hs1 : (monotonic_allocation_strategy.next_cursor ⟨g1, o1 + c, true⟩).2 % 16 = 0 ∧
          64 ≤ (monotonic_allocation_strategy.next_cursor ⟨g1, o1 + c, true⟩).2 ∧
          (monotonic_allocation_strategy.next_cursor ⟨g1, o1 + c, true⟩).2
            ≤ 64 + max_segment_size := by
        rw [next_cursor_initialized]
        dsimp only
        rcases hcase with ⟨-, -, h⟩ | ⟨-, e, -⟩
        · omega
        · omega
      simp only [monotonic_allocation_strategy.run_calls]
      rw [heq]
      have h := ih hb2 (monotonic_allocation_strategy.allocate_chunk st fresh s n).1 _ hs1
      refine ⟨h.1, fun ch hch => ?_⟩
      rcases List.mem_cons.mp hch with e | e
      · rw [e]
        exact ho1
      · exact h.2 ch e
    | deallocate p =>
      simp only [monotonic_allocation_strategy.run_calls]
      exact ih hb2 st _ hs
    | reset_segments =>
      simp only [monotonic_allocation_strategy.run_calls]
      apply ih hb2
      have e : (monotonic_allocation_strategy.next_cursor
          (monotonic_allocation_strategy.reset_segments st s).2).2 = 64 := by
        simp only [monotonic_allocation_strategy.next_cursor,
          monotonic_allocation_strategy.reset_segments]
        split_ifs <;> rfl
      rw [e]
      exact ⟨by decide, Nat.le_refl _, by omega⟩


theorem chunk_size_mod16 (n : Nat) :
    to_size_t (monotonic_allocation_strategy.round_up (to_ptrdiff_t n) 16) % 16 = 0 := by
  have hq := Int.tdiv_add_tmod (to_ptrdiff_t n) 16
  unfold monotonic_allocation_strategy.round_up
  split_ifs with h
  · rw [to_size_t_wrap_ptrdiff]
    unfold to_size_t
    omega
  · have h0 : Int.tmod (to_ptrdiff_t n) 16 = 0 := by
      by_contra hc
      exact h hc
    unfold to_size_t
    omega

theorem allocate_chunk_step_any (st : storage_model_base) (fresh : Nat → Nat × Nat)
    (s : monotonic_allocation_strategy) (n : Nat) :
    (monotonic_allocation_strategy.allocate_chunk st fresh s n).2
      = if ((monotonic_allocation_strategy.next_cursor s).2
            + to_size_t (monotonic_allocation_strategy.round_up (to_ptrdiff_t n) 16)) % 2 ^ 64
          > max_segment_size then
          (⟨((monotonic_allocation_strategy.next_cursor s).1 + 1) % 2 ^ 64,
              (64 + to_size_t (monotonic_allocation_strategy.round_up (to_ptrdiff_t n) 16))
                % 2 ^ 64, true⟩,
            ((monotonic_allocation_strategy.next_cursor s).1 + 1) % 2 ^ 64, 64)
        else
          (⟨(monotonic_allocation_strategy.next_cursor s).1,
              ((monotonic_allocation_strategy.next_cursor s).2
                + to_size_t (monotonic_allocation_strategy.round_up (to_ptrdiff_t n) 16))
                % 2 ^ 64, true⟩,
            (monotonic_allocation_strategy.next_cursor s).1,
            (monotonic_allocation_strategy.next_cursor s).2) := by
  rw [allocate_chunk_next_cursor]
  generalize (monotonic_allocation_strategy.next_cursor s).1 = g
  generalize (monotonic_allocation_strategy.next_cursor s).2 = o
  simp only [monotonic_allocation_strategy.allocate_chunk, Bool.not_true, Bool.false_eq_true,
    if_false]
  split_ifs <;> rfl

theorem run_calls_mod16 {AM : Type} (fresh : Nat → Nat × Nat)
    (calls : List (monotonic_allocation_strategy.strategy_call AM)) :
    ∀ (st : storage_model_base) (s : monotonic_allocation_strategy),
      (monotonic_allocation_strategy.next_cursor s).2 % 16 = 0 →
      (monotonic_allocation_strategy.next_cursor
          (monotonic_allocation_strategy.run_calls fresh st s calls).2.1).2 % 16 = 0 ∧
        ∀ ch ∈ (monotonic_allocation_strategy.run_calls fresh st s calls).2.2,
          ch.2.1 % 16 = 0 := by
  induction calls with
  | nil =>
    intro st s hs
    exact ⟨hs, fun ch hch => by simp [monotonic_allocation_strategy.run_calls] at hch⟩
  | cons call rest ih =>
    intro st s hs
    cases call with
    | allocate n =>
      have hc := chunk_size_mod16 n
      have hstep := allocate_chunk_step_any st fresh s n
      generalize to_size_t (monotonic_allocation_strategy.round_up (to_ptrdiff_t n) 16) = c
        at hc hstep
      simp only [monotonic_allocation_strategy.run_calls]
      by_cases hgt : ((monotonic_allocation_strategy.next_cursor s).2 + c) % 2 ^ 64
          > max_segment_size
      · rw [if_pos hgt] at hstep
        rw [hstep]
        have h := ih (monotonic_allocation_strategy.allocate_chunk st fresh s n).1
          ⟨((monotonic_allocation_strategy.next_cursor s).1 + 1) % 2 ^ 64,
            (64 + c) % 2 ^ 64, true⟩ (by rw [next_cursor_initialized]; dsimp only; omega)
        refine ⟨h.1, fun ch hch => ?_⟩
        rcases List.mem_cons.mp hch with e | e
        · rw [e]
          exact (by decide : 64 % 16 = 0)
        · exact h.2 ch e
      · rw [if_neg hgt] at hstep
        rw [hstep]
        have h := ih (monotonic_allocation_strategy.allocate_chunk st fresh s n).1
          ⟨(monotonic_allocation_strategy.next_cursor s).1,
            ((monotonic_allocation_strategy.next_cursor s).2 + c) % 2 ^ 64, true⟩
          (by rw [next_cursor_initialized]; dsimp only; omega)
        refine ⟨h.1, fun ch hch => ?_⟩
        rcases List.mem_cons.mp hch with e | e
        · rw [e]
          exact hs
        · exact h.2 ch e
    | deallocate p =>
      simp only [monotonic_allocation_strategy.run_calls]
      exact ih st _ hs
    | reset_segments =>
      simp only [monotonic_allocation_strategy.run_calls]
      apply ih
      have e : (monotonic_allocation_strategy.next_cursor
          (monotonic_allocation_strategy.reset_segments st s).2).2 = 64 := by
        simp only [monotonic_allocation_strategy.next_cursor,
          monotonic_allocation_strategy.reset_segments]
        split_ifs <;> rfl
      rw [e]


theorem next_cursor_initial_ok :
    (monotonic_allocation_strategy.next_cursor monotonic_allocation_strategy.initial).2 % 16
        = 0 ∧
      64 ≤ (monotonic_allocation_strategy.next_cursor monotonic_allocation_strategy.initial).2 ∧
      (monotonic_allocation_strategy.next_cursor monotonic_allocation_strategy.initial).2
        ≤ 64 + max_segment_size := by
  decide

/-- C35, as the claim states it, fails: on a fresh strategy, `allocate(0)` and then
`allocate(2 ^ 64 - 48)` leave the cursor at offset `16` of segment `2` (the sum
`64 + (2 ^ 64 - 48)` wraps), and the next `allocate(16)` returns the offset `16`, which is
below `64`. -/
theorem allocation_alignment_counterexample :
    (@monotonic_allocation_strategy.run_calls based_2d_msk_addressing_model (fun _ => (0, 0))
        example_registry monotonic_allocation_strategy.initial
        [monotonic_allocation_strategy.strategy_call.allocate 0,
          monotonic_allocation_strategy.strategy_call.allocate 18446744073709551568]).2.1
      = ⟨2, 16, true⟩ ∧
    (@monotonic_allocation_strategy.run_calls based_2d_msk_addressing_model (fun _ => (0, 0))
        example_registry monotonic_allocation_strategy.initial
        [monotonic_allocation_strategy.strategy_call.allocate 0,
          monotonic_allocation_strategy.strategy_call.allocate 18446744073709551568,
          monotonic_allocation_strategy.strategy_call.allocate 16]).2.2
      = [(2, 64, 0), (2, 64, 18446744073709551568), (2, 16, 16)] := by
  decide

/-- C35, amended. For every sequence of `allocate`, `deallocate` and `reset_segments` calls on
a fresh strategy, every offset returned by `allocate` is a multiple of 16, and so is the
cursor offset of the initialized strategy. When every request is of at most
`max_segment_size()` bytes, every offset returned is moreover `>= 64` and the cursor offset
is `>= 64`, so the first 64 bytes of a segment are never handed out. -/
theorem allocation_alignment {AM : Type} (fresh : Nat → Nat × Nat) (st : storage_model_base)
    (calls : List (monotonic_allocation_strategy.strategy_call AM)) :
    ((∀ ch ∈ (monotonic_allocation_strategy.run_calls fresh st
          monotonic_allocation_strategy.initial calls).2.2, ch.2.1 % 16 = 0) ∧
      ((monotonic_allocation_strategy.run_calls fresh st
          monotonic_allocation_strategy.initial calls).2.1.sm_initialized = true →
        (monotonic_allocation_strategy.run_calls fresh st
          monotonic_allocation_strategy.initial calls).2.1.sm_curr_offset % 16 = 0)) ∧
    ((∀ n, monotonic_allocation_strategy.strategy_call.allocate n ∈ calls →
        n ≤ max_segment_size) →
      (∀ ch ∈ (monotonic_allocation_strategy.run_calls fresh st
          monotonic_allocation_strategy.initial calls).2.2, ch.2.1 % 16 = 0 ∧ 64 ≤ ch.2.1) ∧
      ((monotonic_allocation_strategy.run_calls fresh st
          monotonic_allocation_strategy.initial calls).2.1.sm_initialized = true →
        (monotonic_allocation_strategy.run_calls fresh st
          monotonic_allocation_strategy.initial calls).2.1.sm_curr_offset % 16 = 0 ∧
        64 ≤ (monotonic_allocation_strategy.run_calls fresh st
          monotonic_allocation_strategy.initial calls).2.1.sm_curr_offset)) := by
  have h1 := run_calls_mod16 fresh calls st monotonic_allocation_strategy.initial
    next_cursor_initial_ok.1
  refine ⟨⟨h1.2, fun hi => ?_⟩, fun hb => ?_⟩
  · have h := h1.1
    simp only [monotonic_allocation_strategy.next_cursor, hi, if_true] at h
    exact h
  · have h2 := run_calls_aligned fresh calls hb st monotonic_allocation_strategy.initial
      next_cursor_initial_ok
    refine ⟨h2.2, fun hi => ?_⟩
    have h := h2.1
    simp only [monotonic_allocation_strategy.next_cursor, hi, if_true] at h
    exact ⟨h.1, h.2.1⟩

theorem allocation_alignment_witness :
    ∀ ch ∈ (@monotonic_allocation_strategy.run_calls based_2d_msk_addressing_model
        (fun _ => (0, 0)) example_registry monotonic_allocation_strategy.initial
        [monotonic_allocation_strategy.strategy_call.allocate 100,
          monotonic_allocation_strategy.strategy_call.reset_segments,
          monotonic_allocation_strategy.strategy_call.allocate 50]).2.2,
      ch.2.1 % 16 = 0 ∧ 64 ≤ ch.2.1 :=
  ((@allocation_alignment based_2d_msk_addressing_model (fun _ => (0, 0)) example_registry
    [monotonic_allocation_strategy.strategy_call.allocate 100,
      monotonic_allocation_strategy.strategy_call.reset_segments,
      monotonic_allocation_strategy.strategy_call.allocate 50]).2
    (fun n hn => by
      simp at hn
      rcases hn with e | e <;> subst e <;> decide)).1

/-! ### Chunks and the capacity of a segment -/

/-- C36, as the claim states it, fails: on a fresh strategy `allocate(2 ^ 64 - 80)` leaves the
cursor at `(3, 2 ^ 64 - 16)`; for the request `n = 16`, which is at most
`max_segment_size() - 64`, the sum `(2 ^ 64 - 16) + 16` wraps to `0`, the chunk is taken at the
cursor, and `allocate(16)` returns `(3, 2 ^ 64 - 16)`: the chunk ends far beyond
`max_segment_size()`. -/
theorem chunk_fits_counterexample :
    (@monotonic_allocation_strategy.run_calls based_2d_msk_addressing_model (fun _ => (0, 0))
        example_registry monotonic_allocation_strategy.initial
        [monotonic_allocation_strategy.strategy_call.allocate 18446744073709551536]).2.1
      = ⟨3, 18446744073709551600, true⟩ ∧
    16 ≤ max_segment_size - 64 ∧
    (monotonic_allocation_strategy.allocate_chunk example_registry (fun _ => (0, 0))
        ⟨3, 18446744073709551600, true⟩ 16).2.2 = (3, 18446744073709551600) ∧
    ¬ (18446744073709551600
        + to_size_t (monotonic_allocation_strategy.round_up (to_ptrdiff_t 16) 16)
      ≤ max_segment_size) := by
  decide

/-- C36, amended. For every cursor state that a fresh strategy reaches by `allocate` calls of
at most `max_segment_size()` bytes each, `deallocate` calls and `reset_segments` calls, and for
every request `n <= max_segment_size() - 64`, the pair `(segment, offset)` that `allocate(n)`
hands to `segment_pointer` satisfies `offset + round_up(n, 16) <= max_segment_size()`, and
`offset >= 64`. -/
theorem chunk_fits {AM : Type} (fresh : Nat → Nat × Nat) (st st2 : storage_model_base)
    (calls : List (monotonic_allocation_strategy.strategy_call AM))
    (hb : ∀ n, monotonic_allocation_strategy.strategy_call.allocate n ∈ calls →
      n ≤ max_segment_size)
    (n : Nat) (hn : n ≤ max_segment_size - 64) :
    (monotonic_allocation_strategy.allocate_chunk st2 fresh
        (monotonic_allocation_strategy.run_calls fresh st
          monotonic_allocation_strategy.initial calls).2.1 n).2.2.2
      + to_size_t (monotonic_allocation_strategy.round_up (to_ptrdiff_t n) 16)
      ≤ max_segment_size ∧
    64 ≤ (monotonic_allocation_strategy.allocate_chunk st2 fresh
        (monotonic_allocation_strategy.run_calls fresh st
          monotonic_allocation_strategy.initial calls).2.1 n).2.2.2 := by
  have hok := (run_calls_aligned fresh calls hb st monotonic_allocation_strategy.initial
    next_cursor_initial_ok).1
  have hmax : max_segment_size = 2 ^ 27 := rfl
  have hn2 : n ≤ max_segment_size := by omega
  obtain ⟨g1, o1, c, heq, hc, -, -, -, hcase⟩ := allocate_chunk_facts st2 fresh
    (monotonic_allocation_strategy.run_calls fresh st
      monotonic_allocation_strategy.initial calls).2.1 n hn2 hok.2.2
  have hc64 := (chunk_size_bounds n hn2).2.2.2 hn
  rw [heq, ← hc]
  rw [← hc] at hc64
  dsimp only
  rcases hcase with ⟨-, e, h⟩ | ⟨-, e, -⟩
  · exact ⟨h, by omega⟩
  · omega

theorem chunk_fits_witness :
    (monotonic_allocation_strategy.allocate_chunk example_registry (fun _ => (0, 0))
        (@monotonic_allocation_strategy.run_calls based_2d_msk_addressing_model
          (fun _ => (0, 0)) example_registry monotonic_allocation_strategy.initial
          [monotonic_allocation_strategy.strategy_call.allocate 100]).2.1 134217664).2.2.2
      + to_size_t (monotonic_allocation_strategy.round_up (to_ptrdiff_t 134217664) 16)
      ≤ max_segment_size :=
  (@chunk_fits based_2d_msk_addressing_model (fun _ => (0, 0)) example_registry
    example_registry [monotonic_allocation_strategy.strategy_call.allocate 100]
    (fun n hn => by
      simp at hn
      subst hn
      decide)
    134217664 (by decide)).1

/-- C37, the code at the failing input: `rhx_allocator<char, HT>::max_size()` and
`monotonic_allocation_strategy::max_size()` are `max_segment_size() = 2 ^ 27`; on a fresh
strategy `allocate(max_size())` hands `(3, 64)` to `segment_pointer`, and
`64 + 2 ^ 27 > max_segment_size()`: the last 64 bytes of the chunk lie beyond the end of the
segment. The same holds for every byte count above `max_segment_size() - 64`, such as
`max_segment_size() - 63`. -/
theorem max_size_chunk_overflows_segment :
    rhx_allocator.max_size 1 = 134217728 ∧
    monotonic_allocation_strategy.max_size = max_segment_size ∧
    (monotonic_allocation_strategy.allocate_chunk example_registry (fun _ => (0, 0))
        monotonic_allocation_strategy.initial (rhx_allocator.max_size 1 * 1 % 2 ^ 64)).2.2
      = (3, 64) ∧
    ¬ (64 + rhx_allocator.max_size 1 * 1 ≤ max_segment_size) ∧
    (monotonic_allocation_strategy.allocate_chunk example_registry (fun _ => (0, 0))
        monotonic_allocation_strategy.initial (max_segment_size - 63)).2.2 = (3, 64) ∧
    ¬ (64 + (max_segment_size - 63) ≤ max_segment_size) := by
  decide

end FancyPointers
